import Mathlib

/-! RedirFS open-handle shadow layer (`src/redirfs/rfs_file.c`)

A shallow embedding of the open-file part of RedirFS: the reference-counted
`struct rfs_file` wrapper, the substitution of `file->f_op`, and the dispatch
entries `rfs_open`, `rfs_release` and `rfs_readdir`.

Conventions of the embedding.

* Pointers are natural numbers; a nullable pointer is an `Option`.
* The machine state is passed explicitly through the monad `M`, which also
  carries fatal faults (`BUG()` and invalid pointer uses). A fault keeps the
  state reached so far.
* The calls that leave `rfs_file.c` and act outside of it (takes and puts of
  references on other objects, the filter phases, the operations of the
  underlying implementation) are appended to `State.trace`, in order.
* The filters and the underlying implementation are opaque collaborators
  (`Env`): they may rewrite the argument record and the context they are handed,
  and they return a value. The original `open`, which is handed the
  `struct file *`, may also replace `file->f_op` by a table of the underlying
  implementation. Otherwise they do not touch the shadow-layer state.
* Locks are not modelled: the embedding is sequential.
-/

namespace RedirFS

/-! ## Kernel constants and macros -/

def ENOMEM : Int := 12

def ENOTDIR : Int := 20

def S_IFMT : Nat := 0o170000

def S_IFREG : Nat := 0o100000

def S_IFDIR : Nat := 0o040000

def S_IFLNK : Nat := 0o120000

def S_IFCHR : Nat := 0o020000

def S_IFBLK : Nat := 0o060000

def S_IFIFO : Nat := 0o010000

def S_ISREG (m : Nat) : Bool := (m &&& S_IFMT) == S_IFREG

def S_ISDIR (m : Nat) : Bool := (m &&& S_IFMT) == S_IFDIR

def S_ISLNK (m : Nat) : Bool := (m &&& S_IFMT) == S_IFLNK

def S_ISCHR (m : Nat) : Bool := (m &&& S_IFMT) == S_IFCHR

def S_ISBLK (m : Nat) : Bool := (m &&& S_IFMT) == S_IFBLK

def S_ISFIFO (m : Nat) : Bool := (m &&& S_IFMT) == S_IFIFO

def KERNEL_VERSION (a b c : Nat) : Nat := a * 65536 + b * 256 + c

/-- The value of a C `int` (and of an `atomic_t`) after an arithmetic step:
two's-complement wrap-around to 32 bits. -/
def wrap32 (x : Int) : Int := (x + 2147483648) % 4294967296 - 2147483648

def atomic_inc (c : Int) : Int := wrap32 (c + 1)

/-- The new value together with the test `new value == 0`. -/
def atomic_dec_and_test (c : Int) : Int × Bool := (wrap32 (c - 1), wrap32 (c - 1) == 0)

/-! ## Data model -/

/-- The members of `struct file_operations` that `rfs_file.c` names, and
`other n` for every remaining member of the structure. -/
inductive FopMember where
  | f_llseek | f_read | f_write | f_read_iter | f_write_iter | f_readdir
  | f_iterate | f_iterate_shared | f_poll | f_unlocked_ioctl | f_compat_ioctl
  | f_mmap | f_open | f_flush | f_release | f_fsync | f_fasync | f_lock
  | f_sendpage | f_get_unmapped_area | f_flock | f_splice_write | f_splice_read
  | f_setlease | f_fallocate | f_show_fdinfo | f_copy_file_range
  | f_clone_file_range | f_dedupe_file_range
  | other (n : Nat)
  deriving DecidableEq, Repr

/-- Function addresses: the dispatch entries of RedirFS and `impl n`, a
function of the underlying implementation. -/
inductive Fn where
  | rfs_open | rfs_release | rfs_readdir | rfs_llseek | rfs_read | rfs_write
  | rfs_read_iter | rfs_write_iter | rfs_iterate | rfs_iterate_shared | rfs_poll
  | rfs_unlocked_ioctl | rfs_compat_ioctl | rfs_mmap | rfs_flush | rfs_fsync
  | rfs_fasync | rfs_lock | rfs_sendpage | rfs_get_unmapped_area | rfs_flock
  | rfs_splice_write | rfs_splice_read | rfs_setlease | rfs_fallocate
  | rfs_show_fdinfo | rfs_copy_file_range | rfs_clone_file_range
  | rfs_dedupe_file_range
  | impl (n : Nat)
  deriving DecidableEq, Repr

/-- A `struct file_operations`: each member is a function pointer or NULL. -/
abbrev file_operations := FopMember → Option Fn

/-- A `const struct file_operations *` that is not NULL. -/
inductive TablePtr where
  /-- a table owned by the underlying implementation -/
  | ext (n : Nat)
  /-- the global `rfs_file_ops` -/
  | rfs_file_ops
  /-- the member `op_new` of the `struct rfs_file` at address `r` -/
  | op_new (r : Nat)
  deriving DecidableEq, Repr

/-- Object kinds of the operation identifiers. -/
inductive RfsInodeKind where
  | RFS_INODE_REG | RFS_INODE_DIR | RFS_INODE_LNK | RFS_INODE_CHAR
  | RFS_INODE_BLK | RFS_INODE_FIFO
  deriving DecidableEq, Repr

/-- Modelled from the spec: the operation identifiers (`enum redirfs_op_id` of
`redirfs.h`, which is not among the sources). The spec describes them as
"operation categories by object kind cross product with operation name". -/
structure OpId where
  kind : RfsInodeKind
  op : FopMember
  deriving DecidableEq, Repr

def RFS_OP_IDC (k : RfsInodeKind) (op : FopMember) : OpId := ⟨k, op⟩

def REDIRFS_REG_FOP_OPEN : OpId := RFS_OP_IDC .RFS_INODE_REG .f_open

def REDIRFS_DIR_FOP_OPEN : OpId := RFS_OP_IDC .RFS_INODE_DIR .f_open

def REDIRFS_LNK_FOP_OPEN : OpId := RFS_OP_IDC .RFS_INODE_LNK .f_open

def REDIRFS_CHR_FOP_OPEN : OpId := RFS_OP_IDC .RFS_INODE_CHAR .f_open

def REDIRFS_BLK_FOP_OPEN : OpId := RFS_OP_IDC .RFS_INODE_BLK .f_open

def REDIRFS_FIFO_FOP_OPEN : OpId := RFS_OP_IDC .RFS_INODE_FIFO .f_open

def REDIRFS_REG_FOP_RELEASE : OpId := RFS_OP_IDC .RFS_INODE_REG .f_release

def REDIRFS_DIR_FOP_RELEASE : OpId := RFS_OP_IDC .RFS_INODE_DIR .f_release

def REDIRFS_LNK_FOP_RELEASE : OpId := RFS_OP_IDC .RFS_INODE_LNK .f_release

def REDIRFS_CHR_FOP_RELEASE : OpId := RFS_OP_IDC .RFS_INODE_CHAR .f_release

def REDIRFS_BLK_FOP_RELEASE : OpId := RFS_OP_IDC .RFS_INODE_BLK .f_release

def REDIRFS_FIFO_FOP_RELEASE : OpId := RFS_OP_IDC .RFS_INODE_FIFO .f_release

def REDIRFS_DIR_FOP_READDIR : OpId := RFS_OP_IDC .RFS_INODE_DIR .f_readdir

def REDIRFS_REG_FOP_LLSEEK : OpId := RFS_OP_IDC .RFS_INODE_REG .f_llseek

def REDIRFS_REG_FOP_READ : OpId := RFS_OP_IDC .RFS_INODE_REG .f_read

def REDIRFS_REG_FOP_WRITE : OpId := RFS_OP_IDC .RFS_INODE_REG .f_write

def REDIRFS_REG_FOP_READ_ITER : OpId := RFS_OP_IDC .RFS_INODE_REG .f_read_iter

def REDIRFS_REG_FOP_WRITE_ITER : OpId := RFS_OP_IDC .RFS_INODE_REG .f_write_iter

def REDIRFS_REG_FOP_POLL : OpId := RFS_OP_IDC .RFS_INODE_REG .f_poll

def REDIRFS_REG_FOP_UNLOCKED_IOCTL : OpId := RFS_OP_IDC .RFS_INODE_REG .f_unlocked_ioctl

def REDIRFS_REG_FOP_COMPAT_IOCTL : OpId := RFS_OP_IDC .RFS_INODE_REG .f_compat_ioctl

def REDIRFS_REG_FOP_MMAP : OpId := RFS_OP_IDC .RFS_INODE_REG .f_mmap

def REDIRFS_REG_FOP_FLUSH : OpId := RFS_OP_IDC .RFS_INODE_REG .f_flush

def REDIRFS_REG_FOP_FSYNC : OpId := RFS_OP_IDC .RFS_INODE_REG .f_fsync

def REDIRFS_REG_FOP_DIR_ITERATE : OpId := RFS_OP_IDC .RFS_INODE_DIR .f_iterate

def REDIRFS_REG_FOP_DIR_ITERATE_SHARED : OpId := RFS_OP_IDC .RFS_INODE_DIR .f_iterate_shared

/-- The `struct redirfs_args` handed to the filter phases: `type.id`, the
operation's arguments (`args.f_open`, `args.f_release`, `args.f_readdir`) and
the result slot `rv.rv_int`. -/
structure redirfs_args where
  id : OpId
  inode : Nat
  file : Nat
  dirent : Nat
  filldir : Nat
  rv_int : Int
  deriving DecidableEq, Repr

/-- Modelled from the spec: the Call Context (`struct rfs_context` of `rfs.h`,
which is not among the sources): "chain position cursor" and "per-filter opaque
data slots". -/
structure rfs_context where
  idx_start : Int
  idx : Int
  data : List Nat
  deriving DecidableEq, Repr

/-- A `struct rfs_file *`: NULL, an `ERR_PTR(e)` or the address of an object. -/
inductive RfilePtr where
  | null
  | err (e : Int)
  | ptr (a : Nat)
  deriving DecidableEq, Repr

def IS_ERR : RfilePtr → Bool
  | .err _ => true
  | _ => false

def ERR_PTR (e : Int) : RfilePtr := .err e

/-- The fields of `struct file` that `rfs_file.c` uses. -/
structure file where
  f_op : Option TablePtr
  f_dentry : Nat
  deriving DecidableEq, Repr

/-- The open-handle shadow `struct rfs_file` (the intrusive link
`rdentry_list` is kept on the side of the parent, in `rfs_dentry.rfiles`). -/
structure rfs_file where
  file : Nat
  rdentry : Option Nat
  count : Int
  op_old : Option TablePtr
  op_new : file_operations
  data : List Nat

/-- What `kmem_cache_zalloc` hands out: an object filled with zeroes. -/
def rfs_file.zero : rfs_file :=
  { file := 0, rdentry := none, count := 0, op_old := none, op_new := fun _ => none, data := [] }

/-- The fields of the directory-entry shadow `struct rfs_dentry` that
`rfs_file.c` uses: its filter info, its inode shadow and the list of its open
handles. -/
structure rfs_dentry where
  rinfo : Nat
  rinode : Option Nat
  rfiles : List Nat
  deriving DecidableEq, Repr

/-- Calls that leave `rfs_file.c`, in the order they are made. -/
inductive Event where
  | rfs_inode_find (inode : Nat)
  | rfs_inode_put (rinode : Option Nat)
  | rfs_dentry_find (dentry : Nat)
  | rfs_dentry_put (rdentry : Option Nat)
  | rfs_dentry_get_rinfo (rdentry : Nat)
  | rfs_info_put (rinfo : Nat)
  | rfs_dentry_add_rfile (rdentry : Nat) (rfile : Nat)
  | rfs_dentry_rem_rfile (rdentry : Nat) (rfile : Nat)
  | fops_get (t : TablePtr)
  | fops_put (t : TablePtr)
  | rfs_context_init (start : Int)
  | rfs_context_deinit (rcont : rfs_context)
  | precall (rchain : Option Nat) (rcont : rfs_context) (rargs : redirfs_args)
  | postcall (rchain : Option Nat) (rcont : rfs_context) (rargs : redirfs_args)
  | call (f : Fn) (argv : List Nat)
  | rfs_data_remove (rfile : Nat)
  | kmem_cache_free (rfile : Nat)
  | rfs_dcache_get_subs (dentry : Nat)
  | rfs_dcache_rdentry_add (dentry : Nat) (rinfo : Nat)
  | rfs_dcache_entry_free_list
  deriving DecidableEq, Repr

/-- The mutable state. -/
structure State where
  /-- the `struct file` objects -/
  files : Nat → file
  /-- the live `struct rfs_file` objects -/
  rfiles : Nat → Option rfs_file
  /-- the free objects of the slab cache `rfs_file_cache` -/
  rfs_file_cache : List Nat
  /-- the directory-entry shadow of a dentry, if it has one -/
  rdentry_of : Nat → Option Nat
  /-- the `struct rfs_dentry` objects -/
  rdentries : Nat → rfs_dentry
  trace : List Event

/-- What `rfs_file.c` reads but never writes, and its opaque collaborators. -/
structure Env where
  LINUX_VERSION_CODE : Nat
  /-- contents of the tables of the underlying implementation -/
  fops : Nat → file_operations
  /-- the field `i_mode` of an inode -/
  i_mode : Nat → Nat
  /-- the field `d_inode` of a dentry -/
  d_inode : Nat → Option Nat
  /-- the inode shadow of an inode (NULL when there is none) -/
  rinode_of : Nat → Option Nat
  /-- the field `fop_old` of an inode shadow -/
  fop_old : Nat → Option TablePtr
  /-- the field `inode` of an inode shadow -/
  rinode_inode : Nat → Nat
  /-- the field `rchain` of a filter info -/
  rchain : Nat → Option Nat
  /-- the field `rops` of a filter info: NULL, or the array of operations
  some filter has registered -/
  rops : Nat → Option (OpId → Bool)
  /-- the pre-call phase: its return value, and the context and argument
  record as the filters leave them -/
  precall_flts : Option Nat → rfs_context → redirfs_args → Int × rfs_context × redirfs_args
  /-- the post-call phase: the context and argument record as the filters
  leave them -/
  postcall_flts : Option Nat → rfs_context → redirfs_args → rfs_context × redirfs_args
  /-- the value a function of the underlying implementation returns -/
  invoke : Fn → List Nat → Int
  /-- what an original `open` does to the `struct file` it is handed: the table
  of the underlying implementation it installs in `file->f_op` (as an `open`
  that hands the file on to a driver does), or none when it leaves the field
  alone; the arguments are the function, the inode and the file -/
  open_f_op : Fn → Nat → Nat → Option Nat
  /-- the children that `rfs_dcache_get_subs` collects (none: it fails) -/
  dcache_subs : Nat → Option (List Nat)
  /-- the return value of `rfs_dcache_rdentry_add` and the address of the
  shadow it creates -/
  dcache_rdentry_add : Nat → Nat → Int × Nat

/-! ## The state-and-fault monad -/

inductive Fault where
  /-- an explicit `BUG()` or `BUG_ON()` -/
  | BUG
  /-- a NULL, error-encoded or dangling pointer is dereferenced -/
  | oops
  deriving DecidableEq, Repr

inductive Res (α : Type) where
  | ok (a : α) (s : State)
  | fault (f : Fault) (s : State)

def Res.state {α : Type} : Res α → State
  | .ok _ s => s
  | .fault _ s => s

def Res.value {α : Type} : Res α → Option α
  | .ok a _ => some a
  | .fault _ _ => none

def Res.fault? {α : Type} : Res α → Option Fault
  | .ok _ _ => none
  | .fault f _ => some f

def M (α : Type) : Type := State → Res α

def M.pure {α : Type} (a : α) : M α := fun s => .ok a s

def M.bind {α β : Type} (m : M α) (f : α → M β) : M β := fun s =>
  match m s with
  | .ok a s1 => f a s1
  | .fault e s1 => .fault e s1

instance : Monad M where
  pure := M.pure
  bind := M.bind

def BUG {α : Type} : M α := fun s => .fault .BUG s

def oops {α : Type} : M α := fun s => .fault .oops s

def getState : M State := fun s => .ok s s

def setState (s : State) : M Unit := fun _ => .ok () s

def log (e : Event) : M Unit := fun s => .ok () { s with trace := s.trace ++ [e] }

/-- Read `*rfile`. -/
def load : RfilePtr → M rfs_file
  | .ptr a => fun s =>
    match s.rfiles a with
    | some rf => .ok rf s
    | none => .fault .oops s
  | _ => oops

/-- Write `*rfile`. -/
def store (a : Nat) (rf : rfs_file) : M Unit := fun s =>
  .ok () { s with rfiles := Function.update s.rfiles a (some rf) }

def set_f_op (file : Nat) (t : Option TablePtr) : M Unit := fun s =>
  .ok () { s with files := Function.update s.files file { s.files file with f_op := t } }

/-- The global table `rfs_file_ops`: only `.open = rfs_open`. -/
def rfs_file_ops : file_operations := fun m => if m = .f_open then some .rfs_open else none

/-- Read the table a pointer designates. -/
def deref (E : Env) : TablePtr → M file_operations
  | .ext n => pure (E.fops n)
  | .rfs_file_ops => pure rfs_file_ops
  | .op_new r => do
    let rf ← load (.ptr r)
    pure rf.op_new

/-! ## Helpers of other units, as `rfs_file.c` uses them -/

/-- The kernel macro `fops_get`: a reference on the module that owns the
table is taken and the pointer is returned. -/
def fops_get : Option TablePtr → M (Option TablePtr)
  | none => pure none
  | some t => do
    log (.fops_get t)
    pure (some t)

/-- The kernel macro `fops_put`. -/
def fops_put : Option TablePtr → M Unit
  | none => pure ()
  | some t => log (.fops_put t)

/-- The lookup `rfs_inode_find`: the inode shadow, with a reference taken. -/
def rfs_inode_find (E : Env) (inode : Nat) : M (Option Nat) := do
  log (.rfs_inode_find inode)
  pure (E.rinode_of inode)

def rfs_inode_put (rinode : Option Nat) : M Unit := log (.rfs_inode_put rinode)

/-- The lookup `rfs_dentry_find`: the directory-entry shadow, with a reference
taken, or NULL. -/
def rfs_dentry_find (dentry : Nat) : M (Option Nat) := do
  log (.rfs_dentry_find dentry)
  let s ← getState
  pure (s.rdentry_of dentry)

def rfs_dentry_put (rdentry : Option Nat) : M Unit := log (.rfs_dentry_put rdentry)

/-- The accessor `rfs_dentry_get_rinfo`: the filter info of a directory-entry
shadow, with a reference taken. -/
def rfs_dentry_get_rinfo : Option Nat → M Nat
  | none => oops
  | some rd => do
    log (.rfs_dentry_get_rinfo rd)
    let s ← getState
    pure (s.rdentries rd).rinfo

def rfs_info_put (rinfo : Nat) : M Unit := log (.rfs_info_put rinfo)

/-- Modelled from the spec: `rfs_context_init` (not among the sources) sets up
the Call Context for one invocation. -/
def rfs_context_init (start : Int) : M rfs_context := do
  log (.rfs_context_init start)
  pure { idx_start := start, idx := 0, data := [] }

def rfs_context_deinit (rcont : rfs_context) : M Unit := log (.rfs_context_deinit rcont)

/-- The pre-call phase of the chain (its code is not among the sources): an
opaque collaborator, see `Env.precall_flts`. -/
def rfs_precall_flts (E : Env) (rchain : Option Nat) (rcont : rfs_context)
    (rargs : redirfs_args) : M (Int × rfs_context × redirfs_args) := do
  log (.precall rchain rcont rargs)
  pure (E.precall_flts rchain rcont rargs)

/-- The post-call phase of the chain (its code is not among the sources): an
opaque collaborator, see `Env.postcall_flts`. -/
def rfs_postcall_flts (E : Env) (rchain : Option Nat) (rcont : rfs_context)
    (rargs : redirfs_args) : M (rfs_context × redirfs_args) := do
  log (.postcall rchain rcont rargs)
  pure (E.postcall_flts rchain rcont rargs)

/-- A call of the original `release` or `readdir` through a function pointer of
a captured original table (the original `open` is `call_open`). -/
def call (E : Env) (f : Fn) (argv : List Nat) : M Int := do
  log (.call f argv)
  pure (E.invoke f argv)

/-- The call of the original `open` through a captured table, `f(inode, file)`:
the callee is handed the `struct file *` and may replace `file->f_op`
(`Env.open_f_op`). -/
def call_open (E : Env) (f : Fn) (inode file : Nat) : M Int := do
  log (.call f [inode, file])
  match E.open_f_op f inode file with
  | some n => set_f_op file (some (.ext n))
  | none => pure ()
  pure (E.invoke f [inode, file])

def rfs_data_remove (a : Nat) : M Unit := do
  let rf ← load (.ptr a)
  store a { rf with data := [] }
  log (.rfs_data_remove a)

def kmem_cache_zalloc : M (Option Nat) := fun s =>
  match s.rfs_file_cache with
  | [] => .ok none s
  | a :: rest =>
    .ok (some a) { s with rfs_file_cache := rest,
                          rfiles := Function.update s.rfiles a (some rfs_file.zero) }

def kmem_cache_free (a : Nat) : M Unit := fun s =>
  .ok () { s with rfs_file_cache := a :: s.rfs_file_cache,
                  rfiles := Function.update s.rfiles a none,
                  trace := s.trace ++ [.kmem_cache_free a] }

/-! ## `rfs_file.c` -/

def rfs_file_alloc (E : Env) (file : Nat) : M RfilePtr := do
  let rfile ← kmem_cache_zalloc
  match rfile with
  | none => pure (ERR_PTR (-ENOMEM))
  | some a =>
    let rf ← load (.ptr a)
    store a { rf with data := [], file := file, count := 1 }
    let s ← getState
    let op_old ← fops_get (s.files file).f_op
    let rf ← load (.ptr a)
    store a { rf with op_old := op_old }
    match op_old with
    | some p =>
      let t ← deref E p
      let rf ← load (.ptr a)
      store a { rf with op_new := t }
    | none => pure ()
    let rf ← load (.ptr a)
    store a { rf with op_new := Function.update rf.op_new .f_open (some .rfs_open) }
    pure (.ptr a)

def rfs_file_get (rfile : RfilePtr) : M RfilePtr :=
  match rfile with
  | .null => pure .null
  | .err _ => pure .null
  | .ptr a => do
    let rf ← load (.ptr a)
    if rf.count = 0 then BUG
    store a { rf with count := atomic_inc rf.count }
    pure (.ptr a)

def rfs_file_put (rfile : RfilePtr) : M Unit :=
  match rfile with
  | .null => pure ()
  | .err _ => pure ()
  | .ptr a => do
    let rf ← load (.ptr a)
    if rf.count = 0 then BUG
    store a { rf with count := (atomic_dec_and_test rf.count).1 }
    if (atomic_dec_and_test rf.count).2 then
      rfs_dentry_put rf.rdentry
      fops_put rf.op_old
      rfs_data_remove a
      kmem_cache_free a

/-- Modelled from the spec: `rfs_dentry_add_rfile` (not among the sources).
The open handle "is added to that parent's sibling list under the parent's
lock". The list is modelled as one more holder of the handle: it takes a
counted reference, which `rfs_dentry_rem_rfile` drops. -/
def rfs_dentry_add_rfile (rdentry : Option Nat) (rfile : RfilePtr) : M Unit := do
  let _ ← rfs_file_get rfile
  match rdentry, rfile with
  | some rd, .ptr a =>
    log (.rfs_dentry_add_rfile rd a)
    let s ← getState
    let d := s.rdentries rd
    setState { s with rdentries := Function.update s.rdentries rd { d with rfiles := d.rfiles ++ [a] } }
  | _, _ => oops

/-- Modelled from the spec: `rfs_dentry_rem_rfile` (not among the sources)
takes the open handle off its parent's sibling list and drops the reference
the list kept. -/
def rfs_dentry_rem_rfile (rfile : RfilePtr) : M Unit := do
  let rf ← load rfile
  match rf.rdentry, rfile with
  | some rd, .ptr a =>
    log (.rfs_dentry_rem_rfile rd a)
    let s ← getState
    let d := s.rdentries rd
    setState { s with rdentries := Function.update s.rdentries rd { d with rfiles := d.rfiles.erase a } }
    rfs_file_put rfile
  | _, _ => oops

/-- Modelled from the spec: `rfs_file_find` (not among the sources) looks the
open-handle shadow up from the table installed on the file, and takes a
reference to it. -/
def rfs_file_find (file : Nat) : M RfilePtr := do
  let s ← getState
  match (s.files file).f_op with
  | some (.op_new r) => rfs_file_get (.ptr r)
  | _ => pure .null

/-- Apply a change to `*rfile`. -/
def modify_rfile (rfile : RfilePtr) (g : rfs_file → rfs_file) : M Unit := do
  let rf ← load rfile
  match rfile with
  | .ptr a => store a (g rf)
  | _ => oops

/-- Modelled from the spec: the macro `RFS_SET_FOP(rf, id, op, f)` of `rfs.h`
(not among the sources). "every entry for which any filter in any possible
chain might care is redirected to the Dispatch Engine; entries with no possible
filter interest may pass through directly to the original": the member `op` of
`rf->op_new` becomes `f` when the filter info of the parent has an operation
registered for `id`, and the member of the captured original table (NULL when
there is no original table) otherwise. -/
def RFS_SET_FOP (E : Env) (rfile : RfilePtr) (id : OpId) (op : FopMember) (f : Fn) : M Unit := do
  let rf ← load rfile
  let s ← getState
  match rf.rdentry with
  | none => oops
  | some rd =>
    let interested :=
      match E.rops (s.rdentries rd).rinfo with
      | some arr => arr id
      | none => false
    if interested then
      modify_rfile rfile (fun r => { r with op_new := Function.update r.op_new op (some f) })
    else
      match rf.op_old with
      | some p =>
        let t ← deref E p
        modify_rfile rfile (fun r => { r with op_new := Function.update r.op_new op (t op) })
      | none =>
        modify_rfile rfile (fun r => { r with op_new := Function.update r.op_new op none })

/-- A run of `RFS_SET_FOP` invocations, in order. -/
def RFS_SET_FOPs (E : Env) (rfile : RfilePtr) : List (OpId × FopMember × Fn) → M Unit
  | [] => pure ()
  | (id, op, f) :: rows => do
    RFS_SET_FOP E rfile id op f
    RFS_SET_FOPs E rfile rows

/-- The invocations of `RFS_SET_FOP` in `rfs_file_set_ops_reg`, in order:
identifier, member of the table, dispatch entry. -/
def rfs_file_set_ops_reg_rows (E : Env) : List (OpId × FopMember × Fn) :=
  [ (REDIRFS_REG_FOP_LLSEEK, .f_llseek, .rfs_llseek),
    (REDIRFS_REG_FOP_READ, .f_read, .rfs_read),
    (REDIRFS_REG_FOP_WRITE, .f_write, .rfs_write) ] ++
  (if E.LINUX_VERSION_CODE > KERNEL_VERSION 3 14 0 then
    [ (REDIRFS_REG_FOP_READ_ITER, .f_read_iter, .rfs_read_iter),
      (REDIRFS_REG_FOP_WRITE_ITER, .f_write_iter, .rfs_write_iter) ]
   else []) ++
  [ (REDIRFS_REG_FOP_POLL, .f_poll, .rfs_poll),
    (REDIRFS_REG_FOP_UNLOCKED_IOCTL, .f_unlocked_ioctl, .rfs_unlocked_ioctl),
    (REDIRFS_REG_FOP_COMPAT_IOCTL, .f_compat_ioctl, .rfs_compat_ioctl),
    (REDIRFS_REG_FOP_MMAP, .f_mmap, .rfs_mmap),
    (REDIRFS_REG_FOP_OPEN, .f_open, .rfs_open),
    (REDIRFS_REG_FOP_FLUSH, .f_flush, .rfs_flush),
    (REDIRFS_REG_FOP_FSYNC, .f_fsync, .rfs_fsync),
    (RFS_OP_IDC .RFS_INODE_REG .f_fasync, .f_fasync, .rfs_fasync),
    (RFS_OP_IDC .RFS_INODE_REG .f_lock, .f_lock, .rfs_lock),
    (RFS_OP_IDC .RFS_INODE_REG .f_sendpage, .f_sendpage, .rfs_sendpage),
    (RFS_OP_IDC .RFS_INODE_REG .f_get_unmapped_area, .f_get_unmapped_area, .rfs_get_unmapped_area),
    (RFS_OP_IDC .RFS_INODE_REG .f_flock, .f_flock, .rfs_flock),
    (RFS_OP_IDC .RFS_INODE_REG .f_splice_write, .f_splice_write, .rfs_splice_write),
    (RFS_OP_IDC .RFS_INODE_REG .f_splice_read, .f_splice_read, .rfs_splice_read),
    (RFS_OP_IDC .RFS_INODE_REG .f_setlease, .f_setlease, .rfs_setlease),
    (RFS_OP_IDC .RFS_INODE_REG .f_fallocate, .f_fallocate, .rfs_fallocate),
    (RFS_OP_IDC .RFS_INODE_REG .f_show_fdinfo, .f_show_fdinfo, .rfs_show_fdinfo),
    (RFS_OP_IDC .RFS_INODE_REG .f_copy_file_range, .f_copy_file_range, .rfs_copy_file_range),
    (RFS_OP_IDC .RFS_INODE_REG .f_clone_file_range, .f_clone_file_range, .rfs_clone_file_range),
    (RFS_OP_IDC .RFS_INODE_REG .f_dedupe_file_range, .f_dedupe_file_range, .rfs_dedupe_file_range) ]

def rfs_file_set_ops_reg (E : Env) (rfile : RfilePtr) : M Unit :=
  RFS_SET_FOPs E rfile (rfs_file_set_ops_reg_rows E)

def rfs_file_set_ops_dir (E : Env) (rfile : RfilePtr) : M Unit :=
  if E.LINUX_VERSION_CODE < KERNEL_VERSION 3 11 0 then
    modify_rfile rfile (fun r => { r with op_new := Function.update r.op_new .f_readdir (some .rfs_readdir) })
  else
    RFS_SET_FOPs E rfile
      [ (REDIRFS_REG_FOP_DIR_ITERATE, .f_iterate, .rfs_iterate),
        (REDIRFS_REG_FOP_DIR_ITERATE_SHARED, .f_iterate_shared, .rfs_iterate_shared) ]

/-- The invocations of `RFS_SET_FOP` in `rfs_file_set_ops_chr`, in order. -/
def rfs_file_set_ops_chr_rows (E : Env) : List (OpId × FopMember × Fn) :=
  [ (RFS_OP_IDC .RFS_INODE_CHAR .f_llseek, .f_llseek, .rfs_llseek),
    (RFS_OP_IDC .RFS_INODE_CHAR .f_read, .f_read, .rfs_read),
    (RFS_OP_IDC .RFS_INODE_CHAR .f_write, .f_write, .rfs_write) ] ++
  (if E.LINUX_VERSION_CODE > KERNEL_VERSION 3 14 0 then
    [ (RFS_OP_IDC .RFS_INODE_CHAR .f_read_iter, .f_read_iter, .rfs_read_iter),
      (RFS_OP_IDC .RFS_INODE_CHAR .f_write_iter, .f_write_iter, .rfs_write_iter) ]
   else []) ++
  [ (RFS_OP_IDC .RFS_INODE_CHAR .f_poll, .f_poll, .rfs_poll),
    (RFS_OP_IDC .RFS_INODE_CHAR .f_unlocked_ioctl, .f_unlocked_ioctl, .rfs_unlocked_ioctl),
    (RFS_OP_IDC .RFS_INODE_CHAR .f_compat_ioctl, .f_compat_ioctl, .rfs_compat_ioctl),
    (RFS_OP_IDC .RFS_INODE_CHAR .f_mmap, .f_mmap, .rfs_mmap),
    (RFS_OP_IDC .RFS_INODE_CHAR .f_open, .f_open, .rfs_open),
    (RFS_OP_IDC .RFS_INODE_CHAR .f_flush, .f_flush, .rfs_flush),
    (RFS_OP_IDC .RFS_INODE_CHAR .f_fsync, .f_fsync, .rfs_fsync),
    (RFS_OP_IDC .RFS_INODE_CHAR .f_fasync, .f_fasync, .rfs_fasync),
    (RFS_OP_IDC .RFS_INODE_CHAR .f_lock, .f_lock, .rfs_lock),
    (RFS_OP_IDC .RFS_INODE_CHAR .f_sendpage, .f_sendpage, .rfs_sendpage),
    (RFS_OP_IDC .RFS_INODE_CHAR .f_get_unmapped_area, .f_get_unmapped_area, .rfs_get_unmapped_area),
    (RFS_OP_IDC .RFS_INODE_CHAR .f_flock, .f_flock, .rfs_flock),
    (RFS_OP_IDC .RFS_INODE_CHAR .f_splice_write, .f_splice_write, .rfs_splice_write),
    (RFS_OP_IDC .RFS_INODE_CHAR .f_splice_read, .f_splice_read, .rfs_splice_read),
    (RFS_OP_IDC .RFS_INODE_CHAR .f_setlease, .f_setlease, .rfs_setlease),
    (RFS_OP_IDC .RFS_INODE_CHAR .f_fallocate, .f_fallocate, .rfs_fallocate),
    (RFS_OP_IDC .RFS_INODE_CHAR .f_show_fdinfo, .f_show_fdinfo, .rfs_show_fdinfo),
    (RFS_OP_IDC .RFS_INODE_CHAR .f_copy_file_range, .f_copy_file_range, .rfs_copy_file_range),
    (RFS_OP_IDC .RFS_INODE_CHAR .f_clone_file_range, .f_clone_file_range, .rfs_clone_file_range),
    (RFS_OP_IDC .RFS_INODE_CHAR .f_dedupe_file_range, .f_dedupe_file_range, .rfs_dedupe_file_range) ]

def rfs_file_set_ops_chr (E : Env) (rfile : RfilePtr) : M Unit :=
  RFS_SET_FOPs E rfile (rfs_file_set_ops_chr_rows E)

def rfs_file_set_ops_lnk (_rfile : RfilePtr) : M Unit := pure ()

def rfs_file_set_ops_blk (_rfile : RfilePtr) : M Unit := pure ()

def rfs_file_set_ops_fifo (_rfile : RfilePtr) : M Unit := pure ()

def rfs_file_set_ops (E : Env) (rfile : RfilePtr) : M Unit := do
  let rf ← load rfile
  let s ← getState
  match rf.rdentry with
  | none => oops
  | some rd =>
    match (s.rdentries rd).rinode with
    | none => pure ()
    | some rinode =>
      let mode := E.i_mode (E.rinode_inode rinode)
      if S_ISREG mode then rfs_file_set_ops_reg E rfile
      else if S_ISDIR mode then rfs_file_set_ops_dir E rfile
      else if S_ISLNK mode then rfs_file_set_ops_lnk rfile
      else if S_ISCHR mode then rfs_file_set_ops_chr E rfile
      else if S_ISBLK mode then rfs_file_set_ops_blk rfile
      else if S_ISFIFO mode then rfs_file_set_ops_fifo rfile
      modify_rfile rfile (fun r => { r with op_new := Function.update r.op_new .f_release (some .rfs_release) })

def rfs_file_add (E : Env) (file : Nat) : M RfilePtr := do
  let rfile ← rfs_file_alloc E file
  if IS_ERR rfile then
    pure rfile
  else
    let s ← getState
    let rdentry ← rfs_dentry_find (s.files file).f_dentry
    modify_rfile rfile (fun r => { r with rdentry := rdentry })
    rfs_dentry_add_rfile rdentry rfile
    let s ← getState
    fops_put (s.files file).f_op
    match rfile with
    | .ptr a => set_f_op file (some (.op_new a))
    | _ => oops
    let _ ← rfs_file_get rfile
    rfs_file_set_ops E rfile
    pure rfile

def rfs_file_del (rfile : RfilePtr) : M Unit := do
  rfs_dentry_rem_rfile rfile
  let rf ← load rfile
  let t ← fops_get rf.op_old
  set_f_op rf.file t
  rfs_file_put rfile

/-- The entry `open` of a table a nullable pointer designates: the condition
`t && t->open`. -/
def member_of (E : Env) (t : Option TablePtr) (op : FopMember) : M (Option Fn) :=
  match t with
  | none => pure none
  | some p => do
    let tbl ← deref E p
    pure (tbl op)

/-- The operation identifier `rfs_open` chooses from `inode->i_mode`; none
stands for the final `else BUG()`. -/
def rfs_open_id (mode : Nat) : Option OpId :=
  if S_ISREG mode then some REDIRFS_REG_FOP_OPEN
  else if S_ISDIR mode then some REDIRFS_DIR_FOP_OPEN
  else if S_ISLNK mode then some REDIRFS_LNK_FOP_OPEN
  else if S_ISCHR mode then some REDIRFS_CHR_FOP_OPEN
  else if S_ISBLK mode then some REDIRFS_BLK_FOP_OPEN
  else if S_ISFIFO mode then some REDIRFS_FIFO_FOP_OPEN
  else none

/-- The operation identifier `rfs_release` chooses from `inode->i_mode`; there
is no final `else`, so `rargs.type.id` keeps what the stack held. -/
def rfs_release_id (mode : Nat) (stack : redirfs_args) : OpId :=
  if S_ISREG mode then REDIRFS_REG_FOP_RELEASE
  else if S_ISDIR mode then REDIRFS_DIR_FOP_RELEASE
  else if S_ISLNK mode then REDIRFS_LNK_FOP_RELEASE
  else if S_ISCHR mode then REDIRFS_CHR_FOP_RELEASE
  else if S_ISBLK mode then REDIRFS_BLK_FOP_RELEASE
  else if S_ISFIFO mode then REDIRFS_FIFO_FOP_RELEASE
  else stack.id

def rfs_open (E : Env) (stack : redirfs_args) (inode file : Nat) : M Int := do
  let rinode ← rfs_inode_find E inode
  let s ← getState
  fops_put (s.files file).f_op
  match rinode with
  | none => oops
  | some ri =>
    let t ← fops_get (E.fop_old ri)
    set_f_op file t
    let rdentry ← rfs_dentry_find (s.files file).f_dentry
    match rdentry with
    | none =>
      rfs_inode_put rinode
      let s ← getState
      match ← member_of E (s.files file).f_op .f_open with
      | some f => call_open E f inode file
      | none => pure 0
    | some rd =>
      let rinfo ← rfs_dentry_get_rinfo (some rd)
      rfs_dentry_put (some rd)
      let rcont ← rfs_context_init 0
      let id ←
        match rfs_open_id (E.i_mode inode) with
        | some id => pure id
        | none => BUG
      let rargs := { stack with id := id, inode := inode, file := file }
      let (stop, rcont, rargs) ← rfs_precall_flts E (E.rchain rinfo) rcont rargs
      let rargs ←
        if stop = 0 then
          match ← member_of E (E.fop_old ri) .f_open with
          | some f => do
            let rv ← call_open E f rargs.inode rargs.file
            pure { rargs with rv_int := rv }
          | none => pure { rargs with rv_int := 0 }
        else pure rargs
      if rargs.rv_int = 0 then
        let rfile ← rfs_file_add E file
        if IS_ERR rfile then BUG
        rfs_file_put rfile
      let (rcont, rargs) ← rfs_postcall_flts E (E.rchain rinfo) rcont rargs
      rfs_context_deinit rcont
      rfs_inode_put rinode
      rfs_info_put rinfo
      pure rargs.rv_int

def rfs_release (E : Env) (stack : redirfs_args) (inode file : Nat) : M Int := do
  let rfile ← rfs_file_find file
  let rf ← load rfile
  let rinfo ← rfs_dentry_get_rinfo rf.rdentry
  let rcont ← rfs_context_init 0
  let id := rfs_release_id (E.i_mode inode) stack
  let rargs := { stack with id := id, inode := inode, file := file }
  let (stop, rcont, rargs) ← rfs_precall_flts E (E.rchain rinfo) rcont rargs
  let rargs ←
    if stop = 0 then
      let rf ← load rfile
      match ← member_of E rf.op_old .f_release with
      | some f => do
        let rv ← call E f [rargs.inode, rargs.file]
        pure { rargs with rv_int := rv }
      | none => pure { rargs with rv_int := 0 }
    else pure rargs
  let (rcont, rargs) ← rfs_postcall_flts E (E.rchain rinfo) rcont rargs
  rfs_context_deinit rcont
  rfs_file_del rfile
  rfs_file_put rfile
  rfs_info_put rinfo
  pure rargs.rv_int

/-- The helper `rfs_dcache_get_subs` (its code is not among the sources): the
children of a dentry, or a failure. -/
def rfs_dcache_get_subs (E : Env) (dentry : Nat) : M (Option (List Nat)) := do
  log (.rfs_dcache_get_subs dentry)
  pure (E.dcache_subs dentry)

/-- Modelled from the spec: `rfs_dcache_rdentry_add` (not among the sources)
registers a "not-yet-shadowed child" entry with the filter info, so that "later
lookups on those children find a pre-registered inclusion decision". -/
def rfs_dcache_rdentry_add (E : Env) (dentry rinfo : Nat) : M Int := do
  log (.rfs_dcache_rdentry_add dentry rinfo)
  let r := E.dcache_rdentry_add dentry rinfo
  if r.1 = 0 then
    let s ← getState
    setState { s with
      rdentry_of := Function.update s.rdentry_of dentry (some r.2),
      rdentries := Function.update s.rdentries r.2
        { rinfo := rinfo, rinode := (E.d_inode dentry).bind E.rinode_of, rfiles := [] } }
  pure r.1

/-- The loop of `rfs_readdir` over the children collected in `sibs`. -/
def rfs_readdir_sibs (E : Env) (rinfo : Nat) : List Nat → M Unit
  | [] => pure ()
  | sib :: sibs => do
    let rdentry ← rfs_dentry_find sib
    match rdentry with
    | some rd =>
      rfs_dentry_put (some rd)
      rfs_readdir_sibs E rinfo sibs
    | none =>
      let skip :=
        match E.rops rinfo with
        | some _ => false
        | none =>
          match E.d_inode sib with
          | none => true
          | some i => !S_ISDIR (E.i_mode i)
      if skip then
        rfs_readdir_sibs E rinfo sibs
      else
        let rv ← rfs_dcache_rdentry_add E sib rinfo
        if rv ≠ 0 then BUG
        rfs_readdir_sibs E rinfo sibs

/-- The second half of `rfs_readdir`, from `if (rargs.rv.rv_int) goto exit;` to
the `return`: the registration of the children and the common exit. -/
def rfs_readdir_exit (E : Env) (rfile : RfilePtr) (rinfo dentry : Nat) (rv : Int) : M Int := do
  if rv = 0 then
    match ← rfs_dcache_get_subs E dentry with
    | none => BUG
    | some sibs => rfs_readdir_sibs E rinfo sibs
  log .rfs_dcache_entry_free_list
  rfs_file_put rfile
  rfs_info_put rinfo
  pure rv

def rfs_readdir (E : Env) (stack : redirfs_args) (file dirent filldir : Nat) : M Int := do
  let rfile ← rfs_file_find file
  let rf ← load rfile
  let rinfo ← rfs_dentry_get_rinfo rf.rdentry
  let rcont ← rfs_context_init 0
  let s ← getState
  let dentry := (s.files file).f_dentry
  let rargs ←
    match E.d_inode dentry with
    | none => oops
    | some inode =>
      if S_ISDIR (E.i_mode inode) then do
        let rargs := { stack with id := REDIRFS_DIR_FOP_READDIR, file := file,
                                  dirent := dirent, filldir := filldir }
        let (stop, rcont, rargs) ← rfs_precall_flts E (E.rchain rinfo) rcont rargs
        let rargs ←
          if stop = 0 then
            let rf ← load rfile
            match ← member_of E rf.op_old .f_readdir with
            | some f => do
              let rv ← call E f [rargs.file, rargs.dirent, rargs.filldir]
              pure { rargs with rv_int := rv }
            | none => pure { rargs with rv_int := -ENOTDIR }
          else pure rargs
        let (rcont, rargs) ← rfs_postcall_flts E (E.rchain rinfo) rcont rargs
        rfs_context_deinit rcont
        pure rargs
      else pure { stack with rv_int := -ENOTDIR }
  rfs_readdir_exit E rfile rinfo dentry rargs.rv_int

/-! ## Vocabulary of the statements -/

/-- A table pointer that does not point into a `struct rfs_file`. -/
def TablePtr.foreign : TablePtr → Bool
  | .op_new _ => false
  | _ => true

/-- The contents of a foreign table. -/
def Env.table (E : Env) : TablePtr → file_operations
  | .ext n => E.fops n
  | .rfs_file_ops => rfs_file_ops
  | .op_new _ => fun _ => none

/-- The member `op` of the table a nullable foreign pointer designates: the
value of `t ? t->op : NULL`. -/
def Env.entry (E : Env) (t : Option TablePtr) (op : FopMember) : Option Fn :=
  match t with
  | none => none
  | some p => E.table p op

/-- The events a run appended to the trace. -/
def new_events (s : State) {α : Type} (r : Res α) : List Event :=
  r.state.trace.drop s.trace.length

/-- The calls made through a captured original table, in order. -/
def calls_of : List Event → List (Fn × List Nat)
  | [] => []
  | .call f argv :: es => (f, argv) :: calls_of es
  | _ :: es => calls_of es

/-- The events of the dispatch protocol: filter phases and original calls. -/
def Event.is_dispatch : Event → Bool
  | .precall _ _ _ => true
  | .postcall _ _ _ => true
  | .call _ _ => true
  | _ => false

def dispatch_of (tr : List Event) : List Event := tr.filter Event.is_dispatch

/-- The context `rfs_context_init(&rcont, 0)` leaves. -/
def rcont0 : rfs_context := { idx_start := 0, idx := 0, data := [] }

/-- The events `fops_get` appends. -/
def fops_get_ev : Option TablePtr → List Event
  | none => []
  | some t => [.fops_get t]

def fops_put_ev : Option TablePtr → List Event
  | none => []
  | some t => [.fops_put t]

/-- The table `rfs_file_set_ops` leaves in the object at `a`. -/
def set_ops_table (E : Env) (a : Nat) (s : State) : file_operations :=
  match rfs_file_set_ops E (.ptr a) s with
  | .ok _ s1 =>
    match s1.rfiles a with
    | some rf => rf.op_new
    | none => fun _ => none
  | .fault _ _ => fun _ => none

/-- The argument record after the original-call phase. -/
def prov_args (E : Env) (entry : Option Fn) (argv : List Nat) (dflt : Int) (stop : Int)
    (a : redirfs_args) : redirfs_args :=
  if stop = 0 then
    match entry with
    | some f => { a with rv_int := E.invoke f argv }
    | none => { a with rv_int := dflt }
  else a

/-- The events of the original-call phase. -/
def orig_events (entry : Option Fn) (argv : List Nat) (stop : Int) : List Event :=
  if stop = 0 then
    match entry with
    | some f => [.call f argv]
    | none => []
  else []

/-- The table `rfs_file_add` leaves in the object it creates. -/
def add_table (E : Env) (file : Nat) (s : State) : file_operations :=
  match rfs_file_add E file s with
  | .ok (.ptr a) s1 =>
    match s1.rfiles a with
    | some rf => rf.op_new
    | none => fun _ => none
  | _ => fun _ => none

/-- The events of the teardown in `rfs_file_put`. -/
def teardown_events (a : Nat) (rf : rfs_file) : List Event :=
  [.rfs_dentry_put rf.rdentry] ++ fops_put_ev rf.op_old ++ [.rfs_data_remove a, .kmem_cache_free a]

/-- The argument records handed to the post-call phase, in order. -/
def postcalls_of : List Event → List redirfs_args
  | [] => []
  | .postcall _ _ rargs :: es => rargs :: postcalls_of es
  | _ :: es => postcalls_of es

/-- The table a pointer designates in a state, if the pointer is valid. -/
def table_at (E : Env) (s : State) : TablePtr → Option file_operations
  | .ext n => some (E.fops n)
  | .rfs_file_ops => some rfs_file_ops
  | .op_new r => (s.rfiles r).map (fun rf => rf.op_new)

/-- The result of an unintercepted open, in the words of the specification
("calling the unintercepted operation directly"): the `open` of the original
table called with the caller's inode and file, and 0 when the table is NULL or
has no `open`. -/
def unintercepted_open (E : Env) (t : Option TablePtr) (inode file : Nat) : Int :=
  match E.entry t .f_open with
  | some f => E.invoke f [inode, file]
  | none => 0


/-- The table the original-call phase of `rfs_open` installs on the file the
original `open` is handed, if the phase calls an `open` and that `open`
installs one. -/
def open_installs (E : Env) (entry : Option Fn) (inode arg : Nat) (stop : Int) : Option Nat :=
  if stop = 0 then
    match entry with
    | some f => E.open_f_op f inode arg
    | none => none
  else none

/-- The `struct file` objects after the original-call phase of `rfs_open`. -/
def open_files (E : Env) (entry : Option Fn) (inode arg : Nat) (stop : Int)
    (files : Nat → file) : Nat → file :=
  match open_installs E entry inode arg stop with
  | some n => Function.update files arg { files arg with f_op := some (.ext n) }
  | none => files

/-- The table on `file` when the original-call phase of `rfs_open` is over: the
table `t` that `rfs_open` wrote, unless the original `open` was handed this
very file (`arg`) and installed a table of its own. -/
def open_f_op_left (E : Env) (t : Option TablePtr) (entry : Option Fn) (inode arg : Nat)
    (stop : Int) (file : Nat) : Option TablePtr :=
  match open_installs E entry inode arg stop with
  | some n => if arg = file then some (.ext n) else t
  | none => t

/-- The part of `rfs_open` from `if (!rargs.rv.rv_int)` to the `return`. -/
def rfs_open_tail (E : Env) (file : Nat) (rinode : Option Nat) (rinfo : Nat)
    (rcont : rfs_context) (rargs : redirfs_args) : M Int := do
  if rargs.rv_int = 0 then
    let rfile ← rfs_file_add E file
    if IS_ERR rfile then BUG
    rfs_file_put rfile
  let (rcont, rargs) ← rfs_postcall_flts E (E.rchain rinfo) rcont rargs
  rfs_context_deinit rcont
  rfs_inode_put rinode
  rfs_info_put rinfo
  pure rargs.rv_int

/-- The children handed to `rfs_dcache_rdentry_add`, each with the filter info
it is registered with, in order. -/
def registered_of : List Event → List (Nat × Nat)
  | [] => []
  | .rfs_dcache_rdentry_add d ri :: es => (d, ri) :: registered_of es
  | _ :: es => registered_of es

/-- The children the eager population registers, in the words of the
specification: a child that has no dentry shadow yet, and, when the filter info
has no operations (`rinfo->rops` is NULL), only one that has an inode which is a
directory. -/
def readdir_registers (E : Env) (shadow : Nat → Option Nat) (rinfo : Nat) (d : Nat) : Bool :=
  (shadow d).isNone &&
    ((E.rops rinfo).isSome ||
      match E.d_inode d with
      | some i => S_ISDIR (E.i_mode i)
      | none => false)

/-! ## A concrete scenario

Inode 1 is a regular file whose original table (`ext 10`) has `open` and
`release`; file 2 on dentry 3 is about to be opened. Inode 8 is a directory;
file 12 on dentry 9 is already open through the shadow at address 30, whose
original table (`ext 11`) has `release` only. File 22 is open through the
shadow at address 40, captured from a NULL table. -/

def exEnv : Env :=
  { LINUX_VERSION_CODE := KERNEL_VERSION 3 10 0
    fops := fun n =>
      if n = 10 then
        fun m => if m = .f_open then some (.impl 100) else if m = .f_release then some (.impl 101) else none
      else if n = 11 then
        fun m => if m = .f_release then some (.impl 111) else none
      else fun _ => none
    i_mode := fun i => if i = 8 then 0o040755 else 0o100644
    d_inode := fun d => if d = 9 then some 8 else some 1
    rinode_of := fun i => if i = 1 then some 4 else if i = 8 then some 14 else none
    fop_old := fun ri => if ri = 4 then some (.ext 10) else some (.ext 11)
    rinode_inode := fun ri => if ri = 14 then 8 else 1
    rchain := fun _ => some 7
    rops := fun _ => some (fun id => id == REDIRFS_REG_FOP_OPEN)
    precall_flts := fun _ c a => (0, c, a)
    postcall_flts := fun _ c a => (c, a)
    invoke := fun _ _ => 0
    open_f_op := fun _ _ _ => none
    dcache_subs := fun _ => some []
    dcache_rdentry_add := fun d _ => (0, d + 1000) }

def exStack : redirfs_args :=
  { id := REDIRFS_REG_FOP_OPEN, inode := 0, file := 0, dirent := 0, filldir := 0, rv_int := 77 }

def exRfile30 : rfs_file :=
  { file := 12, rdentry := some 15, count := 2, op_old := some (.ext 11),
    op_new := fun m => if m = .f_open then some .rfs_open else if m = .f_release then some .rfs_release
      else if m = .f_readdir then some .rfs_readdir else none,
    data := [] }

def exRfile40 : rfs_file :=
  { file := 22, rdentry := some 5, count := 2, op_old := none,
    op_new := fun m => if m = .f_open then some .rfs_open else if m = .f_release then some .rfs_release
      else none,
    data := [] }

def exState : State :=
  { files := fun f =>
      if f = 12 then { f_op := some (.op_new 30), f_dentry := 9 }
      else if f = 22 then { f_op := some (.op_new 40), f_dentry := 3 }
      else { f_op := some .rfs_file_ops, f_dentry := 3 }
    rfiles := fun r => if r = 30 then some exRfile30 else if r = 40 then some exRfile40 else none
    rfs_file_cache := [20, 21]
    rdentry_of := fun d => if d = 3 then some 5 else if d = 9 then some 15 else none
    rdentries := fun rd =>
      if rd = 15 then { rinfo := 6, rinode := some 14, rfiles := [30] }
      else { rinfo := 6, rinode := some 4, rfiles := [40] }
    trace := [] }

/-- The slab cache is exhausted. -/
def exStateNoMem : State := { exState with rfs_file_cache := [] }

/-- A pre-call filter replaces the file argument of the operation, and the
original operations fail with `-EACCES`. -/
def exEnvRewrite : Env :=
  { exEnv with
    precall_flts := fun _ c a => (0, c, { a with file := 99 })
    invoke := fun _ _ => -13 }

/-- A pre-call filter short-circuits with `-EPERM`. -/
def exEnvDeny : Env :=
  { exEnv with precall_flts := fun _ c a => (1, c, { a with rv_int := -1 }) }

/-- The original operations fail with `-EACCES`. -/
def exEnvFail : Env := { exEnv with invoke := fun _ _ => -13 }

/-- The inode shadows saved no original table. -/
def exEnvNoOrig : Env := { exEnv with fop_old := fun _ => none }

/-- Every inode is a socket: none of the six kinds `rfs_open` knows. -/
def exEnvSock : Env := { exEnv with i_mode := fun _ => 0o140755 }

/-- No dentry has a directory-entry shadow. -/
def exStateBare : State := { exState with rdentry_of := fun _ => none }

/-- The directory-entry shadow 5, parent of the files on dentry 3, has no inode
shadow (`rdentry->rinode` is NULL). -/
def exStateNoRinode : State :=
  { exState with
    rdentries := fun rd =>
      if rd = 15 then { rinfo := 6, rinode := some 14, rfiles := [30] }
      else { rinfo := 6, rinode := none, rfiles := [40] } }

/-- The directory behind file 12 has the children 3 (which has a dentry
shadow), 50 (no inode), 51 (a directory) and 52 (a regular file), and its
original table has `readdir`. -/
def exEnvList : Env :=
  { exEnv with
    fops := fun n =>
      if n = 11 then
        fun m => if m = .f_readdir then some (.impl 112) else if m = .f_release then some (.impl 111)
          else none
      else exEnv.fops n
    d_inode := fun d => if d = 9 then some 8 else if d = 50 then none else if d = 51 then some 8 else some 1
    dcache_subs := fun _ => some [3, 50, 51, 52] }

/-- The registration of child 50 fails with `-ENOMEM`. -/
def exEnvListFail : Env :=
  { exEnvList with dcache_rdentry_add := fun d _ => if d = 50 then (-12, 0) else (0, d + 1000) }

/-- No filter has registered operations. -/
def exEnvListNoOps : Env := { exEnvList with rops := fun _ => none }

/-- File 22 carries no table at all (`f_op` is NULL) and every other file the
original table `ext 10`, which has `open` and `release`. -/
def exStateOrig : State :=
  { exState with
    files := fun f =>
      if f = 22 then { f_op := none, f_dentry := 3 } else { f_op := some (.ext 10), f_dentry := 3 } }

/-- The shadow at address 30 has the largest count an `int` holds. -/
def exStateMax : State :=
  { exState with
    rfiles := fun r =>
      if r = 30 then some { exRfile30 with count := 2147483647 } else exState.rfiles r }

/-- The original `open` hands the file on to a driver: it installs the table
`ext 12`, which has neither `open` nor `release`, in `file->f_op`. -/
def exEnvChr : Env := { exEnv with open_f_op := fun _ _ _ => some 12 }

/-! ## Run lemmas -/

@[simp] theorem bind_run {α β : Type} (m : M α) (f : α → M β) (s : State) :
    (m >>= f) s = match m s with
      | .ok a s1 => f a s1
      | .fault e s1 => .fault e s1 := rfl

@[simp] theorem pure_run {α : Type} (a : α) (s : State) : (pure a : M α) s = .ok a s := rfl

@[simp] theorem BUG_run {α : Type} (s : State) : (BUG : M α) s = .fault .BUG s := rfl

@[simp] theorem oops_run {α : Type} (s : State) : (oops : M α) s = .fault .oops s := rfl

@[simp] theorem getState_run (s : State) : getState s = .ok s s := rfl

@[simp] theorem setState_run (s t : State) : setState t s = .ok () t := rfl

@[simp] theorem log_run (e : Event) (s : State) :
    log e s = .ok () { s with trace := s.trace ++ [e] } := rfl

@[simp] theorem store_run (a : Nat) (rf : rfs_file) (s : State) :
    store a rf s = .ok () { s with rfiles := Function.update s.rfiles a (some rf) } := rfl

@[simp] theorem set_f_op_run (file : Nat) (t : Option TablePtr) (s : State) :
    set_f_op file t s =
      .ok () { s with files := Function.update s.files file { s.files file with f_op := t } } := rfl

@[simp] theorem load_ptr (a : Nat) (s : State) :
    load (.ptr a) s = match s.rfiles a with
      | some rf => .ok rf s
      | none => .fault .oops s := rfl

theorem load_run (a : Nat) (rf : rfs_file) (s : State) (h : s.rfiles a = some rf) :
    load (.ptr a) s = .ok rf s := by
  simp [h]

theorem wrap32_id (x : Int) (h1 : -2147483648 ≤ x) (h2 : x < 2147483648) : wrap32 x = x := by
  unfold wrap32
  omega

theorem put_zero (s : State) (a : Nat) (rf : rfs_file) (h : s.rfiles a = some rf) (h0 : rf.count = 0) :
    rfs_file_put (.ptr a) s = .fault .BUG s := by
  simp [rfs_file_put, h, h0]

theorem put_keep (s : State) (a : Nat) (rf : rfs_file) (h : s.rfiles a = some rf)
    (h0 : rf.count ≠ 0) (h1 : wrap32 (rf.count - 1) ≠ 0) :
    rfs_file_put (.ptr a) s =
      .ok () { s with rfiles := Function.update s.rfiles a (some { rf with count := wrap32 (rf.count - 1) }) } := by
  simp [rfs_file_put, h, h0, atomic_dec_and_test, h1]

theorem deref_foreign (E : Env) (p : TablePtr) (hp : p.foreign = true) (s : State) :
    deref E p s = .ok (E.table p) s := by
  cases p <;> simp_all [deref, Env.table, TablePtr.foreign]

theorem member_of_foreign (E : Env) (t : Option TablePtr) (op : FopMember)
    (ht : ∀ p, t = some p → p.foreign = true) (s : State) :
    member_of E t op s = .ok (E.entry t op) s := by
  cases t with
  | none => simp [member_of, Env.entry]
  | some p => simp [member_of, Env.entry, deref_foreign E p (ht p rfl)]

theorem fops_get_run (t : Option TablePtr) (s : State) :
    fops_get t s = .ok t { s with trace := s.trace ++ fops_get_ev t } := by
  cases t <;> simp [fops_get, fops_get_ev]

theorem fops_put_run (t : Option TablePtr) (s : State) :
    fops_put t s = .ok () { s with trace := s.trace ++ fops_put_ev t } := by
  cases t <;> simp [fops_put, fops_put_ev]

theorem alloc_run (E : Env) (file a : Nat) (rest : List Nat) (s : State)
    (hc : s.rfs_file_cache = a :: rest)
    (hf : ∀ p, (s.files file).f_op = some p → p.foreign = true) :
    rfs_file_alloc E file s = .ok (.ptr a)
      { s with
        rfs_file_cache := rest
        rfiles := Function.update s.rfiles a (some
          { file := file, rdentry := none, count := 1, op_old := (s.files file).f_op,
            op_new := Function.update
              (match (s.files file).f_op with
               | some p => E.table p
               | none => fun _ => none) .f_open (some .rfs_open),
            data := [] })
        trace := s.trace ++ fops_get_ev (s.files file).f_op } := by
  cases hop : (s.files file).f_op with
  | none =>
    simp [rfs_file_alloc, kmem_cache_zalloc, hc, fops_get_run, hop, fops_get_ev, rfs_file.zero]
  | some p =>
    have hp := hf p hop
    simp [rfs_file_alloc, kmem_cache_zalloc, hc, fops_get_run, hop, fops_get_ev, rfs_file.zero,
      deref_foreign E p hp]

theorem get_run (s : State) (a : Nat) (rf : rfs_file) (h : s.rfiles a = some rf) (h0 : rf.count ≠ 0) :
    rfs_file_get (.ptr a) s =
      .ok (.ptr a) { s with rfiles := Function.update s.rfiles a (some { rf with count := wrap32 (rf.count + 1) }) } := by
  simp [rfs_file_get, h, h0, atomic_inc]

theorem put_last (s : State) (a : Nat) (rf : rfs_file) (h : s.rfiles a = some rf)
    (h0 : rf.count ≠ 0) (h1 : wrap32 (rf.count - 1) = 0) :
    rfs_file_put (.ptr a) s =
      .ok () { s with
        rfiles := Function.update s.rfiles a none
        rfs_file_cache := a :: s.rfs_file_cache
        trace := s.trace ++ ([.rfs_dentry_put rf.rdentry] ++ fops_put_ev rf.op_old ++
          [.rfs_data_remove a, .kmem_cache_free a]) } := by
  simp [rfs_file_put, h, h0, atomic_dec_and_test, h1, rfs_dentry_put, fops_put_run,
    rfs_data_remove, kmem_cache_free]

theorem modify_op_new_run (a : Nat) (rf : rfs_file) (s : State) (h : s.rfiles a = some rf)
    (g : file_operations → file_operations) :
    modify_rfile (.ptr a) (fun r => { r with op_new := g r.op_new }) s =
      .ok () { s with rfiles := Function.update s.rfiles a (some { rf with op_new := g rf.op_new }) } := by
  simp [modify_rfile, h]

theorem RFS_SET_FOP_run (E : Env) (a rd : Nat) (rf : rfs_file) (id : OpId) (op : FopMember) (f : Fn)
    (hrd : rf.rdentry = some rd) (hold : ∀ p, rf.op_old = some p → p.foreign = true)
    (s : State) (h : s.rfiles a = some rf) :
    ∃ t1, RFS_SET_FOP E (.ptr a) id op f s =
      .ok () { s with rfiles := Function.update s.rfiles a (some { rf with op_new := t1 }) } := by
  obtain ⟨file, rdentry, count, op_old, op_new, data⟩ := rf
  simp only at hrd hold
  subst hrd
  have hm := fun g => modify_op_new_run a _ s h g
  simp only [] at hm
  unfold RFS_SET_FOP
  simp only [bind_run, load_ptr, h, getState_run]
  split
  · exact ⟨_, hm (fun x => Function.update x op (some f))⟩
  · cases op_old with
    | none => exact ⟨_, hm (fun x => Function.update x op none)⟩
    | some p =>
      simp only [bind_run, deref_foreign E p (hold p rfl)]
      exact ⟨_, hm (fun x => Function.update x op (E.table p op))⟩

theorem RFS_SET_FOPs_run (E : Env) (a rd : Nat) (rows : List (OpId × FopMember × Fn)) :
    ∀ (rf : rfs_file) (s : State), rf.rdentry = some rd →
    (∀ p, rf.op_old = some p → p.foreign = true) → s.rfiles a = some rf →
    ∃ t1, RFS_SET_FOPs E (.ptr a) rows s =
      .ok () { s with rfiles := Function.update s.rfiles a (some { rf with op_new := t1 }) } := by
  induction rows with
  | nil =>
    intro rf s _ _ h
    refine ⟨rf.op_new, ?_⟩
    simp [RFS_SET_FOPs, ← h]
  | cons row rows ih =>
    intro rf s hrd hold h
    obtain ⟨id, op, f⟩ := row
    obtain ⟨t1, h1⟩ := RFS_SET_FOP_run E a rd rf id op f hrd hold s h
    obtain ⟨t2, h2⟩ := ih { rf with op_new := t1 }
      { s with rfiles := Function.update s.rfiles a (some { rf with op_new := t1 }) } hrd hold (by simp)
    refine ⟨t2, ?_⟩
    simp only [RFS_SET_FOPs, bind_run, h1, h2]
    simp

theorem set_ops_run (E : Env) (a rd : Nat) (rf : rfs_file) (s : State)
    (hrd : rf.rdentry = some rd) (hold : ∀ p, rf.op_old = some p → p.foreign = true)
    (h : s.rfiles a = some rf) :
    ∃ t1, rfs_file_set_ops E (.ptr a) s =
      .ok () { s with rfiles := Function.update s.rfiles a (some { rf with op_new := t1 }) } := by
  obtain ⟨file, rdentry, count, op_old, op_new, data⟩ := rf
  simp only at hrd hold
  subst hrd
  have hfin : ∀ (t : file_operations),
      modify_rfile (.ptr a) (fun r => { r with op_new := Function.update r.op_new .f_release (some .rfs_release) })
        { s with rfiles := Function.update s.rfiles a (some ⟨file, some rd, count, op_old, t, data⟩) } =
      .ok () { s with rfiles := Function.update s.rfiles a (some ⟨file, some rd, count, op_old, Function.update t .f_release (some .rfs_release), data⟩) } := by
    intro t
    simp [modify_rfile]
  have hself : s = { s with rfiles := Function.update s.rfiles a (some ⟨file, some rd, count, op_old, op_new, data⟩) } := by
    simp [← h]
  have hfin0 := modify_op_new_run a _ s h (fun x => Function.update x .f_release (some .rfs_release))
  simp only [] at hfin0
  unfold rfs_file_set_ops
  simp only [bind_run, load_ptr, h, getState_run]
  cases (s.rdentries rd).rinode with
  | none => exact ⟨op_new, by simp [← h]⟩
  | some ri =>
    simp only []
    split
    · obtain ⟨t, ht⟩ := RFS_SET_FOPs_run E a rd (rfs_file_set_ops_reg_rows E) _ s rfl hold h
      exact ⟨Function.update t .f_release (some .rfs_release), by simp only [rfs_file_set_ops_reg, bind_run, ht]; exact hfin t⟩
    · split
      · by_cases hv : E.LINUX_VERSION_CODE < KERNEL_VERSION 3 11 0
        · refine ⟨Function.update (Function.update op_new .f_readdir (some .rfs_readdir)) .f_release (some .rfs_release), ?_⟩
          simp only [rfs_file_set_ops_dir, hv, if_true, bind_run,
            modify_op_new_run a _ s h (fun x => Function.update x .f_readdir (some .rfs_readdir))]
          exact hfin _
        · obtain ⟨t, ht⟩ := RFS_SET_FOPs_run E a rd
            [ (REDIRFS_REG_FOP_DIR_ITERATE, .f_iterate, .rfs_iterate),
              (REDIRFS_REG_FOP_DIR_ITERATE_SHARED, .f_iterate_shared, .rfs_iterate_shared) ] _ s rfl hold h
          exact ⟨Function.update t .f_release (some .rfs_release), by simp only [rfs_file_set_ops_dir, hv, if_false, bind_run, ht]; exact hfin t⟩
      · split
        · exact ⟨Function.update op_new .f_release (some .rfs_release), by simp only [rfs_file_set_ops_lnk, bind_run, pure_run]; exact hfin0⟩
        · split
          · obtain ⟨t, ht⟩ := RFS_SET_FOPs_run E a rd (rfs_file_set_ops_chr_rows E) _ s rfl hold h
            exact ⟨Function.update t .f_release (some .rfs_release), by simp only [rfs_file_set_ops_chr, bind_run, ht]; exact hfin t⟩
          · split
            · exact ⟨Function.update op_new .f_release (some .rfs_release), by simp only [rfs_file_set_ops_blk, bind_run, pure_run]; exact hfin0⟩
            · split
              · exact ⟨Function.update op_new .f_release (some .rfs_release), by simp only [rfs_file_set_ops_fifo, bind_run, pure_run]; exact hfin0⟩
              · exact ⟨Function.update op_new .f_release (some .rfs_release), by simp only [bind_run, pure_run]; exact hfin0⟩

theorem rfs_dentry_find_run (d : Nat) (s : State) :
    rfs_dentry_find d s = .ok (s.rdentry_of d) { s with trace := s.trace ++ [.rfs_dentry_find d] } := by
  simp [rfs_dentry_find]

theorem get_nf (a : Nat) (s : State) :
    rfs_file_get (.ptr a) s =
      match s.rfiles a with
      | some rf =>
        if rf.count = 0 then .fault .BUG s
        else .ok (.ptr a) { s with rfiles := Function.update s.rfiles a (some { rf with count := wrap32 (rf.count + 1) }) }
      | none => .fault .oops s := by
  cases h : s.rfiles a with
  | none => simp [rfs_file_get, h]
  | some rf =>
    by_cases h0 : rf.count = 0
    · simp [rfs_file_get, h, h0]
    · simp [rfs_file_get, h, h0, atomic_inc]

theorem put_nf (a : Nat) (s : State) :
    rfs_file_put (.ptr a) s =
      match s.rfiles a with
      | some rf =>
        if rf.count = 0 then .fault .BUG s
        else if wrap32 (rf.count - 1) = 0 then
          .ok () { s with
            rfiles := Function.update s.rfiles a none
            rfs_file_cache := a :: s.rfs_file_cache
            trace := s.trace ++ ([.rfs_dentry_put rf.rdentry] ++ fops_put_ev rf.op_old ++
              [.rfs_data_remove a, .kmem_cache_free a]) }
        else .ok () { s with rfiles := Function.update s.rfiles a (some { rf with count := wrap32 (rf.count - 1) }) }
      | none => .fault .oops s := by
  cases h : s.rfiles a with
  | none => simp [rfs_file_put, h]
  | some rf =>
    by_cases h0 : rf.count = 0
    · simp [put_zero s a rf h h0, h0]
    · by_cases h1 : wrap32 (rf.count - 1) = 0
      · simp [put_last s a rf h h0 h1, h0, h1]
      · simp [put_keep s a rf h h0 h1, h0, h1]

theorem modify_nf (a : Nat) (g : rfs_file → rfs_file) (s : State) :
    modify_rfile (.ptr a) g s =
      match s.rfiles a with
      | some rf => .ok () { s with rfiles := Function.update s.rfiles a (some (g rf)) }
      | none => .fault .oops s := by
  cases h : s.rfiles a <;> simp [modify_rfile, h]

theorem set_ops_eq (E : Env) (a : Nat) (s : State) (rf : rfs_file) (rd : Nat)
    (h : s.rfiles a = some rf)
    (hrd : rf.rdentry = some rd) (hold : ∀ p, rf.op_old = some p → p.foreign = true) :
    rfs_file_set_ops E (.ptr a) s =
      .ok () { s with rfiles := Function.update s.rfiles a (some { rf with op_new := set_ops_table E a s }) } := by
  obtain ⟨t, ht⟩ := set_ops_run E a rd rf s hrd hold h
  have : set_ops_table E a s = t := by simp [set_ops_table, ht]
  rw [this, ht]

theorem add_run (E : Env) (file a rd : Nat) (rest : List Nat) (s : State)
    (hc : s.rfs_file_cache = a :: rest)
    (hf : ∀ p, (s.files file).f_op = some p → p.foreign = true)
    (hrd : s.rdentry_of (s.files file).f_dentry = some rd) :
    ∃ t, rfs_file_add E file s = .ok (.ptr a)
      { files := Function.update s.files file { f_op := some (.op_new a), f_dentry := (s.files file).f_dentry }
        rfiles := Function.update s.rfiles a (some
          { file := file, rdentry := some rd, count := 3, op_old := (s.files file).f_op,
            op_new := t, data := [] })
        rfs_file_cache := rest
        rdentry_of := s.rdentry_of
        rdentries := Function.update s.rdentries rd
          { rinfo := (s.rdentries rd).rinfo, rinode := (s.rdentries rd).rinode, rfiles := (s.rdentries rd).rfiles ++ [a] }
        trace := s.trace ++ (fops_get_ev (s.files file).f_op ++
          [.rfs_dentry_find (s.files file).f_dentry, .rfs_dentry_add_rfile rd a] ++
          fops_put_ev (s.files file).f_op) } := by
  simp only [rfs_file_add, bind_run, alloc_run E file a rest s hc hf, IS_ERR, getState_run,
    rfs_dentry_find_run, hrd, modify_nf, get_nf, Function.update_same, store_run,
    rfs_dentry_add_rfile, log_run, setState_run, fops_put_run, set_f_op_run,
    Function.update_idem, Bool.false_eq_true, if_false, pure_run]
  simp [wrap32]
  apply Exists.intro
  rw [set_ops_eq E a _ _ rd (by simp; rfl) rfl hf]
  simp
  rfl

theorem add_eq (E : Env) (file a rd : Nat) (rest : List Nat) (s : State)
    (hc : s.rfs_file_cache = a :: rest)
    (hf : ∀ p, (s.files file).f_op = some p → p.foreign = true)
    (hrd : s.rdentry_of (s.files file).f_dentry = some rd) :
    rfs_file_add E file s = .ok (.ptr a)
      { files := Function.update s.files file { f_op := some (.op_new a), f_dentry := (s.files file).f_dentry }
        rfiles := Function.update s.rfiles a (some
          { file := file, rdentry := some rd, count := 3, op_old := (s.files file).f_op,
            op_new := add_table E file s, data := [] })
        rfs_file_cache := rest
        rdentry_of := s.rdentry_of
        rdentries := Function.update s.rdentries rd
          { rinfo := (s.rdentries rd).rinfo, rinode := (s.rdentries rd).rinode, rfiles := (s.rdentries rd).rfiles ++ [a] }
        trace := s.trace ++ (fops_get_ev (s.files file).f_op ++
          [.rfs_dentry_find (s.files file).f_dentry, .rfs_dentry_add_rfile rd a] ++
          fops_put_ev (s.files file).f_op) } := by
  obtain ⟨t, ht⟩ := add_run E file a rd rest s hc hf hrd
  have : add_table E file s = t := by simp [add_table, ht]
  rw [this, ht]

theorem add_nomem (E : Env) (file : Nat) (s : State) (hc : s.rfs_file_cache = []) :
    rfs_file_add E file s = .ok (.err (-ENOMEM)) s := by
  simp [rfs_file_add, rfs_file_alloc, kmem_cache_zalloc, hc, ERR_PTR, IS_ERR]

theorem open_files_f_dentry (E : Env) (entry : Option Fn) (inode arg : Nat) (stop : Int)
    (files : Nat → file) (x : Nat) :
    (open_files E entry inode arg stop files x).f_dentry = (files x).f_dentry := by
  unfold open_files
  cases open_installs E entry inode arg stop with
  | none => rfl
  | some n =>
    by_cases hx : x = arg
    · subst hx
      simp
    · simp [Function.update_noteq hx]

theorem open_files_f_op (E : Env) (entry : Option Fn) (inode arg : Nat) (stop : Int)
    (files : Nat → file) (x : Nat) :
    (open_files E entry inode arg stop files x).f_op =
      open_f_op_left E (files x).f_op entry inode arg stop x := by
  unfold open_files open_f_op_left
  cases open_installs E entry inode arg stop with
  | none => rfl
  | some n =>
    by_cases hx : arg = x
    · subst hx
      simp
    · have hx1 : x ≠ arg := fun h => hx h.symm
      simp [Function.update_noteq hx1, hx]

theorem open_f_op_left_foreign (E : Env) (t : Option TablePtr) (entry : Option Fn)
    (inode arg : Nat) (stop : Int) (x : Nat) (ht : ∀ p, t = some p → p.foreign = true) :
    ∀ p, open_f_op_left E t entry inode arg stop x = some p → p.foreign = true := by
  intro p hp
  unfold open_f_op_left at hp
  cases h : open_installs E entry inode arg stop with
  | none =>
    rw [h] at hp
    exact ht p hp
  | some n =>
    rw [h] at hp
    by_cases hx : arg = x
    · simp [hx] at hp
      subst hp
      rfl
    · simp [hx] at hp
      exact ht p hp

theorem open_f_op_left_none (E : Env) (t : Option TablePtr) (entry : Option Fn)
    (inode arg : Nat) (stop : Int) (x : Nat) (h : open_installs E entry inode arg stop = none) :
    open_f_op_left E t entry inode arg stop x = t := by
  simp [open_f_op_left, h]

theorem open_f_op_left_some (E : Env) (t : Option TablePtr) (entry : Option Fn)
    (inode arg : Nat) (stop : Int) (x n : Nat)
    (h : open_installs E entry inode arg stop = some n) (hx : arg = x) :
    open_f_op_left E t entry inode arg stop x = some (.ext n) := by
  unfold open_f_op_left
  rw [h]
  simp [hx]

theorem open_f_op_left_ext (E : Env) (t : Option TablePtr) (entry : Option Fn)
    (inode arg : Nat) (stop : Int) (x : Nat) (ht : ∀ p, t = some p → ∃ n, p = .ext n) :
    ∀ p, open_f_op_left E t entry inode arg stop x = some p → ∃ n, p = .ext n := by
  intro p hp
  unfold open_f_op_left at hp
  cases h : open_installs E entry inode arg stop with
  | none =>
    rw [h] at hp
    exact ht p hp
  | some n =>
    rw [h] at hp
    by_cases hx : arg = x
    · simp [hx] at hp
      exact ⟨n, hp.symm⟩
    · simp [hx] at hp
      exact ht p hp

/-- The run of `rfs_open` on a shadowed dentry up to the end of the
original-call phase. -/
theorem open_entry_run (E : Env) (s : State) (stack : redirfs_args) (inode file ri rd : Nat) (id : OpId)
    (stop : Int) (c1 : rfs_context) (a2 : redirfs_args)
    (hri : E.rinode_of inode = some ri)
    (hrd : s.rdentry_of (s.files file).f_dentry = some rd)
    (hid : rfs_open_id (E.i_mode inode) = some id)
    (hfo : ∀ p, E.fop_old ri = some p → p.foreign = true)
    (hpre : E.precall_flts (E.rchain (s.rdentries rd).rinfo) rcont0
      { stack with id := id, inode := inode, file := file } = (stop, c1, a2)) :
    rfs_open E stack inode file s =
      rfs_open_tail E file (some ri) (s.rdentries rd).rinfo c1
        (prov_args E (E.entry (E.fop_old ri) .f_open) [a2.inode, a2.file] 0 stop a2)
        { s with
          files := open_files E (E.entry (E.fop_old ri) .f_open) a2.inode a2.file stop
            (Function.update s.files file
              { f_op := E.fop_old ri, f_dentry := (s.files file).f_dentry })
          trace := s.trace ++ ([.rfs_inode_find inode] ++ fops_put_ev (s.files file).f_op ++
            fops_get_ev (E.fop_old ri) ++
            [.rfs_dentry_find (s.files file).f_dentry, .rfs_dentry_get_rinfo rd,
             .rfs_dentry_put (some rd), .rfs_context_init 0,
             .precall (E.rchain (s.rdentries rd).rinfo) rcont0
               { stack with id := id, inode := inode, file := file }] ++
            orig_events (E.entry (E.fop_old ri) .f_open) [a2.inode, a2.file] stop) } := by
  have hm := member_of_foreign E (E.fop_old ri) .f_open hfo
  by_cases hs : stop = 0
  · cases he : E.entry (E.fop_old ri) .f_open with
    | none =>
      simp [rfs_open, rfs_open_tail, rfs_inode_find, hri, fops_get_run, fops_put_run,
        rfs_dentry_find_run, hrd, rfs_dentry_get_rinfo, rfs_dentry_put, rfs_context_init, hid,
        rfs_precall_flts, ← rcont0.eq_1, hpre, hm, hs, he, orig_events, prov_args, open_files,
        open_installs]
    | some f =>
      cases ho : E.open_f_op f a2.inode a2.file with
      | none =>
        simp [rfs_open, rfs_open_tail, rfs_inode_find, hri, fops_get_run, fops_put_run,
          rfs_dentry_find_run, hrd, rfs_dentry_get_rinfo, rfs_dentry_put, rfs_context_init, hid,
          rfs_precall_flts, ← rcont0.eq_1, hpre, hm, hs, he, call_open, ho, orig_events, prov_args,
          open_files, open_installs]
      | some n =>
        simp [rfs_open, rfs_open_tail, rfs_inode_find, hri, fops_get_run, fops_put_run,
          rfs_dentry_find_run, hrd, rfs_dentry_get_rinfo, rfs_dentry_put, rfs_context_init, hid,
          rfs_precall_flts, ← rcont0.eq_1, hpre, hm, hs, he, call_open, ho, orig_events, prov_args,
          open_files, open_installs]
  · simp [rfs_open, rfs_open_tail, rfs_inode_find, hri, fops_get_run, fops_put_run,
      rfs_dentry_find_run, hrd, rfs_dentry_get_rinfo, rfs_dentry_put, rfs_context_init, hid,
      rfs_precall_flts, ← rcont0.eq_1, hpre, hm, hs, orig_events, prov_args, open_files,
      open_installs]

/-- The tail of `rfs_open` when the provisional result is not 0. -/
theorem tail_nofile (E : Env) (file : Nat) (rinode : Option Nat) (rinfo : Nat) (rcont : rfs_context)
    (rargs : redirfs_args) (S : State) (hp : rargs.rv_int ≠ 0) :
    rfs_open_tail E file rinode rinfo rcont rargs S =
      .ok (E.postcall_flts (E.rchain rinfo) rcont rargs).2.rv_int
        { S with trace := S.trace ++
            [.postcall (E.rchain rinfo) rcont rargs,
             .rfs_context_deinit (E.postcall_flts (E.rchain rinfo) rcont rargs).1,
             .rfs_inode_put rinode, .rfs_info_put rinfo] } := by
  simp [rfs_open_tail, hp, rfs_postcall_flts, rfs_context_deinit, rfs_inode_put, rfs_info_put]

/-- The tail of `rfs_open` when the provisional result is 0 and the slab cache is
exhausted. -/
theorem tail_bug (E : Env) (file : Nat) (rinode : Option Nat) (rinfo : Nat) (rcont : rfs_context)
    (rargs : redirfs_args) (S : State) (hp : rargs.rv_int = 0) (hc : S.rfs_file_cache = []) :
    rfs_open_tail E file rinode rinfo rcont rargs S = .fault .BUG S := by
  simp [rfs_open_tail, hp, add_nomem E file S hc, IS_ERR]

/-- The tail of `rfs_open` when the provisional result is 0 and the slab cache
has a free object. -/
theorem tail_add (E : Env) (file : Nat) (rinode : Option Nat) (rinfo : Nat) (rcont : rfs_context)
    (rargs : redirfs_args) (S : State) (a rd : Nat) (rest : List Nat)
    (hp : rargs.rv_int = 0) (hc : S.rfs_file_cache = a :: rest)
    (hf : ∀ p, (S.files file).f_op = some p → p.foreign = true)
    (hrd : S.rdentry_of (S.files file).f_dentry = some rd) :
    rfs_open_tail E file rinode rinfo rcont rargs S =
      .ok (E.postcall_flts (E.rchain rinfo) rcont rargs).2.rv_int
        { files := Function.update S.files file
            { f_op := some (.op_new a), f_dentry := (S.files file).f_dentry }
          rfiles := Function.update S.rfiles a (some
            { file := file, rdentry := some rd, count := 2, op_old := (S.files file).f_op,
              op_new := add_table E file S, data := [] })
          rfs_file_cache := rest
          rdentry_of := S.rdentry_of
          rdentries := Function.update S.rdentries rd
            { rinfo := (S.rdentries rd).rinfo, rinode := (S.rdentries rd).rinode,
              rfiles := (S.rdentries rd).rfiles ++ [a] }
          trace := S.trace ++ (fops_get_ev (S.files file).f_op ++
            [.rfs_dentry_find (S.files file).f_dentry, .rfs_dentry_add_rfile rd a] ++
            fops_put_ev (S.files file).f_op) ++
            [.postcall (E.rchain rinfo) rcont rargs,
             .rfs_context_deinit (E.postcall_flts (E.rchain rinfo) rcont rargs).1,
             .rfs_inode_put rinode, .rfs_info_put rinfo] } := by
  simp [rfs_open_tail, hp, add_eq E file a rd rest S hc hf hrd, IS_ERR, put_nf, wrap32,
    rfs_postcall_flts, rfs_context_deinit, rfs_inode_put, rfs_info_put]

theorem open_run_nofile (E : Env) (s : State) (stack : redirfs_args) (inode file ri rd : Nat) (id : OpId)
    (stop : Int) (c1 c2 : rfs_context) (a2 a3 : redirfs_args)
    (hri : E.rinode_of inode = some ri)
    (hrd : s.rdentry_of (s.files file).f_dentry = some rd)
    (hid : rfs_open_id (E.i_mode inode) = some id)
    (hfo : ∀ p, E.fop_old ri = some p → p.foreign = true)
    (hpre : E.precall_flts (E.rchain (s.rdentries rd).rinfo) rcont0
      { stack with id := id, inode := inode, file := file } = (stop, c1, a2))
    (hpost : E.postcall_flts (E.rchain (s.rdentries rd).rinfo) c1
      (prov_args E (E.entry (E.fop_old ri) .f_open) [a2.inode, a2.file] 0 stop a2) = (c2, a3))
    (hprov : (prov_args E (E.entry (E.fop_old ri) .f_open) [a2.inode, a2.file] 0 stop a2).rv_int ≠ 0) :
    rfs_open E stack inode file s = .ok a3.rv_int
      { s with
        files := open_files E (E.entry (E.fop_old ri) .f_open) a2.inode a2.file stop
          (Function.update s.files file { f_op := E.fop_old ri, f_dentry := (s.files file).f_dentry })
        trace := s.trace ++ ([.rfs_inode_find inode] ++ fops_put_ev (s.files file).f_op ++
          fops_get_ev (E.fop_old ri) ++
          [.rfs_dentry_find (s.files file).f_dentry, .rfs_dentry_get_rinfo rd, .rfs_dentry_put (some rd),
           .rfs_context_init 0,
           .precall (E.rchain (s.rdentries rd).rinfo) rcont0 { stack with id := id, inode := inode, file := file }] ++
          orig_events (E.entry (E.fop_old ri) .f_open) [a2.inode, a2.file] stop ++
          [.postcall (E.rchain (s.rdentries rd).rinfo) c1
             (prov_args E (E.entry (E.fop_old ri) .f_open) [a2.inode, a2.file] 0 stop a2),
           .rfs_context_deinit c2, .rfs_inode_put (some ri), .rfs_info_put (s.rdentries rd).rinfo]) } := by
  rw [open_entry_run E s stack inode file ri rd id stop c1 a2 hri hrd hid hfo hpre,
    tail_nofile E file (some ri) (s.rdentries rd).rinfo c1 _ _ hprov]
  simp [hpost]

theorem open_run_add (E : Env) (s : State) (stack : redirfs_args) (inode file ri rd : Nat) (id : OpId)
    (stop : Int) (c1 c2 : rfs_context) (a2 a3 : redirfs_args) (a : Nat) (rest : List Nat)
    (hri : E.rinode_of inode = some ri)
    (hrd : s.rdentry_of (s.files file).f_dentry = some rd)
    (hid : rfs_open_id (E.i_mode inode) = some id)
    (hfo : ∀ p, E.fop_old ri = some p → p.foreign = true)
    (hpre : E.precall_flts (E.rchain (s.rdentries rd).rinfo) rcont0
      { stack with id := id, inode := inode, file := file } = (stop, c1, a2))
    (hpost : E.postcall_flts (E.rchain (s.rdentries rd).rinfo) c1
      (prov_args E (E.entry (E.fop_old ri) .f_open) [a2.inode, a2.file] 0 stop a2) = (c2, a3))
    (hprov : (prov_args E (E.entry (E.fop_old ri) .f_open) [a2.inode, a2.file] 0 stop a2).rv_int = 0)
    (hc : s.rfs_file_cache = a :: rest) :
    ∃ t, rfs_open E stack inode file s = .ok a3.rv_int
      { files := Function.update
          (open_files E (E.entry (E.fop_old ri) .f_open) a2.inode a2.file stop
            (Function.update s.files file { f_op := E.fop_old ri, f_dentry := (s.files file).f_dentry }))
          file { f_op := some (.op_new a), f_dentry := (s.files file).f_dentry }
        rfiles := Function.update s.rfiles a (some
          { file := file, rdentry := some rd, count := 2,
            op_old := open_f_op_left E (E.fop_old ri) (E.entry (E.fop_old ri) .f_open)
              a2.inode a2.file stop file,
            op_new := t, data := [] })
        rfs_file_cache := rest
        rdentry_of := s.rdentry_of
        rdentries := Function.update s.rdentries rd
          { rinfo := (s.rdentries rd).rinfo, rinode := (s.rdentries rd).rinode, rfiles := (s.rdentries rd).rfiles ++ [a] }
        trace := s.trace ++ ([.rfs_inode_find inode] ++ fops_put_ev (s.files file).f_op ++
          fops_get_ev (E.fop_old ri) ++
          [.rfs_dentry_find (s.files file).f_dentry, .rfs_dentry_get_rinfo rd, .rfs_dentry_put (some rd),
           .rfs_context_init 0,
           .precall (E.rchain (s.rdentries rd).rinfo) rcont0 { stack with id := id, inode := inode, file := file }] ++
          orig_events (E.entry (E.fop_old ri) .f_open) [a2.inode, a2.file] stop ++
          (fops_get_ev (open_f_op_left E (E.fop_old ri) (E.entry (E.fop_old ri) .f_open)
              a2.inode a2.file stop file) ++
            [.rfs_dentry_find (s.files file).f_dentry, .rfs_dentry_add_rfile rd a] ++
            fops_put_ev (open_f_op_left E (E.fop_old ri) (E.entry (E.fop_old ri) .f_open)
              a2.inode a2.file stop file)) ++
          [.postcall (E.rchain (s.rdentries rd).rinfo) c1
             (prov_args E (E.entry (E.fop_old ri) .f_open) [a2.inode, a2.file] 0 stop a2),
           .rfs_context_deinit c2, .rfs_inode_put (some ri), .rfs_info_put (s.rdentries rd).rinfo]) } := by
  have hL : (open_files E (E.entry (E.fop_old ri) .f_open) a2.inode a2.file stop
      (Function.update s.files file { f_op := E.fop_old ri, f_dentry := (s.files file).f_dentry })
      file).f_op =
      open_f_op_left E (E.fop_old ri) (E.entry (E.fop_old ri) .f_open) a2.inode a2.file stop file := by
    rw [open_files_f_op]
    simp
  have hD : (open_files E (E.entry (E.fop_old ri) .f_open) a2.inode a2.file stop
      (Function.update s.files file { f_op := E.fop_old ri, f_dentry := (s.files file).f_dentry })
      file).f_dentry = (s.files file).f_dentry := by
    rw [open_files_f_dentry]
    simp
  rw [open_entry_run E s stack inode file ri rd id stop c1 a2 hri hrd hid hfo hpre,
    tail_add E file (some ri) (s.rdentries rd).rinfo c1 _ _ a rd rest hprov (by simpa using hc)
      (by
        intro p hp
        simp only [hL] at hp
        exact open_f_op_left_foreign E _ _ _ _ _ _ hfo p hp)
      (by simp only [hD]; exact hrd)]
  apply Exists.intro
  simp only [hL, hD, hpost]
  simp
  rfl

theorem open_run_bug (E : Env) (s : State) (stack : redirfs_args) (inode file ri rd : Nat) (id : OpId)
    (stop : Int) (c1 : rfs_context) (a2 : redirfs_args)
    (hri : E.rinode_of inode = some ri)
    (hrd : s.rdentry_of (s.files file).f_dentry = some rd)
    (hid : rfs_open_id (E.i_mode inode) = some id)
    (hfo : ∀ p, E.fop_old ri = some p → p.foreign = true)
    (hpre : E.precall_flts (E.rchain (s.rdentries rd).rinfo) rcont0
      { stack with id := id, inode := inode, file := file } = (stop, c1, a2))
    (hprov : (prov_args E (E.entry (E.fop_old ri) .f_open) [a2.inode, a2.file] 0 stop a2).rv_int = 0)
    (hc : s.rfs_file_cache = []) :
    rfs_open E stack inode file s = .fault .BUG
      { s with
        files := open_files E (E.entry (E.fop_old ri) .f_open) a2.inode a2.file stop
          (Function.update s.files file { f_op := E.fop_old ri, f_dentry := (s.files file).f_dentry })
        trace := s.trace ++ ([.rfs_inode_find inode] ++ fops_put_ev (s.files file).f_op ++
          fops_get_ev (E.fop_old ri) ++
          [.rfs_dentry_find (s.files file).f_dentry, .rfs_dentry_get_rinfo rd, .rfs_dentry_put (some rd),
           .rfs_context_init 0,
           .precall (E.rchain (s.rdentries rd).rinfo) rcont0 { stack with id := id, inode := inode, file := file }] ++
          orig_events (E.entry (E.fop_old ri) .f_open) [a2.inode, a2.file] stop) } := by
  rw [open_entry_run E s stack inode file ri rd id stop c1 a2 hri hrd hid hfo hpre,
    tail_bug E file (some ri) (s.rdentries rd).rinfo c1 _ _ hprov (by simpa using hc)]

theorem release_run (E : Env) (s : State) (stack : redirfs_args) (inode file a rd : Nat) (rf : rfs_file)
    (stop : Int) (c1 c2 : rfs_context) (a2 a3 : redirfs_args)
    (hf : (s.files file).f_op = some (.op_new a))
    (h : s.rfiles a = some rf)
    (hrd : rf.rdentry = some rd)
    (hold : ∀ p, rf.op_old = some p → p.foreign = true)
    (hc2 : 2 ≤ rf.count) (hcmax : rf.count < 2147483647)
    (hpre : E.precall_flts (E.rchain (s.rdentries rd).rinfo) rcont0
      { stack with id := rfs_release_id (E.i_mode inode) stack, inode := inode, file := file } = (stop, c1, a2))
    (hpost : E.postcall_flts (E.rchain (s.rdentries rd).rinfo) c1
      (prov_args E (E.entry rf.op_old .f_release) [a2.inode, a2.file] 0 stop a2) = (c2, a3)) :
    rfs_release E stack inode file s = .ok a3.rv_int
      { files := Function.update s.files rf.file { f_op := rf.op_old, f_dentry := (s.files rf.file).f_dentry }
        rfiles := Function.update s.rfiles a
          (if rf.count = 2 then none else some { rf with count := rf.count - 2 })
        rfs_file_cache := if rf.count = 2 then a :: s.rfs_file_cache else s.rfs_file_cache
        rdentry_of := s.rdentry_of
        rdentries := Function.update s.rdentries rd
          { rinfo := (s.rdentries rd).rinfo, rinode := (s.rdentries rd).rinode,
            rfiles := (s.rdentries rd).rfiles.erase a }
        trace := s.trace ++ ([.rfs_dentry_get_rinfo rd, .rfs_context_init 0,
            .precall (E.rchain (s.rdentries rd).rinfo) rcont0
              { stack with id := rfs_release_id (E.i_mode inode) stack, inode := inode, file := file }] ++
          orig_events (E.entry rf.op_old .f_release) [a2.inode, a2.file] stop ++
          [.postcall (E.rchain (s.rdentries rd).rinfo) c1
             (prov_args E (E.entry rf.op_old .f_release) [a2.inode, a2.file] 0 stop a2),
           .rfs_context_deinit c2, .rfs_dentry_rem_rfile rd a] ++
          fops_get_ev rf.op_old ++
          (if rf.count = 2 then teardown_events a rf else []) ++
          [.rfs_info_put (s.rdentries rd).rinfo]) } := by
  obtain ⟨rfile, rdentry, count, op_old, op_new, data⟩ := rf
  simp only at hrd hold hc2 hcmax hpost ⊢
  subst hrd
  have hm := member_of_foreign E op_old .f_release hold
  have w1 : wrap32 (count + 1) = count + 1 := wrap32_id _ (by omega) (by omega)
  have w2 : wrap32 count = count := wrap32_id _ (by omega) (by omega)
  have w3 : wrap32 (count - 1) = count - 1 := wrap32_id _ (by omega) (by omega)
  have w4 : wrap32 (count - 1 - 1) = count - 2 := by rw [wrap32_id _ (by omega) (by omega)]; omega
  have n1 : count + 1 ≠ 0 := by omega
  have n2 : count ≠ 0 := by omega
  have n3 : count - 1 ≠ 0 := by omega
  have n4 : (count - 2 = 0) = (count = 2) := by
    apply propext
    constructor <;> intro h <;> omega
  by_cases hs : stop = 0
  · cases he : E.entry op_old .f_release with
    | none =>
      simp only [prov_args, hs, he, if_true] at hpost
      by_cases h2 : count = 2
      · subst h2
        clear w1 w2 w3 w4 n1 n2 n3 n4
        simp [rfs_release, rfs_file_find, hf, get_nf, put_nf, h, wrap32,
        rfs_dentry_get_rinfo, rfs_context_init, rfs_precall_flts, ← rcont0.eq_1, hpre, hm, hs, he, call,
        rfs_postcall_flts, hpost, rfs_context_deinit, rfs_info_put, orig_events, prov_args,
        rfs_file_del, rfs_dentry_rem_rfile, fops_get_run, teardown_events]
      · simp [rfs_release, rfs_file_find, hf, get_nf, put_nf, h, h2, w1, w2, w3, w4, n1, n2, n3, n4,
        rfs_dentry_get_rinfo, rfs_context_init, rfs_precall_flts, ← rcont0.eq_1, hpre, hm, hs, he, call,
        rfs_postcall_flts, hpost, rfs_context_deinit, rfs_info_put, orig_events, prov_args,
        rfs_file_del, rfs_dentry_rem_rfile, fops_get_run, teardown_events]
    | some f =>
      simp only [prov_args, hs, he, if_true] at hpost
      by_cases h2 : count = 2
      · subst h2
        clear w1 w2 w3 w4 n1 n2 n3 n4
        simp [rfs_release, rfs_file_find, hf, get_nf, put_nf, h, wrap32,
        rfs_dentry_get_rinfo, rfs_context_init, rfs_precall_flts, ← rcont0.eq_1, hpre, hm, hs, he, call,
        rfs_postcall_flts, hpost, rfs_context_deinit, rfs_info_put, orig_events, prov_args,
        rfs_file_del, rfs_dentry_rem_rfile, fops_get_run, teardown_events]
      · simp [rfs_release, rfs_file_find, hf, get_nf, put_nf, h, h2, w1, w2, w3, w4, n1, n2, n3, n4,
        rfs_dentry_get_rinfo, rfs_context_init, rfs_precall_flts, ← rcont0.eq_1, hpre, hm, hs, he, call,
        rfs_postcall_flts, hpost, rfs_context_deinit, rfs_info_put, orig_events, prov_args,
        rfs_file_del, rfs_dentry_rem_rfile, fops_get_run, teardown_events]
  · simp only [prov_args, hs, if_false] at hpost
    by_cases h2 : count = 2
    · subst h2
      clear w1 w2 w3 w4 n1 n2 n3 n4
      simp [rfs_release, rfs_file_find, hf, get_nf, put_nf, h, wrap32,
        rfs_dentry_get_rinfo, rfs_context_init, rfs_precall_flts, ← rcont0.eq_1, hpre, hm, hs, call,
        rfs_postcall_flts, hpost, rfs_context_deinit, rfs_info_put, orig_events, prov_args,
        rfs_file_del, rfs_dentry_rem_rfile, fops_get_run, teardown_events]
    · simp [rfs_release, rfs_file_find, hf, get_nf, put_nf, h, h2, w1, w2, w3, w4, n1, n2, n3, n4,
        rfs_dentry_get_rinfo, rfs_context_init, rfs_precall_flts, ← rcont0.eq_1, hpre, hm, hs, call,
        rfs_postcall_flts, hpost, rfs_context_deinit, rfs_info_put, orig_events, prov_args,
        rfs_file_del, rfs_dentry_rem_rfile, fops_get_run, teardown_events]

/-! ## Trace lemmas -/

theorem new_events_ok {α : Type} (s : State) (v : α) (s1 : State) (evs : List Event)
    (h : s1.trace = s.trace ++ evs) : new_events s (Res.ok v s1) = evs := by
  simp [new_events, Res.state, h]

theorem new_events_fault {α : Type} (s : State) (f : Fault) (s1 : State) (evs : List Event)
    (h : s1.trace = s.trace ++ evs) : new_events s (Res.fault f s1 : Res α) = evs := by
  simp [new_events, Res.state, h]

theorem count_fops_put_ev (t : Option TablePtr) (rd : Option Nat) :
    (fops_put_ev t).count (.rfs_dentry_put rd) = 0 := by
  cases t <;> simp [fops_put_ev]

theorem count_fops_get_ev (t : Option TablePtr) (rd : Option Nat) :
    (fops_get_ev t).count (.rfs_dentry_put rd) = 0 := by
  cases t <;> simp [fops_get_ev]

theorem calls_of_append (l1 l2 : List Event) : calls_of (l1 ++ l2) = calls_of l1 ++ calls_of l2 := by
  induction l1 with
  | nil => rfl
  | cons e l ih => cases e <;> simp [calls_of, ih]

theorem postcalls_of_append (l1 l2 : List Event) :
    postcalls_of (l1 ++ l2) = postcalls_of l1 ++ postcalls_of l2 := by
  induction l1 with
  | nil => rfl
  | cons e l ih => cases e <;> simp [postcalls_of, ih]

theorem dispatch_of_append (l1 l2 : List Event) :
    dispatch_of (l1 ++ l2) = dispatch_of l1 ++ dispatch_of l2 := by
  simp [dispatch_of]

theorem dispatch_of_cons (e : Event) (l : List Event) :
    dispatch_of (e :: l) = if e.is_dispatch = true then e :: dispatch_of l else dispatch_of l := by
  simp only [dispatch_of, List.filter_cons]

@[simp] theorem dispatch_of_nil : dispatch_of [] = [] := rfl

@[simp] theorem calls_of_fops_get_ev (t : Option TablePtr) : calls_of (fops_get_ev t) = [] := by
  cases t <;> rfl

@[simp] theorem calls_of_fops_put_ev (t : Option TablePtr) : calls_of (fops_put_ev t) = [] := by
  cases t <;> rfl

@[simp] theorem postcalls_of_fops_get_ev (t : Option TablePtr) : postcalls_of (fops_get_ev t) = [] := by
  cases t <;> rfl

@[simp] theorem postcalls_of_fops_put_ev (t : Option TablePtr) : postcalls_of (fops_put_ev t) = [] := by
  cases t <;> rfl

@[simp] theorem dispatch_of_fops_get_ev (t : Option TablePtr) : dispatch_of (fops_get_ev t) = [] := by
  cases t <;> rfl

@[simp] theorem dispatch_of_fops_put_ev (t : Option TablePtr) : dispatch_of (fops_put_ev t) = [] := by
  cases t <;> rfl

@[simp] theorem postcalls_of_orig_events (entry : Option Fn) (argv : List Nat) (stop : Int) :
    postcalls_of (orig_events entry argv stop) = [] := by
  unfold orig_events
  split
  · cases entry <;> rfl
  · rfl

@[simp] theorem dispatch_of_orig_events (entry : Option Fn) (argv : List Nat) (stop : Int) :
    dispatch_of (orig_events entry argv stop) = orig_events entry argv stop := by
  unfold orig_events
  split
  · cases entry <;> rfl
  · rfl

@[simp] theorem calls_of_teardown (a : Nat) (rf : rfs_file) : calls_of (teardown_events a rf) = [] := by
  simp [teardown_events, calls_of_append, calls_of]

@[simp] theorem postcalls_of_teardown (a : Nat) (rf : rfs_file) :
    postcalls_of (teardown_events a rf) = [] := by
  simp [teardown_events, postcalls_of_append, postcalls_of]

@[simp] theorem dispatch_of_teardown (a : Nat) (rf : rfs_file) :
    dispatch_of (teardown_events a rf) = [] := by
  simp [teardown_events, dispatch_of_append, dispatch_of_cons, Event.is_dispatch]

/-- What every claim about `rfs_open` on a shadowed dentry needs from a run. -/
theorem open_summary (E : Env) (s : State) (stack : redirfs_args) (inode file ri rd : Nat) (id : OpId)
    (stop : Int) (c1 : rfs_context) (a2 prov : redirfs_args)
    (hri : E.rinode_of inode = some ri)
    (hrd : s.rdentry_of (s.files file).f_dentry = some rd)
    (hid : rfs_open_id (E.i_mode inode) = some id)
    (hfo : ∀ p, E.fop_old ri = some p → p.foreign = true)
    (hpre : E.precall_flts (E.rchain (s.rdentries rd).rinfo) rcont0
      { stack with id := id, inode := inode, file := file } = (stop, c1, a2))
    (hprov : prov = prov_args E (E.entry (E.fop_old ri) .f_open) [a2.inode, a2.file] 0 stop a2) :
    calls_of (new_events s (rfs_open E stack inode file s)) =
        calls_of (orig_events (E.entry (E.fop_old ri) .f_open) [a2.inode, a2.file] stop) ∧
    (prov.rv_int ≠ 0 →
      ∃ s1, rfs_open E stack inode file s =
          .ok (E.postcall_flts (E.rchain (s.rdentries rd).rinfo) c1 prov).2.rv_int s1 ∧
        postcalls_of (new_events s (rfs_open E stack inode file s)) = [prov] ∧
        dispatch_of (new_events s (rfs_open E stack inode file s)) =
          [.precall (E.rchain (s.rdentries rd).rinfo) rcont0
             { stack with id := id, inode := inode, file := file }] ++
          orig_events (E.entry (E.fop_old ri) .f_open) [a2.inode, a2.file] stop ++
          [.postcall (E.rchain (s.rdentries rd).rinfo) c1 prov] ∧
        (s1.files file).f_op = (open_f_op_left E (E.fop_old ri) (E.entry (E.fop_old ri) .f_open) a2.inode a2.file stop file) ∧ s1.rfiles = s.rfiles ∧
        s1.rfs_file_cache = s.rfs_file_cache ∧ s1.rdentries = s.rdentries ∧
        (∀ rd1 a1, (new_events s (rfs_open E stack inode file s)).count
          (.rfs_dentry_add_rfile rd1 a1) = 0)) ∧
    (prov.rv_int = 0 → ∀ a rest, s.rfs_file_cache = a :: rest →
      ∃ s1 t, rfs_open E stack inode file s =
          .ok (E.postcall_flts (E.rchain (s.rdentries rd).rinfo) c1 prov).2.rv_int s1 ∧
        postcalls_of (new_events s (rfs_open E stack inode file s)) = [prov] ∧
        dispatch_of (new_events s (rfs_open E stack inode file s)) =
          [.precall (E.rchain (s.rdentries rd).rinfo) rcont0
             { stack with id := id, inode := inode, file := file }] ++
          orig_events (E.entry (E.fop_old ri) .f_open) [a2.inode, a2.file] stop ++
          [.postcall (E.rchain (s.rdentries rd).rinfo) c1 prov] ∧
        (s1.files file).f_op = some (.op_new a) ∧
        s1.rfiles = Function.update s.rfiles a (some
          { file := file, rdentry := some rd, count := 2, op_old := (open_f_op_left E (E.fop_old ri) (E.entry (E.fop_old ri) .f_open) a2.inode a2.file stop file), op_new := t, data := [] }) ∧
        s1.rfs_file_cache = rest ∧
        (s1.rdentries rd).rfiles = (s.rdentries rd).rfiles ++ [a] ∧
        (new_events s (rfs_open E stack inode file s)).count (.rfs_dentry_add_rfile rd a) = 1) ∧
    (prov.rv_int = 0 → s.rfs_file_cache = [] →
      ∃ s1, rfs_open E stack inode file s = .fault .BUG s1 ∧
        postcalls_of (new_events s (rfs_open E stack inode file s)) = [] ∧
        dispatch_of (new_events s (rfs_open E stack inode file s)) =
          [.precall (E.rchain (s.rdentries rd).rinfo) rcont0
             { stack with id := id, inode := inode, file := file }] ++
          orig_events (E.entry (E.fop_old ri) .f_open) [a2.inode, a2.file] stop ∧
        (s1.files file).f_op = (open_f_op_left E (E.fop_old ri) (E.entry (E.fop_old ri) .f_open) a2.inode a2.file stop file) ∧ s1.rfiles = s.rfiles) := by
  subst hprov
  have hpost : E.postcall_flts (E.rchain (s.rdentries rd).rinfo) c1
      (prov_args E (E.entry (E.fop_old ri) .f_open) [a2.inode, a2.file] 0 stop a2) =
      ((E.postcall_flts (E.rchain (s.rdentries rd).rinfo) c1
          (prov_args E (E.entry (E.fop_old ri) .f_open) [a2.inode, a2.file] 0 stop a2)).1,
       (E.postcall_flts (E.rchain (s.rdentries rd).rinfo) c1
          (prov_args E (E.entry (E.fop_old ri) .f_open) [a2.inode, a2.file] 0 stop a2)).2) := rfl
  have hL : (open_files E (E.entry (E.fop_old ri) .f_open) a2.inode a2.file stop
      (Function.update s.files file { f_op := E.fop_old ri, f_dentry := (s.files file).f_dentry })
      file).f_op = (open_f_op_left E (E.fop_old ri) (E.entry (E.fop_old ri) .f_open) a2.inode a2.file stop file) := by
    rw [open_files_f_op]
    simp
  have hcount : ∀ (entry : Option Fn) (rd1 a1 : Nat),
      (orig_events entry [a2.inode, a2.file] stop).count (.rfs_dentry_add_rfile rd1 a1) = 0 := by
    intro entry rd1 a1
    unfold orig_events
    split
    · cases entry <;> simp
    · simp
  have hcalls : calls_of (new_events s (rfs_open E stack inode file s)) =
      calls_of (orig_events (E.entry (E.fop_old ri) .f_open) [a2.inode, a2.file] stop) := by
    by_cases hp : (prov_args E (E.entry (E.fop_old ri) .f_open) [a2.inode, a2.file] 0 stop a2).rv_int = 0
    · cases hc : s.rfs_file_cache with
      | nil =>
        rw [open_run_bug E s stack inode file ri rd id stop c1 a2 hri hrd hid hfo hpre hp hc]
        simp [new_events, Res.state, calls_of_append, calls_of]
      | cons a rest =>
        obtain ⟨t, ht⟩ := open_run_add E s stack inode file ri rd id stop c1 _ a2 _ a rest
          hri hrd hid hfo hpre hpost hp hc
        rw [ht]
        simp [new_events, Res.state, calls_of_append, calls_of]
    · rw [open_run_nofile E s stack inode file ri rd id stop c1 _ a2 _ hri hrd hid hfo hpre hpost hp]
      simp [new_events, Res.state, calls_of_append, calls_of]
  refine ⟨hcalls, ?_, ?_, ?_⟩
  · intro hp
    have hrun := open_run_nofile E s stack inode file ri rd id stop c1 _ a2 _ hri hrd hid hfo hpre hpost hp
    refine ⟨_, hrun, ?_, ?_, hL, rfl, rfl, rfl, ?_⟩
    · rw [hrun]
      simp [new_events, Res.state, postcalls_of_append, postcalls_of]
    · rw [hrun]
      simp [new_events, Res.state, dispatch_of_append, dispatch_of_cons, Event.is_dispatch]
    · intro rd1 a1
      rw [hrun]
      simp only [new_events, Res.state, List.drop_left]
      cases (s.files file).f_op <;> cases E.fop_old ri <;>
        simp [fops_get_ev, fops_put_ev, List.count_append, hcount]
  · intro hp a rest hc
    obtain ⟨t, hrun⟩ := open_run_add E s stack inode file ri rd id stop c1 _ a2 _ a rest
      hri hrd hid hfo hpre hpost hp hc
    refine ⟨_, t, hrun, ?_, ?_, by simp, rfl, rfl, by simp, ?_⟩
    · rw [hrun]
      simp [new_events, Res.state, postcalls_of_append, postcalls_of]
    · rw [hrun]
      simp [new_events, Res.state, dispatch_of_append, dispatch_of_cons, Event.is_dispatch]
    · rw [hrun]
      simp only [new_events, Res.state, List.drop_left]
      generalize (open_f_op_left E (E.fop_old ri) (E.entry (E.fop_old ri) .f_open) a2.inode a2.file stop file) = cap
      cases (s.files file).f_op <;> cases E.fop_old ri <;> cases cap <;>
        simp [fops_get_ev, fops_put_ev, List.count_append, hcount]
  · intro hp hc
    have hrun := open_run_bug E s stack inode file ri rd id stop c1 a2 hri hrd hid hfo hpre hp hc
    refine ⟨_, hrun, ?_, ?_, hL, rfl⟩
    · rw [hrun]
      simp [new_events, Res.state, postcalls_of_append, postcalls_of]
    · rw [hrun]
      simp [new_events, Res.state, dispatch_of_append, dispatch_of_cons, Event.is_dispatch]

/-- What every claim about `rfs_release` needs from a run. -/
theorem release_summary (E : Env) (s : State) (stack : redirfs_args) (inode file a rd : Nat) (rf : rfs_file)
    (stop : Int) (c1 : rfs_context) (a2 prov : redirfs_args)
    (hf : (s.files file).f_op = some (.op_new a))
    (h : s.rfiles a = some rf)
    (hrd : rf.rdentry = some rd)
    (hold : ∀ p, rf.op_old = some p → p.foreign = true)
    (hc2 : 2 ≤ rf.count) (hcmax : rf.count < 2147483647)
    (hpre : E.precall_flts (E.rchain (s.rdentries rd).rinfo) rcont0
      { stack with id := rfs_release_id (E.i_mode inode) stack, inode := inode, file := file } = (stop, c1, a2))
    (hprov : prov = prov_args E (E.entry rf.op_old .f_release) [a2.inode, a2.file] 0 stop a2) :
    ∃ s1, rfs_release E stack inode file s =
        .ok (E.postcall_flts (E.rchain (s.rdentries rd).rinfo) c1 prov).2.rv_int s1 ∧
      calls_of (new_events s (rfs_release E stack inode file s)) =
        calls_of (orig_events (E.entry rf.op_old .f_release) [a2.inode, a2.file] stop) ∧
      postcalls_of (new_events s (rfs_release E stack inode file s)) = [prov] ∧
      dispatch_of (new_events s (rfs_release E stack inode file s)) =
        [.precall (E.rchain (s.rdentries rd).rinfo) rcont0
           { stack with id := rfs_release_id (E.i_mode inode) stack, inode := inode, file := file }] ++
        orig_events (E.entry rf.op_old .f_release) [a2.inode, a2.file] stop ++
        [.postcall (E.rchain (s.rdentries rd).rinfo) c1 prov] ∧
      (s1.files rf.file).f_op = rf.op_old ∧
      s1.rfiles a = (if rf.count = 2 then none else some { rf with count := rf.count - 2 }) := by
  subst hprov
  have hrun := release_run E s stack inode file a rd rf stop c1 _ a2 _ hf h hrd hold hc2 hcmax hpre rfl
  refine ⟨_, hrun, ?_, ?_, ?_, by simp, by simp⟩
  · rw [hrun]
    by_cases h2 : rf.count = 2 <;>
      simp [new_events, Res.state, calls_of_append, calls_of, h2]
  · rw [hrun]
    by_cases h2 : rf.count = 2 <;>
      simp [new_events, Res.state, postcalls_of_append, postcalls_of, h2]
  · rw [hrun]
    by_cases h2 : rf.count = 2 <;>
      simp [new_events, Res.state, dispatch_of_append, dispatch_of_cons, Event.is_dispatch, h2]

/-- The loop of `rfs_readdir` appends no call and no post-call event and leaves
the open-handle shadows alone. -/
theorem sibs_quiet (E : Env) (rinfo : Nat) (sibs : List Nat) :
    ∀ (s : State) (r : Res Unit), rfs_readdir_sibs E rinfo sibs s = r →
    ∃ evs, r.state.trace = s.trace ++ evs ∧ calls_of evs = [] ∧ postcalls_of evs = [] ∧
      r.state.rfiles = s.rfiles ∧ r.state.files = s.files ∧
      r.state.rfs_file_cache = s.rfs_file_cache := by
  induction sibs with
  | nil =>
    intro s r hr
    subst hr
    exact ⟨[], by simp [rfs_readdir_sibs, Res.state], rfl, rfl, rfl, rfl, rfl⟩
  | cons sib sibs ih =>
    intro s r hr
    subst hr
    have step : ∀ (s1 : State) (e1 : List Event), s1.trace = s.trace ++ e1 → calls_of e1 = [] →
        postcalls_of e1 = [] → s1.rfiles = s.rfiles → s1.files = s.files →
        s1.rfs_file_cache = s.rfs_file_cache →
        ∃ evs, (rfs_readdir_sibs E rinfo sibs s1).state.trace = s.trace ++ evs ∧ calls_of evs = [] ∧
          postcalls_of evs = [] ∧ (rfs_readdir_sibs E rinfo sibs s1).state.rfiles = s.rfiles ∧
          (rfs_readdir_sibs E rinfo sibs s1).state.files = s.files ∧
          (rfs_readdir_sibs E rinfo sibs s1).state.rfs_file_cache = s.rfs_file_cache := by
      intro s1 e1 ht hc hp hr hf hk
      obtain ⟨evs, h1, h2, h3, h4, h5, h6⟩ := ih s1 _ rfl
      exact ⟨e1 ++ evs, by rw [h1, ht, List.append_assoc], by simp [calls_of_append, hc, h2],
        by simp [postcalls_of_append, hp, h3], by rw [h4, hr], by rw [h5, hf], by rw [h6, hk]⟩
    simp only [rfs_readdir_sibs, bind_run, rfs_dentry_find_run]
    cases hrd : s.rdentry_of sib with
    | some rd =>
      simp only [rfs_dentry_put, bind_run, log_run]
      exact step _ [.rfs_dentry_find sib, .rfs_dentry_put (some rd)] (by simp) rfl rfl rfl rfl rfl
    | none =>
      simp only []
      split
      · exact step _ [.rfs_dentry_find sib] (by simp) rfl rfl rfl rfl rfl
      · simp only [rfs_dcache_rdentry_add, bind_run, log_run, getState_run, setState_run, pure_run]
        by_cases h0 : (E.dcache_rdentry_add sib rinfo).1 = 0
        · simp only [h0, if_true, bind_run, getState_run, setState_run, pure_run, ne_eq, not_true,
            if_false]
          exact step _ [.rfs_dentry_find sib, .rfs_dcache_rdentry_add sib rinfo] (by simp) rfl rfl rfl rfl rfl
        · simp only [h0, if_false, pure_run, ne_eq, not_false_eq_true, if_true, bind_run, BUG_run]
          exact ⟨[.rfs_dentry_find sib, .rfs_dcache_rdentry_add sib rinfo], by simp [Res.state], rfl, rfl,
            rfl, rfl, rfl⟩

@[simp] theorem calls_of_orig_none (argv : List Nat) (stop : Int) :
    calls_of (orig_events none argv stop) = [] := by
  unfold orig_events
  split <;> rfl

/-- The second half of `rfs_readdir` appends no call and no post-call event. -/
theorem exit_quiet (E : Env) (a rinfo dentry : Nat) (rv : Int) (s : State) :
    ∃ evs, (rfs_readdir_exit E (.ptr a) rinfo dentry rv s).state.trace = s.trace ++ evs ∧
      calls_of evs = [] ∧ postcalls_of evs = [] := by
  have hfin : ∀ (s1 : State) (e1 : List Event), s1.trace = s.trace ++ e1 → calls_of e1 = [] →
      postcalls_of e1 = [] →
      ∃ evs, ((do
          log .rfs_dcache_entry_free_list
          rfs_file_put (.ptr a)
          rfs_info_put rinfo
          pure rv : M Int) s1).state.trace = s.trace ++ evs ∧ calls_of evs = [] ∧ postcalls_of evs = [] := by
    intro s1 e1 ht hc hp
    simp only [bind_run, log_run, put_nf, rfs_info_put, pure_run]
    cases hr : s1.rfiles a with
    | none =>
      exact ⟨e1 ++ [.rfs_dcache_entry_free_list], by simp [Res.state, ht],
        by simp [calls_of_append, hc, calls_of], by simp [postcalls_of_append, hp, postcalls_of]⟩
    | some rf =>
      simp only []
      by_cases h0 : rf.count = 0
      · simp only [h0, if_true]
        exact ⟨e1 ++ [.rfs_dcache_entry_free_list], by simp [Res.state, ht],
          by simp [calls_of_append, hc, calls_of], by simp [postcalls_of_append, hp, postcalls_of]⟩
      · by_cases h1 : wrap32 (rf.count - 1) = 0
        · simp only [h0, h1, if_true, if_false]
          refine ⟨e1 ++ ([.rfs_dcache_entry_free_list] ++ ([.rfs_dentry_put rf.rdentry] ++
            fops_put_ev rf.op_old ++ [.rfs_data_remove a, .kmem_cache_free a]) ++ [.rfs_info_put rinfo]),
            by simp [Res.state, ht], ?_, ?_⟩
          · cases rf.op_old <;> simp [calls_of_append, hc, calls_of, fops_put_ev]
          · cases rf.op_old <;> simp [postcalls_of_append, hp, postcalls_of, fops_put_ev]
        · simp only [h0, h1, if_false]
          exact ⟨e1 ++ [.rfs_dcache_entry_free_list, .rfs_info_put rinfo], by simp [Res.state, ht],
            by simp [calls_of_append, hc, calls_of], by simp [postcalls_of_append, hp, postcalls_of]⟩
  unfold rfs_readdir_exit
  by_cases hrv : rv = 0
  · simp only [hrv, if_true]
    simp only [hrv] at hfin
    simp only [bind_run, rfs_dcache_get_subs, log_run, pure_run]
    cases E.dcache_subs dentry with
    | none =>
      exact ⟨[.rfs_dcache_get_subs dentry], by simp [Res.state], rfl, rfl⟩
    | some sibs =>
      simp only [bind_run]
      generalize hl : rfs_readdir_sibs E rinfo sibs _ = r
      obtain ⟨evs, h1, h2, h3, -⟩ := sibs_quiet E rinfo sibs _ _ hl
      cases r with
      | fault f s1 =>
        exact ⟨[.rfs_dcache_get_subs dentry] ++ evs, by simpa [Res.state] using h1,
          by simp [calls_of_append, calls_of, h2], by simp [postcalls_of_append, postcalls_of, h3]⟩
      | ok u s1 =>
        have := hfin s1 ([.rfs_dcache_get_subs dentry] ++ evs) (by simpa [Res.state] using h1)
          (by simp [calls_of_append, calls_of, h2]) (by simp [postcalls_of_append, postcalls_of, h3])
        simpa only [bind_run, log_run] using this
  · simp only [hrv, if_false]
    have := hfin s [] (by simp) rfl rfl
    simpa only [bind_run, pure_run] using this

/-- The filter phases and the original call of `rfs_readdir` on a directory. -/
theorem readdir_summary (E : Env) (s : State) (stack : redirfs_args) (file dirent filldir a rd i : Nat)
    (rf : rfs_file) (stop : Int) (c1 : rfs_context) (a2 prov : redirfs_args)
    (hf : (s.files file).f_op = some (.op_new a))
    (h : s.rfiles a = some rf)
    (hrd : rf.rdentry = some rd)
    (hold : ∀ p, rf.op_old = some p → p.foreign = true)
    (hc1 : 1 ≤ rf.count) (hcmax : rf.count < 2147483647)
    (hdi : E.d_inode (s.files file).f_dentry = some i)
    (hdir : S_ISDIR (E.i_mode i) = true)
    (hpre : E.precall_flts (E.rchain (s.rdentries rd).rinfo) rcont0
      { stack with id := REDIRFS_DIR_FOP_READDIR, file := file, dirent := dirent, filldir := filldir } =
        (stop, c1, a2))
    (hprov : prov = prov_args E (E.entry rf.op_old .f_readdir) [a2.file, a2.dirent, a2.filldir]
      (-ENOTDIR) stop a2) :
    calls_of (new_events s (rfs_readdir E stack file dirent filldir s)) =
      calls_of (orig_events (E.entry rf.op_old .f_readdir) [a2.file, a2.dirent, a2.filldir] stop) ∧
    postcalls_of (new_events s (rfs_readdir E stack file dirent filldir s)) = [prov] := by
  subst hprov
  obtain ⟨rfile, rdentry, count, op_old, op_new, data⟩ := rf
  simp only at hrd hold hc1 hcmax ⊢
  subst hrd
  have hm := member_of_foreign E op_old .f_readdir hold
  have w1 : wrap32 (count + 1) = count + 1 := wrap32_id _ (by omega) (by omega)
  have n2 : count ≠ 0 := by omega
  have hrun : rfs_readdir E stack file dirent filldir s =
      rfs_readdir_exit E (.ptr a) (s.rdentries rd).rinfo (s.files file).f_dentry
        (E.postcall_flts (E.rchain (s.rdentries rd).rinfo) c1
          (prov_args E (E.entry op_old .f_readdir) [a2.file, a2.dirent, a2.filldir]
            (-ENOTDIR) stop a2)).2.rv_int
        { s with
          rfiles := Function.update s.rfiles a (some
            { file := rfile, rdentry := some rd, count := count + 1, op_old := op_old, op_new := op_new,
              data := data })
          trace := s.trace ++ ([.rfs_dentry_get_rinfo rd, .rfs_context_init 0,
            .precall (E.rchain (s.rdentries rd).rinfo) rcont0
              { stack with id := REDIRFS_DIR_FOP_READDIR, file := file, dirent := dirent,
                           filldir := filldir }] ++
            orig_events (E.entry op_old .f_readdir) [a2.file, a2.dirent, a2.filldir] stop ++
            [.postcall (E.rchain (s.rdentries rd).rinfo) c1
               (prov_args E (E.entry op_old .f_readdir) [a2.file, a2.dirent, a2.filldir]
                 (-ENOTDIR) stop a2),
             .rfs_context_deinit (E.postcall_flts (E.rchain (s.rdentries rd).rinfo) c1
               (prov_args E (E.entry op_old .f_readdir) [a2.file, a2.dirent, a2.filldir]
                 (-ENOTDIR) stop a2)).1]) } := by
    by_cases hs : stop = 0
    · cases he : E.entry op_old .f_readdir with
      | none =>
        simp [rfs_readdir, rfs_file_find, hf, get_nf, h, w1, n2, rfs_dentry_get_rinfo, rfs_context_init,
        hdi, hdir, rfs_precall_flts, ← rcont0.eq_1, hpre, hm, hs, he, call, rfs_postcall_flts,
        rfs_context_deinit, orig_events, prov_args]
      | some f =>
        simp [rfs_readdir, rfs_file_find, hf, get_nf, h, w1, n2, rfs_dentry_get_rinfo, rfs_context_init,
        hdi, hdir, rfs_precall_flts, ← rcont0.eq_1, hpre, hm, hs, he, call, rfs_postcall_flts,
        rfs_context_deinit, orig_events, prov_args]
    · simp [rfs_readdir, rfs_file_find, hf, get_nf, h, w1, n2, rfs_dentry_get_rinfo, rfs_context_init,
      hdi, hdir, rfs_precall_flts, ← rcont0.eq_1, hpre, hm, hs,  call, rfs_postcall_flts,
      rfs_context_deinit, orig_events, prov_args]
  obtain ⟨evs, h1, h2, h3⟩ := exit_quiet E a (s.rdentries rd).rinfo (s.files file).f_dentry
    (E.postcall_flts (E.rchain (s.rdentries rd).rinfo) c1
      (prov_args E (E.entry op_old .f_readdir) [a2.file, a2.dirent, a2.filldir]
        (-ENOTDIR) stop a2)).2.rv_int _
  rw [← hrun] at h1
  simp only [new_events, h1, ← List.append_assoc, List.drop_left]
  simp [calls_of_append, postcalls_of_append, h2, h3, calls_of, postcalls_of]

/-- Completion of `rfs_open` on a shadowed dentry, and what a completed run
shows. -/
theorem open_completes (E : Env) (s : State) (stack : redirfs_args) (inode file ri rd : Nat) (id : OpId)
    (stop : Int) (c1 : rfs_context) (a2 prov : redirfs_args)
    (hri : E.rinode_of inode = some ri)
    (hrd : s.rdentry_of (s.files file).f_dentry = some rd)
    (hid : rfs_open_id (E.i_mode inode) = some id)
    (hfo : ∀ p, E.fop_old ri = some p → p.foreign = true)
    (hpre : E.precall_flts (E.rchain (s.rdentries rd).rinfo) rcont0
      { stack with id := id, inode := inode, file := file } = (stop, c1, a2))
    (hprov : prov = prov_args E (E.entry (E.fop_old ri) .f_open) [a2.inode, a2.file] 0 stop a2) :
    ((rfs_open E stack inode file s).fault? = none ↔ (prov.rv_int ≠ 0 ∨ s.rfs_file_cache ≠ [])) ∧
    ((rfs_open E stack inode file s).fault? = none →
      (rfs_open E stack inode file s).value =
        some (E.postcall_flts (E.rchain (s.rdentries rd).rinfo) c1 prov).2.rv_int ∧
      postcalls_of (new_events s (rfs_open E stack inode file s)) = [prov] ∧
      dispatch_of (new_events s (rfs_open E stack inode file s)) =
        [.precall (E.rchain (s.rdentries rd).rinfo) rcont0
           { stack with id := id, inode := inode, file := file }] ++
        orig_events (E.entry (E.fop_old ri) .f_open) [a2.inode, a2.file] stop ++
        [.postcall (E.rchain (s.rdentries rd).rinfo) c1 prov]) := by
  obtain ⟨-, hne, hadd, hbug⟩ :=
    open_summary E s stack inode file ri rd id stop c1 a2 prov hri hrd hid hfo hpre hprov
  by_cases hp : prov.rv_int = 0
  · cases hc : s.rfs_file_cache with
    | nil =>
      obtain ⟨s1, hrun, -⟩ := hbug hp hc
      simp [hrun, Res.fault?, hp]
    | cons a rest =>
      obtain ⟨s1, t, hrun, h1, h2, -⟩ := hadd hp a rest hc
      refine ⟨by simp [hrun, Res.fault?], fun _ => ⟨by simp [hrun, Res.value], h1, h2⟩⟩
  · obtain ⟨s1, hrun, h1, h2, -⟩ := hne hp
    refine ⟨by simp [hrun, Res.fault?, hp], fun _ => ⟨by simp [hrun, Res.value], h1, h2⟩⟩

theorem orig_events_shape (entry : Option Fn) (argv : List Nat) (stop : Int) :
    (orig_events entry argv stop = [] ∨ ∃ f, orig_events entry argv stop = [.call f argv]) ∧
    (stop ≠ 0 → orig_events entry argv stop = []) := by
  unfold orig_events
  by_cases hs : stop = 0
  · cases entry with
    | none => simp [hs]
    | some f => simp [hs]
  · simp [hs]

theorem del_run (a rd : Nat) (rf : rfs_file) (s : State)
    (h : s.rfiles a = some rf) (hrd : rf.rdentry = some rd)
    (hc3 : 3 ≤ rf.count) (hcmax : rf.count < 2147483647) :
    rfs_file_del (.ptr a) s = .ok ()
      { s with
        files := Function.update s.files rf.file { f_op := rf.op_old, f_dentry := (s.files rf.file).f_dentry }
        rfiles := Function.update s.rfiles a (some { rf with count := rf.count - 2 })
        rdentries := Function.update s.rdentries rd
          { rinfo := (s.rdentries rd).rinfo, rinode := (s.rdentries rd).rinode,
            rfiles := (s.rdentries rd).rfiles.erase a }
        trace := s.trace ++ ([.rfs_dentry_rem_rfile rd a] ++ fops_get_ev rf.op_old) } := by
  obtain ⟨rfile, rdentry, count, op_old, op_new, data⟩ := rf
  simp only at hrd hc3 hcmax ⊢
  subst hrd
  have w3 : wrap32 (count - 1) = count - 1 := wrap32_id _ (by omega) (by omega)
  have w4 : wrap32 (count - 1 - 1) = count - 2 := by rw [wrap32_id _ (by omega) (by omega)]; omega
  have n2 : count ≠ 0 := by omega
  have n3 : count - 1 ≠ 0 := by omega
  have n4 : count - 2 ≠ 0 := by omega
  simp [rfs_file_del, rfs_dentry_rem_rfile, put_nf, h, w3, w4, n2, n3, n4, fops_get_run]

/-- The run of `rfs_open` on a shadowed dentry whose inode is of none of the six
kinds. -/
theorem open_run_badmode (E : Env) (s : State) (stack : redirfs_args) (inode file ri rd : Nat)
    (hri : E.rinode_of inode = some ri)
    (hrd : s.rdentry_of (s.files file).f_dentry = some rd)
    (hid : rfs_open_id (E.i_mode inode) = none) :
    rfs_open E stack inode file s = .fault .BUG
      { s with
        files := Function.update s.files file { f_op := E.fop_old ri, f_dentry := (s.files file).f_dentry }
        trace := s.trace ++ ([.rfs_inode_find inode] ++ fops_put_ev (s.files file).f_op ++
          fops_get_ev (E.fop_old ri) ++
          [.rfs_dentry_find (s.files file).f_dentry, .rfs_dentry_get_rinfo rd, .rfs_dentry_put (some rd),
           .rfs_context_init 0]) } := by
  simp [rfs_open, rfs_inode_find, hri, fops_get_run, fops_put_run, rfs_dentry_find_run, hrd,
    rfs_dentry_get_rinfo, rfs_dentry_put, rfs_context_init, hid]

/-- The run of `rfs_open` on a dentry without a directory-entry shadow. -/
theorem open_run_passthrough (E : Env) (s : State) (stack : redirfs_args) (inode file ri : Nat)
    (hri : E.rinode_of inode = some ri)
    (hrd : s.rdentry_of (s.files file).f_dentry = none)
    (hfo : ∀ p, E.fop_old ri = some p → p.foreign = true) :
    rfs_open E stack inode file s = .ok (unintercepted_open E (E.fop_old ri) inode file)
      { s with
        files := open_files E (E.entry (E.fop_old ri) .f_open) inode file 0
          (Function.update s.files file { f_op := E.fop_old ri, f_dentry := (s.files file).f_dentry })
        trace := s.trace ++ ([.rfs_inode_find inode] ++ fops_put_ev (s.files file).f_op ++
          fops_get_ev (E.fop_old ri) ++
          [.rfs_dentry_find (s.files file).f_dentry, .rfs_inode_put (some ri)] ++
          orig_events (E.entry (E.fop_old ri) .f_open) [inode, file] 0) } := by
  have hm := member_of_foreign E (E.fop_old ri) .f_open hfo
  cases he : E.entry (E.fop_old ri) .f_open with
  | none =>
    simp [rfs_open, rfs_inode_find, hri, fops_get_run, fops_put_run, rfs_dentry_find_run, hrd,
      rfs_inode_put, hm, he, orig_events, unintercepted_open, open_files, open_installs]
  | some f =>
    cases ho : E.open_f_op f inode file with
    | none =>
      simp [rfs_open, rfs_inode_find, hri, fops_get_run, fops_put_run, rfs_dentry_find_run, hrd,
        rfs_inode_put, hm, he, call_open, ho, orig_events, unintercepted_open, open_files,
        open_installs]
    | some n =>
      simp [rfs_open, rfs_inode_find, hri, fops_get_run, fops_put_run, rfs_dentry_find_run, hrd,
        rfs_inode_put, hm, he, call_open, ho, orig_events, unintercepted_open, open_files,
        open_installs]

/-- The kinds exclude one another, so the order of the tests in `rfs_open` and
`rfs_release` does not matter. -/
theorem kind_exclusive (m : Nat) :
    (S_ISREG m = true → rfs_open_id m = some REDIRFS_REG_FOP_OPEN ∧
      ∀ st, rfs_release_id m st = REDIRFS_REG_FOP_RELEASE) ∧
    (S_ISDIR m = true → rfs_open_id m = some REDIRFS_DIR_FOP_OPEN ∧
      ∀ st, rfs_release_id m st = REDIRFS_DIR_FOP_RELEASE) ∧
    (S_ISLNK m = true → rfs_open_id m = some REDIRFS_LNK_FOP_OPEN ∧
      ∀ st, rfs_release_id m st = REDIRFS_LNK_FOP_RELEASE) ∧
    (S_ISCHR m = true → rfs_open_id m = some REDIRFS_CHR_FOP_OPEN ∧
      ∀ st, rfs_release_id m st = REDIRFS_CHR_FOP_RELEASE) ∧
    (S_ISBLK m = true → rfs_open_id m = some REDIRFS_BLK_FOP_OPEN ∧
      ∀ st, rfs_release_id m st = REDIRFS_BLK_FOP_RELEASE) ∧
    (S_ISFIFO m = true → rfs_open_id m = some REDIRFS_FIFO_FOP_OPEN ∧
      ∀ st, rfs_release_id m st = REDIRFS_FIFO_FOP_RELEASE) ∧
    (S_ISREG m = false → S_ISDIR m = false → S_ISLNK m = false → S_ISCHR m = false →
      S_ISBLK m = false → S_ISFIFO m = false → rfs_open_id m = none) := by
  refine ⟨?_, ?_, ?_, ?_, ?_, ?_, ?_⟩
  · intro h
    simp [rfs_open_id, rfs_release_id, h]
  · intro h
    have hm : m &&& S_IFMT = S_IFDIR := by simpa [S_ISDIR] using h
    simp [rfs_open_id, rfs_release_id, S_ISREG, S_ISDIR, hm, S_IFREG, S_IFDIR]
  · intro h
    have hm : m &&& S_IFMT = S_IFLNK := by simpa [S_ISLNK] using h
    simp [rfs_open_id, rfs_release_id, S_ISREG, S_ISDIR, S_ISLNK, hm, S_IFREG, S_IFDIR, S_IFLNK]
  · intro h
    have hm : m &&& S_IFMT = S_IFCHR := by simpa [S_ISCHR] using h
    simp [rfs_open_id, rfs_release_id, S_ISREG, S_ISDIR, S_ISLNK, S_ISCHR, hm, S_IFREG, S_IFDIR,
      S_IFLNK, S_IFCHR]
  · intro h
    have hm : m &&& S_IFMT = S_IFBLK := by simpa [S_ISBLK] using h
    simp [rfs_open_id, rfs_release_id, S_ISREG, S_ISDIR, S_ISLNK, S_ISCHR, S_ISBLK, hm, S_IFREG,
      S_IFDIR, S_IFLNK, S_IFCHR, S_IFBLK]
  · intro h
    have hm : m &&& S_IFMT = S_IFIFO := by simpa [S_ISFIFO] using h
    simp [rfs_open_id, rfs_release_id, S_ISREG, S_ISDIR, S_ISLNK, S_ISCHR, S_ISBLK, S_ISFIFO, hm,
      S_IFREG, S_IFDIR, S_IFLNK, S_IFCHR, S_IFBLK, S_IFIFO]
  · intro h1 h2 h3 h4 h5 h6
    simp [rfs_open_id, h1, h2, h3, h4, h5, h6]


/-- The early return of `rfs_file_set_ops`: nothing is written. -/
theorem set_ops_norinode (E : Env) (a rd : Nat) (rf : rfs_file) (s : State)
    (h : s.rfiles a = some rf) (hrd : rf.rdentry = some rd)
    (hri : (s.rdentries rd).rinode = none) :
    rfs_file_set_ops E (.ptr a) s = .ok () s := by
  simp [rfs_file_set_ops, h, hrd, hri]

/-- Past the early return, `rfs_file_set_ops` ends with the write of the release
hook. -/
theorem set_ops_release (E : Env) (a rd ri : Nat) (rf : rfs_file) (s : State)
    (h : s.rfiles a = some rf) (hrd : rf.rdentry = some rd)
    (hold : ∀ p, rf.op_old = some p → p.foreign = true)
    (hri : (s.rdentries rd).rinode = some ri) :
    ∃ t, rfs_file_set_ops E (.ptr a) s = .ok ()
      { s with rfiles := Function.update s.rfiles a (some
          { rf with op_new := Function.update t .f_release (some .rfs_release) }) } := by
  obtain ⟨file, rdentry, count, op_old, op_new, data⟩ := rf
  simp only at hrd hold
  subst hrd
  have hfin : ∀ (rf1 : rfs_file) (s1 : State), s1.rfiles a = some rf1 →
      modify_rfile (.ptr a)
        (fun r => { r with op_new := Function.update r.op_new .f_release (some .rfs_release) }) s1 =
      .ok () { s1 with rfiles := Function.update s1.rfiles a (some
          { rf1 with op_new := Function.update rf1.op_new .f_release (some .rfs_release) }) } := by
    intro rf1 s1 h1
    simp [modify_nf, h1]
  have hrows : ∀ rows, ∃ t, (do
        RFS_SET_FOPs E (.ptr a) rows
        modify_rfile (.ptr a)
          (fun r => { r with op_new := Function.update r.op_new .f_release (some .rfs_release) }) : M Unit) s =
      .ok () { s with rfiles := Function.update s.rfiles a (some
          ⟨file, some rd, count, op_old, Function.update t .f_release (some .rfs_release), data⟩) } := by
    intro rows
    obtain ⟨t, ht⟩ := RFS_SET_FOPs_run E a rd rows _ s rfl hold h
    refine ⟨t, ?_⟩
    simp only [bind_run, ht]
    simp [modify_nf]
  have hplain : ∃ t, (do
        (pure () : M Unit)
        modify_rfile (.ptr a)
          (fun r => { r with op_new := Function.update r.op_new .f_release (some .rfs_release) }) : M Unit) s =
      .ok () { s with rfiles := Function.update s.rfiles a (some
          ⟨file, some rd, count, op_old, Function.update t .f_release (some .rfs_release), data⟩) } :=
    ⟨op_new, by simp only [bind_run, pure_run]; exact hfin _ s h⟩
  unfold rfs_file_set_ops
  simp only [bind_run, load_ptr, h, getState_run, hri]
  split
  · simp only [rfs_file_set_ops_reg]
    exact hrows _
  · split
    · by_cases hv : E.LINUX_VERSION_CODE < KERNEL_VERSION 3 11 0
      · refine ⟨Function.update op_new .f_readdir (some .rfs_readdir), ?_⟩
        simp only [rfs_file_set_ops_dir, hv, if_true, bind_run, modify_nf, h]
        simp
      · simp only [rfs_file_set_ops_dir, hv, if_false]
        exact hrows _
    · split
      · simp only [rfs_file_set_ops_lnk]
        exact hplain
      · split
        · simp only [rfs_file_set_ops_chr]
          exact hrows _
        · split
          · simp only [rfs_file_set_ops_blk]
            exact hplain
          · split
            · simp only [rfs_file_set_ops_fifo]
              exact hplain
            · exact hplain

/-- The run of `rfs_file_add` when the parent has no inode shadow: the table is
the one `rfs_file_alloc` built. -/
theorem add_run_norinode (E : Env) (file a rd : Nat) (rest : List Nat) (s : State)
    (hc : s.rfs_file_cache = a :: rest)
    (hf : ∀ p, (s.files file).f_op = some p → p.foreign = true)
    (hrd : s.rdentry_of (s.files file).f_dentry = some rd)
    (hri : (s.rdentries rd).rinode = none) :
    rfs_file_add E file s = .ok (.ptr a)
      { files := Function.update s.files file { f_op := some (.op_new a), f_dentry := (s.files file).f_dentry }
        rfiles := Function.update s.rfiles a (some
          { file := file, rdentry := some rd, count := 3, op_old := (s.files file).f_op,
            op_new := Function.update
              (match (s.files file).f_op with
               | some p => E.table p
               | none => fun _ => none) .f_open (some .rfs_open),
            data := [] })
        rfs_file_cache := rest
        rdentry_of := s.rdentry_of
        rdentries := Function.update s.rdentries rd
          { rinfo := (s.rdentries rd).rinfo, rinode := (s.rdentries rd).rinode, rfiles := (s.rdentries rd).rfiles ++ [a] }
        trace := s.trace ++ (fops_get_ev (s.files file).f_op ++
          [.rfs_dentry_find (s.files file).f_dentry, .rfs_dentry_add_rfile rd a] ++
          fops_put_ev (s.files file).f_op) } := by
  simp only [rfs_file_add, bind_run, alloc_run E file a rest s hc hf, IS_ERR, getState_run,
    rfs_dentry_find_run, hrd, modify_nf, get_nf, Function.update_same, store_run,
    rfs_dentry_add_rfile, log_run, setState_run, fops_put_run, set_f_op_run,
    Function.update_idem, Bool.false_eq_true, if_false, pure_run]
  simp [wrap32]
  rw [set_ops_norinode E a rd _ _ (by simp; rfl) rfl (by simp [hri])]

theorem registered_of_append (l1 l2 : List Event) :
    registered_of (l1 ++ l2) = registered_of l1 ++ registered_of l2 := by
  induction l1 with
  | nil => rfl
  | cons e l ih => cases e <;> simp [registered_of, ih]

/-- One turn of the loop of `rfs_readdir`. -/
theorem sibs_step (E : Env) (rinfo sib : Nat) (sibs : List Nat) (s : State) :
    (readdir_registers E s.rdentry_of rinfo sib = false →
      ∃ e1, rfs_readdir_sibs E rinfo (sib :: sibs) s =
          rfs_readdir_sibs E rinfo sibs { s with trace := s.trace ++ e1 } ∧
        registered_of e1 = [] ∧ dispatch_of e1 = []) ∧
    (readdir_registers E s.rdentry_of rinfo sib = true →
      (E.dcache_rdentry_add sib rinfo).1 = 0 →
      rfs_readdir_sibs E rinfo (sib :: sibs) s =
        rfs_readdir_sibs E rinfo sibs
          { s with
            rdentry_of := Function.update s.rdentry_of sib (some (E.dcache_rdentry_add sib rinfo).2)
            rdentries := Function.update s.rdentries (E.dcache_rdentry_add sib rinfo).2
              { rinfo := rinfo, rinode := (E.d_inode sib).bind E.rinode_of, rfiles := [] }
            trace := s.trace ++ [.rfs_dentry_find sib, .rfs_dcache_rdentry_add sib rinfo] }) ∧
    (readdir_registers E s.rdentry_of rinfo sib = true →
      (E.dcache_rdentry_add sib rinfo).1 ≠ 0 →
      rfs_readdir_sibs E rinfo (sib :: sibs) s =
        .fault .BUG
          { s with trace := s.trace ++ [.rfs_dentry_find sib, .rfs_dcache_rdentry_add sib rinfo] }) := by
  refine ⟨?_, ?_, ?_⟩
  · intro hreg
    cases hrd : s.rdentry_of sib with
    | some rd =>
      refine ⟨[.rfs_dentry_find sib, .rfs_dentry_put (some rd)], ?_, rfl, rfl⟩
      simp [rfs_readdir_sibs, rfs_dentry_find_run, hrd, rfs_dentry_put]
    | none =>
      refine ⟨[.rfs_dentry_find sib], ?_, rfl, rfl⟩
      cases hro : E.rops rinfo with
      | some arr => simp [readdir_registers, hrd, hro] at hreg
      | none =>
        cases hdi : E.d_inode sib with
        | none => simp [rfs_readdir_sibs, rfs_dentry_find_run, hrd, hro, hdi]
        | some i =>
          have hnd : S_ISDIR (E.i_mode i) = false := by
            simpa [readdir_registers, hrd, hro, hdi] using hreg
          simp [rfs_readdir_sibs, rfs_dentry_find_run, hrd, hro, hdi, hnd]
  · intro hreg hok
    have hrd : s.rdentry_of sib = none := by
      cases h : s.rdentry_of sib with
      | none => rfl
      | some rd => simp [readdir_registers, h] at hreg
    cases hro : E.rops rinfo with
    | some arr =>
      simp [rfs_readdir_sibs, rfs_dentry_find_run, hrd, hro, rfs_dcache_rdentry_add, hok]
    | none =>
      cases hdi : E.d_inode sib with
      | none => simp [readdir_registers, hrd, hro, hdi] at hreg
      | some i =>
        have hd : S_ISDIR (E.i_mode i) = true := by
          simpa [readdir_registers, hrd, hro, hdi] using hreg
        simp [rfs_readdir_sibs, rfs_dentry_find_run, hrd, hro, hdi, hd, rfs_dcache_rdentry_add, hok]
  · intro hreg hbad
    have hrd : s.rdentry_of sib = none := by
      cases h : s.rdentry_of sib with
      | none => rfl
      | some rd => simp [readdir_registers, h] at hreg
    cases hro : E.rops rinfo with
    | some arr =>
      simp [rfs_readdir_sibs, rfs_dentry_find_run, hrd, hro, rfs_dcache_rdentry_add, hbad]
    | none =>
      cases hdi : E.d_inode sib with
      | none => simp [readdir_registers, hrd, hro, hdi] at hreg
      | some i =>
        have hd : S_ISDIR (E.i_mode i) = true := by
          simpa [readdir_registers, hrd, hro, hdi] using hreg
        simp [rfs_readdir_sibs, rfs_dentry_find_run, hrd, hro, hdi, hd, rfs_dcache_rdentry_add, hbad]

/-- A registration changes the lookup of the registered child only. -/
theorem registers_update (E : Env) (f : Nat → Option Nat) (rinfo sib d : Nat) (v : Option Nat)
    (hne : d ≠ sib) :
    readdir_registers E (Function.update f sib v) rinfo d = readdir_registers E f rinfo d := by
  simp [readdir_registers, Function.update_noteq hne]

/-- The loop of `rfs_readdir` when every registration succeeds. -/
theorem sibs_run (E : Env) (rinfo : Nat) (sibs : List Nat) :
    ∀ s : State, sibs.Nodup →
    (∀ d ∈ sibs, readdir_registers E s.rdentry_of rinfo d = true →
      (E.dcache_rdentry_add d rinfo).1 = 0) →
    ∃ s1 evs, rfs_readdir_sibs E rinfo sibs s = .ok () s1 ∧ s1.trace = s.trace ++ evs ∧
      registered_of evs =
        (sibs.filter (readdir_registers E s.rdentry_of rinfo)).map (fun d => (d, rinfo)) ∧
      dispatch_of evs = [] ∧ s1.rfiles = s.rfiles ∧ s1.files = s.files ∧
      s1.rfs_file_cache = s.rfs_file_cache := by
  induction sibs with
  | nil =>
    intro s _ _
    exact ⟨s, [], by simp [rfs_readdir_sibs], by simp, rfl, rfl, rfl, rfl, rfl⟩
  | cons sib sibs ih =>
    intro s hnd hok
    have hnotin : sib ∉ sibs := (List.nodup_cons.1 hnd).1
    have hnd1 : sibs.Nodup := (List.nodup_cons.1 hnd).2
    obtain ⟨hskip, hadd, -⟩ := sibs_step E rinfo sib sibs s
    cases hreg : readdir_registers E s.rdentry_of rinfo sib with
    | false =>
      obtain ⟨e1, hrun, hr1, hd1⟩ := hskip hreg
      obtain ⟨s1, evs, h1, h2, h3, h4, h5, h6, h7⟩ := ih { s with trace := s.trace ++ e1 } hnd1
        (fun d hd => hok d (List.mem_cons_of_mem _ hd))
      refine ⟨s1, e1 ++ evs, by rw [hrun, h1], by rw [h2]; simp, ?_, ?_, h5, h6, h7⟩
      · rw [registered_of_append, hr1, h3]
        simp [List.filter_cons, hreg]
      · rw [dispatch_of_append, hd1, h4]
        rfl
    | true =>
      have hok1 := hok sib (List.mem_cons_self _ _) hreg
      have hrun := hadd hreg hok1
      have hsame : ∀ d ∈ sibs,
          readdir_registers E
            (Function.update s.rdentry_of sib (some (E.dcache_rdentry_add sib rinfo).2)) rinfo d =
          readdir_registers E s.rdentry_of rinfo d := by
        intro d hd
        exact registers_update E _ rinfo sib d _ (fun h => hnotin (h ▸ hd))
      obtain ⟨s1, evs, h1, h2, h3, h4, h5, h6, h7⟩ := ih
        { s with
          rdentry_of := Function.update s.rdentry_of sib (some (E.dcache_rdentry_add sib rinfo).2)
          rdentries := Function.update s.rdentries (E.dcache_rdentry_add sib rinfo).2
            { rinfo := rinfo, rinode := (E.d_inode sib).bind E.rinode_of, rfiles := [] }
          trace := s.trace ++ [.rfs_dentry_find sib, .rfs_dcache_rdentry_add sib rinfo] } hnd1
        (fun d hd hr => hok d (List.mem_cons_of_mem _ hd) (by rw [← hsame d hd]; exact hr))
      refine ⟨s1, [.rfs_dentry_find sib, .rfs_dcache_rdentry_add sib rinfo] ++ evs,
        by rw [hrun, h1], by rw [h2]; simp, ?_, ?_, h5, h6, h7⟩
      · rw [registered_of_append, h3]
        simp only [List.filter_cons, hreg, if_true, List.map_cons]
        rw [List.filter_congr hsame]
        rfl
      · rw [dispatch_of_append, h4]
        rfl

/-- The loop of `rfs_readdir` up to the first registration that fails. -/
theorem sibs_run_fail (E : Env) (rinfo d : Nat) (post : List Nat) (pre : List Nat) :
    ∀ s : State, (pre ++ d :: post).Nodup →
    (∀ x ∈ pre, readdir_registers E s.rdentry_of rinfo x = true →
      (E.dcache_rdentry_add x rinfo).1 = 0) →
    readdir_registers E s.rdentry_of rinfo d = true →
    (E.dcache_rdentry_add d rinfo).1 ≠ 0 →
    ∃ s1 evs, rfs_readdir_sibs E rinfo (pre ++ d :: post) s = .fault .BUG s1 ∧
      s1.trace = s.trace ++ evs ∧
      registered_of evs =
        (pre.filter (readdir_registers E s.rdentry_of rinfo) ++ [d]).map (fun x => (x, rinfo)) ∧
      dispatch_of evs = [] := by
  induction pre with
  | nil =>
    intro s _ _ hreg hbad
    exact ⟨_, _, (sibs_step E rinfo d post s).2.2 hreg hbad, rfl, rfl, rfl⟩
  | cons sib pre ih =>
    intro s hnd hok hregd hbad
    have hnd0 : (sib :: (pre ++ d :: post)).Nodup := by simpa using hnd
    have hnotin : sib ∉ pre ++ d :: post := (List.nodup_cons.1 hnd0).1
    have hnd1 : (pre ++ d :: post).Nodup := (List.nodup_cons.1 hnd0).2
    obtain ⟨hskip, hadd, -⟩ := sibs_step E rinfo sib (pre ++ d :: post) s
    cases hreg : readdir_registers E s.rdentry_of rinfo sib with
    | false =>
      obtain ⟨e1, hrun, hr1, hd1⟩ := hskip hreg
      obtain ⟨s1, evs, h1, h2, h3, h4⟩ := ih { s with trace := s.trace ++ e1 } hnd1
        (fun x hx => hok x (List.mem_cons_of_mem _ hx)) hregd hbad
      refine ⟨s1, e1 ++ evs, by rw [List.cons_append, hrun, h1], by rw [h2]; simp, ?_, ?_⟩
      · rw [registered_of_append, hr1, h3]
        simp [List.filter_cons, hreg]
      · rw [dispatch_of_append, hd1, h4]
        rfl
    | true =>
      have hok1 := hok sib (List.mem_cons_self _ _) hreg
      have hrun := hadd hreg hok1
      have hsame : ∀ x ∈ pre ++ d :: post,
          readdir_registers E
            (Function.update s.rdentry_of sib (some (E.dcache_rdentry_add sib rinfo).2)) rinfo x =
          readdir_registers E s.rdentry_of rinfo x := by
        intro x hx
        exact registers_update E _ rinfo sib x _ (fun h => hnotin (h ▸ hx))
      have hsame1 : ∀ x ∈ pre,
          readdir_registers E
            (Function.update s.rdentry_of sib (some (E.dcache_rdentry_add sib rinfo).2)) rinfo x =
          readdir_registers E s.rdentry_of rinfo x :=
        fun x hx => hsame x (List.mem_append_left _ hx)
      obtain ⟨s1, evs, h1, h2, h3, h4⟩ := ih
        { s with
          rdentry_of := Function.update s.rdentry_of sib (some (E.dcache_rdentry_add sib rinfo).2)
          rdentries := Function.update s.rdentries (E.dcache_rdentry_add sib rinfo).2
            { rinfo := rinfo, rinode := (E.d_inode sib).bind E.rinode_of, rfiles := [] }
          trace := s.trace ++ [.rfs_dentry_find sib, .rfs_dcache_rdentry_add sib rinfo] } hnd1
        (fun x hx hr => hok x (List.mem_cons_of_mem _ hx) (by rw [← hsame1 x hx]; exact hr))
        (by rw [hsame d (by simp)]; exact hregd) hbad
      refine ⟨s1, [.rfs_dentry_find sib, .rfs_dcache_rdentry_add sib rinfo] ++ evs,
        by rw [List.cons_append, hrun, h1], by rw [h2]; simp, ?_, ?_⟩
      · rw [registered_of_append, h3]
        simp only [List.filter_cons, hreg, if_true, List.map_cons, List.cons_append]
        rw [List.filter_congr hsame1]
        rfl
      · rw [dispatch_of_append, h4]
        rfl

/-- The second half of `rfs_readdir`. -/
theorem exit_run (E : Env) (a rinfo dentry : Nat) (rv : Int) (s : State) (rf : rfs_file)
    (h : s.rfiles a = some rf) (hc2 : 2 ≤ rf.count) (hmax : rf.count < 2147483648) :
    (rv ≠ 0 →
      rfs_readdir_exit E (.ptr a) rinfo dentry rv s = .ok rv
        { s with
          rfiles := Function.update s.rfiles a (some { rf with count := rf.count - 1 })
          trace := s.trace ++ [.rfs_dcache_entry_free_list, .rfs_info_put rinfo] }) ∧
    (rv = 0 → E.dcache_subs dentry = none →
      rfs_readdir_exit E (.ptr a) rinfo dentry rv s =
        .fault .BUG { s with trace := s.trace ++ [.rfs_dcache_get_subs dentry] }) ∧
    (rv = 0 → ∀ sibs, E.dcache_subs dentry = some sibs → sibs.Nodup →
      (∀ d ∈ sibs, readdir_registers E s.rdentry_of rinfo d = true →
        (E.dcache_rdentry_add d rinfo).1 = 0) →
      ∃ s1 evs, rfs_readdir_exit E (.ptr a) rinfo dentry rv s = .ok 0 s1 ∧
        s1.trace = s.trace ++ evs ∧
        registered_of evs =
          (sibs.filter (readdir_registers E s.rdentry_of rinfo)).map (fun d => (d, rinfo)) ∧
        dispatch_of evs = []) ∧
    (rv = 0 → ∀ pre d post, E.dcache_subs dentry = some (pre ++ d :: post) →
      (pre ++ d :: post).Nodup →
      (∀ x ∈ pre, readdir_registers E s.rdentry_of rinfo x = true →
        (E.dcache_rdentry_add x rinfo).1 = 0) →
      readdir_registers E s.rdentry_of rinfo d = true →
      (E.dcache_rdentry_add d rinfo).1 ≠ 0 →
      ∃ s1 evs, rfs_readdir_exit E (.ptr a) rinfo dentry rv s = .fault .BUG s1 ∧
        s1.trace = s.trace ++ evs ∧
        registered_of evs =
          (pre.filter (readdir_registers E s.rdentry_of rinfo) ++ [d]).map (fun x => (x, rinfo)) ∧
        dispatch_of evs = []) := by
  have w3 : wrap32 (rf.count - 1) = rf.count - 1 := wrap32_id _ (by omega) (by omega)
  have n2 : rf.count ≠ 0 := by omega
  have n3 : rf.count - 1 ≠ 0 := by omega
  refine ⟨?_, ?_, ?_, ?_⟩
  · intro hrv
    simp [rfs_readdir_exit, hrv, put_nf, h, w3, n2, n3, rfs_info_put]
  · intro hrv hsubs
    simp [rfs_readdir_exit, hrv, rfs_dcache_get_subs, hsubs]
  · intro hrv sibs hsubs hnd hok
    obtain ⟨s1, evs, h1, h2, h3, h4, h5, -, -⟩ :=
      sibs_run E rinfo sibs { s with trace := s.trace ++ [.rfs_dcache_get_subs dentry] } hnd hok
    have hs1 : s1.rfiles a = some rf := by rw [h5]; exact h
    refine ⟨{ s1 with
        rfiles := Function.update s1.rfiles a (some { rf with count := rf.count - 1 })
        trace := s1.trace ++ [.rfs_dcache_entry_free_list, .rfs_info_put rinfo] },
      [.rfs_dcache_get_subs dentry] ++ evs ++ [.rfs_dcache_entry_free_list, .rfs_info_put rinfo],
      ?_, ?_, ?_, ?_⟩
    · simp only [rfs_readdir_exit, hrv, if_true, bind_run, rfs_dcache_get_subs, log_run, pure_run,
        hsubs, h1]
      simp [put_nf, hs1, n2, n3, w3, rfs_info_put]
    · simp [h2]
    · simp [registered_of_append, registered_of, h3]
    · simp [dispatch_of_append, dispatch_of_cons, Event.is_dispatch, h4]
  · intro hrv pre d post hsubs hnd hok hreg hbad
    obtain ⟨s1, evs, h1, h2, h3, h4⟩ :=
      sibs_run_fail E rinfo d post pre { s with trace := s.trace ++ [.rfs_dcache_get_subs dentry] }
        hnd hok hreg hbad
    refine ⟨s1, [.rfs_dcache_get_subs dentry] ++ evs, ?_, ?_, ?_, ?_⟩
    · simp only [rfs_readdir_exit, hrv, if_true, bind_run, rfs_dcache_get_subs, log_run, pure_run,
        hsubs, h1]
    · simp [h2]
    · simp [registered_of_append, registered_of, h3]
    · simp [dispatch_of_append, dispatch_of_cons, Event.is_dispatch, h4]

/-- The first half of `rfs_readdir` on a directory. -/
theorem readdir_run_dir (E : Env) (s : State) (stack : redirfs_args) (file dirent filldir a rd i : Nat)
    (rf : rfs_file) (stop : Int) (c1 : rfs_context) (a2 : redirfs_args)
    (hf : (s.files file).f_op = some (.op_new a))
    (h : s.rfiles a = some rf)
    (hrd : rf.rdentry = some rd)
    (hold : ∀ p, rf.op_old = some p → p.foreign = true)
    (hc1 : 1 ≤ rf.count) (hcmax : rf.count < 2147483647)
    (hdi : E.d_inode (s.files file).f_dentry = some i)
    (hdir : S_ISDIR (E.i_mode i) = true)
    (hpre : E.precall_flts (E.rchain (s.rdentries rd).rinfo) rcont0
      { stack with id := REDIRFS_DIR_FOP_READDIR, file := file, dirent := dirent, filldir := filldir } =
        (stop, c1, a2)) :
    rfs_readdir E stack file dirent filldir s =
      rfs_readdir_exit E (.ptr a) (s.rdentries rd).rinfo (s.files file).f_dentry
        (E.postcall_flts (E.rchain (s.rdentries rd).rinfo) c1
          (prov_args E (E.entry rf.op_old .f_readdir) [a2.file, a2.dirent, a2.filldir]
            (-ENOTDIR) stop a2)).2.rv_int
        { s with
          rfiles := Function.update s.rfiles a (some { rf with count := rf.count + 1 })
          trace := s.trace ++ ([.rfs_dentry_get_rinfo rd, .rfs_context_init 0,
            .precall (E.rchain (s.rdentries rd).rinfo) rcont0
              { stack with id := REDIRFS_DIR_FOP_READDIR, file := file, dirent := dirent,
                           filldir := filldir }] ++
            orig_events (E.entry rf.op_old .f_readdir) [a2.file, a2.dirent, a2.filldir] stop ++
            [.postcall (E.rchain (s.rdentries rd).rinfo) c1
               (prov_args E (E.entry rf.op_old .f_readdir) [a2.file, a2.dirent, a2.filldir]
                 (-ENOTDIR) stop a2),
             .rfs_context_deinit (E.postcall_flts (E.rchain (s.rdentries rd).rinfo) c1
               (prov_args E (E.entry rf.op_old .f_readdir) [a2.file, a2.dirent, a2.filldir]
                 (-ENOTDIR) stop a2)).1]) } := by
  obtain ⟨rfile, rdentry, count, op_old, op_new, data⟩ := rf
  simp only at hrd hold hc1 hcmax ⊢
  subst hrd
  have hm := member_of_foreign E op_old .f_readdir hold
  have w1 : wrap32 (count + 1) = count + 1 := wrap32_id _ (by omega) (by omega)
  have n2 : count ≠ 0 := by omega
  by_cases hs : stop = 0
  · cases he : E.entry op_old .f_readdir with
    | none =>
      simp [rfs_readdir, rfs_file_find, hf, get_nf, h, w1, n2, rfs_dentry_get_rinfo, rfs_context_init,
        hdi, hdir, rfs_precall_flts, ← rcont0.eq_1, hpre, hm, hs, he, call, rfs_postcall_flts,
        rfs_context_deinit, orig_events, prov_args]
    | some f =>
      simp [rfs_readdir, rfs_file_find, hf, get_nf, h, w1, n2, rfs_dentry_get_rinfo, rfs_context_init,
        hdi, hdir, rfs_precall_flts, ← rcont0.eq_1, hpre, hm, hs, he, call, rfs_postcall_flts,
        rfs_context_deinit, orig_events, prov_args]
  · simp [rfs_readdir, rfs_file_find, hf, get_nf, h, w1, n2, rfs_dentry_get_rinfo, rfs_context_init,
      hdi, hdir, rfs_precall_flts, ← rcont0.eq_1, hpre, hm, hs, call, rfs_postcall_flts,
      rfs_context_deinit, orig_events, prov_args]

/-- The first half of `rfs_readdir` on a file that is not a directory. -/
theorem readdir_run_notdir (E : Env) (s : State) (stack : redirfs_args) (file dirent filldir a rd i : Nat)
    (rf : rfs_file)
    (hf : (s.files file).f_op = some (.op_new a))
    (h : s.rfiles a = some rf)
    (hrd : rf.rdentry = some rd)
    (hc1 : 1 ≤ rf.count) (hcmax : rf.count < 2147483647)
    (hdi : E.d_inode (s.files file).f_dentry = some i)
    (hdir : S_ISDIR (E.i_mode i) = false) :
    rfs_readdir E stack file dirent filldir s =
      rfs_readdir_exit E (.ptr a) (s.rdentries rd).rinfo (s.files file).f_dentry (-ENOTDIR)
        { s with
          rfiles := Function.update s.rfiles a (some { rf with count := rf.count + 1 })
          trace := s.trace ++ [.rfs_dentry_get_rinfo rd, .rfs_context_init 0] } := by
  obtain ⟨rfile, rdentry, count, op_old, op_new, data⟩ := rf
  simp only at hrd hc1 hcmax ⊢
  subst hrd
  have w1 : wrap32 (count + 1) = count + 1 := wrap32_id _ (by omega) (by omega)
  have n2 : count ≠ 0 := by omega
  simp [rfs_readdir, rfs_file_find, hf, get_nf, h, w1, n2, rfs_dentry_get_rinfo, rfs_context_init,
    hdi, hdir]

@[simp] theorem registered_of_orig_events (entry : Option Fn) (argv : List Nat) (stop : Int) :
    registered_of (orig_events entry argv stop) = [] := by
  unfold orig_events
  split
  · cases entry <;> rfl
  · rfl

/-- The run of `rfs_readdir` on a directory when the final result is 0 and a
registration fails: it stops at `BUG()` right after the failed call. -/
theorem readdir_run_fail (E : Env) (s : State) (stack : redirfs_args) (file dirent filldir a rd i : Nat)
    (rf : rfs_file) (stop : Int) (c1 : rfs_context) (a2 : redirfs_args)
    (pre : List Nat) (d : Nat) (post : List Nat)
    (hf : (s.files file).f_op = some (.op_new a))
    (h : s.rfiles a = some rf)
    (hrd : rf.rdentry = some rd)
    (hold : ∀ p, rf.op_old = some p → p.foreign = true)
    (hc1 : 1 ≤ rf.count) (hcmax : rf.count < 2147483647)
    (hdi : E.d_inode (s.files file).f_dentry = some i)
    (hdir : S_ISDIR (E.i_mode i) = true)
    (hpre : E.precall_flts (E.rchain (s.rdentries rd).rinfo) rcont0
      { stack with id := REDIRFS_DIR_FOP_READDIR, file := file, dirent := dirent, filldir := filldir } =
        (stop, c1, a2))
    (hfin : (E.postcall_flts (E.rchain (s.rdentries rd).rinfo) c1
        (prov_args E (E.entry rf.op_old .f_readdir) [a2.file, a2.dirent, a2.filldir]
          (-ENOTDIR) stop a2)).2.rv_int = 0)
    (hsubs : E.dcache_subs (s.files file).f_dentry = some (pre ++ d :: post))
    (hnd : (pre ++ d :: post).Nodup)
    (hok : ∀ x ∈ pre, readdir_registers E s.rdentry_of (s.rdentries rd).rinfo x = true →
      (E.dcache_rdentry_add x (s.rdentries rd).rinfo).1 = 0)
    (hreg : readdir_registers E s.rdentry_of (s.rdentries rd).rinfo d = true)
    (hbad : (E.dcache_rdentry_add d (s.rdentries rd).rinfo).1 ≠ 0) :
    (rfs_readdir E stack file dirent filldir s).fault? = some .BUG ∧
    registered_of (new_events s (rfs_readdir E stack file dirent filldir s)) =
      (pre.filter (readdir_registers E s.rdentry_of (s.rdentries rd).rinfo) ++ [d]).map
        (fun x => (x, (s.rdentries rd).rinfo)) := by
  have hc2 : 2 ≤ ({ rf with count := rf.count + 1 } : rfs_file).count := by simp; omega
  have hm2 : ({ rf with count := rf.count + 1 } : rfs_file).count < 2147483648 := by simp; omega
  have hex := fun (e0 : List Event) (rv : Int) =>
    exit_run E a (s.rdentries rd).rinfo (s.files file).f_dentry rv
      { s with
        rfiles := Function.update s.rfiles a (some { rf with count := rf.count + 1 })
        trace := s.trace ++ e0 }
      { rf with count := rf.count + 1 } (by simp) hc2 hm2
  have hrun := readdir_run_dir E s stack file dirent filldir a rd i rf stop c1 a2 hf h hrd hold
    hc1 hcmax hdi hdir hpre
  rw [hfin] at hrun
  obtain ⟨s1, evs, h1, h2, h3, -⟩ := (hex _ 0).2.2.2 rfl pre d post hsubs hnd hok hreg hbad
  rw [hrun, h1]
  refine ⟨rfl, ?_⟩
  simp only [new_events, Res.state, h2, List.append_assoc, List.drop_left]
  simp [registered_of_append, registered_of, h3]

/-! ## The claims -/

/-- C1 (amended): on a shadowed object, when the pre-call phase reports a
short-circuit, neither `rfs_open` nor `rfs_release` invokes an original
operation, and the record handed on to the post-call phase is the one the
filters left, result slot included. When it reports none and the original table
has the entry, that entry is invoked exactly once, with the inode and file the
argument record holds after the pre-call phase, and its return value becomes
the result slot of the record handed on. -/
theorem rfs_dispatch_original_call (E : Env) (stack : redirfs_args) (inode file : Nat) (s : State)
    (stop : Int) (c1 : rfs_context) (a2 : redirfs_args) :
    (∀ ri rd id, E.rinode_of inode = some ri →
      s.rdentry_of (s.files file).f_dentry = some rd →
      rfs_open_id (E.i_mode inode) = some id →
      (∀ p, E.fop_old ri = some p → p.foreign = true) →
      E.precall_flts (E.rchain (s.rdentries rd).rinfo) rcont0
        { stack with id := id, inode := inode, file := file } = (stop, c1, a2) →
      (stop ≠ 0 →
        calls_of (new_events s (rfs_open E stack inode file s)) = [] ∧
        (a2.rv_int ≠ 0 ∨ s.rfs_file_cache ≠ [] →
          postcalls_of (new_events s (rfs_open E stack inode file s)) = [a2])) ∧
      (∀ f, stop = 0 → E.entry (E.fop_old ri) .f_open = some f →
        calls_of (new_events s (rfs_open E stack inode file s)) = [(f, [a2.inode, a2.file])] ∧
        (E.invoke f [a2.inode, a2.file] ≠ 0 ∨ s.rfs_file_cache ≠ [] →
          postcalls_of (new_events s (rfs_open E stack inode file s)) =
            [{ a2 with rv_int := E.invoke f [a2.inode, a2.file] }]))) ∧
    (∀ a rd rf, (s.files file).f_op = some (.op_new a) →
      s.rfiles a = some rf → rf.rdentry = some rd →
      (∀ p, rf.op_old = some p → p.foreign = true) →
      2 ≤ rf.count → rf.count < 2147483647 →
      E.precall_flts (E.rchain (s.rdentries rd).rinfo) rcont0
        { stack with id := rfs_release_id (E.i_mode inode) stack, inode := inode, file := file } =
          (stop, c1, a2) →
      (stop ≠ 0 →
        calls_of (new_events s (rfs_release E stack inode file s)) = [] ∧
        postcalls_of (new_events s (rfs_release E stack inode file s)) = [a2]) ∧
      (∀ f, stop = 0 → E.entry rf.op_old .f_release = some f →
        calls_of (new_events s (rfs_release E stack inode file s)) = [(f, [a2.inode, a2.file])] ∧
        postcalls_of (new_events s (rfs_release E stack inode file s)) =
          [{ a2 with rv_int := E.invoke f [a2.inode, a2.file] }])) := by
  constructor
  · intro ri rd id hri hrd hid hfo hpre
    obtain ⟨hcalls, hne, hadd, -⟩ :=
      open_summary E s stack inode file ri rd id stop c1 a2 _ hri hrd hid hfo hpre rfl
    have hfin : ∀ prov : redirfs_args,
        prov = prov_args E (E.entry (E.fop_old ri) .f_open) [a2.inode, a2.file] 0 stop a2 →
        (prov.rv_int ≠ 0 ∨ s.rfs_file_cache ≠ []) →
        postcalls_of (new_events s (rfs_open E stack inode file s)) = [prov] := by
      intro prov hprov hor
      subst hprov
      by_cases hp : (prov_args E (E.entry (E.fop_old ri) .f_open) [a2.inode, a2.file] 0 stop a2).rv_int = 0
      · cases hc : s.rfs_file_cache with
        | nil => simp [hp, hc] at hor
        | cons a rest =>
          obtain ⟨s1, t, -, hpc, -⟩ := hadd hp a rest hc
          exact hpc
      · obtain ⟨s1, -, hpc, -⟩ := hne hp
        exact hpc
    constructor
    · intro hs
      refine ⟨by simp [hcalls, orig_events, hs, calls_of], fun hor => ?_⟩
      exact hfin a2 (by simp [prov_args, hs]) hor
    · intro f hs he
      refine ⟨by simp [hcalls, orig_events, hs, he, calls_of], fun hor => ?_⟩
      exact hfin _ (by simp [prov_args, hs, he]) hor
  · intro a rd rf hf h hrd hold hc2 hcmax hpre
    obtain ⟨s1, -, hcalls, hpc, -⟩ :=
      release_summary E s stack inode file a rd rf stop c1 a2 _ hf h hrd hold hc2 hcmax hpre rfl
    constructor
    · intro hs
      exact ⟨by simp [hcalls, orig_events, hs, calls_of], by simp [hpc, prov_args, hs]⟩
    · intro f hs he
      exact ⟨by simp [hcalls, orig_events, hs, he, calls_of], by simp [hpc, prov_args, hs, he]⟩

/-- Witness for C1 (amended): opening file 2 of the scenario and releasing the
open directory file 12. -/
theorem rfs_dispatch_original_call_witness :
    calls_of (new_events exState (rfs_open exEnv exStack 1 2 exState)) = [(.impl 100, [1, 2])] ∧
    calls_of (new_events exState (rfs_release exEnv exStack 8 12 exState)) = [(.impl 111, [8, 12])] ∧
    postcalls_of (new_events exState (rfs_release exEnv exStack 8 12 exState)) =
      [{ exStack with id := REDIRFS_DIR_FOP_RELEASE, inode := 8, file := 12, rv_int := 0 }] :=
  ⟨(((rfs_dispatch_original_call exEnv exStack 1 2 exState 0 rcont0
        { exStack with id := REDIRFS_REG_FOP_OPEN, inode := 1, file := 2 }).1
      4 5 REDIRFS_REG_FOP_OPEN rfl rfl rfl
      (fun p hp => by
        have h1 : TablePtr.ext 10 = p := Option.some.inj hp
        subst h1
        rfl) rfl).2 (.impl 100) rfl rfl).1,
   (((rfs_dispatch_original_call exEnv exStack 8 12 exState 0 rcont0
        { exStack with id := REDIRFS_DIR_FOP_RELEASE, inode := 8, file := 12 }).2
      30 15 exRfile30 rfl rfl rfl
      (fun p hp => by
        have h1 : TablePtr.ext 11 = p := Option.some.inj hp
        subst h1
        rfl) (by decide) (by decide) rfl).2 (.impl 111) rfl rfl).1,
   (((rfs_dispatch_original_call exEnv exStack 8 12 exState 0 rcont0
        { exStack with id := REDIRFS_DIR_FOP_RELEASE, inode := 8, file := 12 }).2
      30 15 exRfile30 rfl rfl rfl
      (fun p hp => by
        have h1 : TablePtr.ext 11 = p := Option.some.inj hp
        subst h1
        rfl) (by decide) (by decide) rfl).2 (.impl 111) rfl rfl).2⟩

/-- Counterexample to C1 as stated: the pre-call phase reports no
short-circuit and the original table has `open`, yet the original `open` is
invoked with file 99, which a pre-call filter wrote into the argument record,
not with the call's file 2. -/
theorem rfs_open_original_args_counterexample :
    (exEnvRewrite.precall_flts (exEnvRewrite.rchain 6) rcont0
      { exStack with id := REDIRFS_REG_FOP_OPEN, inode := 1, file := 2 }).1 = 0 ∧
    exEnvRewrite.entry (exEnvRewrite.fop_old 4) .f_open = some (.impl 100) ∧
    calls_of (new_events exState (rfs_open exEnvRewrite exStack 1 2 exState)) = [(.impl 100, [1, 99])] ∧
    calls_of (new_events exState (rfs_open exEnvRewrite exStack 1 2 exState)) ≠ [(.impl 100, [1, 2])] := by
  decide

/-- C2 (amended): every call of `rfs_release` on a shadowed object, and every
call of `rfs_open` on a shadowed dentry that is not stopped by one of the two
`BUG()` of `rfs_open`, runs the filter phases in the order pre-call, original
call, post-call: its dispatch events are one pre-call event, then at most one
call of an original operation (none after a short-circuit), then exactly one
post-call event, on the chain of the pre-call phase and on the context as that
phase left it, whatever the pre-call phase reports and whatever the result slot
holds. With an inode of one of the six kinds `rfs_open` completes whenever the
slab cache has a free object or the provisional result is non-zero; with a
provisional result 0 and an exhausted cache it stops at `BUG()` after the
original-call phase and the post-call phase is not run. With an inode of none
of the six kinds `rfs_open` stops at `BUG()` before the pre-call phase: no
filter phase and no original operation is run. -/
theorem rfs_postcall_runs_once (E : Env) (stack : redirfs_args) (inode file : Nat) (s : State)
    (stop : Int) (c1 : rfs_context) (a2 : redirfs_args) :
    (∀ ri rd id, E.rinode_of inode = some ri →
      s.rdentry_of (s.files file).f_dentry = some rd →
      rfs_open_id (E.i_mode inode) = some id →
      (∀ p, E.fop_old ri = some p → p.foreign = true) →
      E.precall_flts (E.rchain (s.rdentries rd).rinfo) rcont0
        { stack with id := id, inode := inode, file := file } = (stop, c1, a2) →
      ((rfs_open E stack inode file s).fault? = none →
        ∃ mid rargs, dispatch_of (new_events s (rfs_open E stack inode file s)) =
            [.precall (E.rchain (s.rdentries rd).rinfo) rcont0
               { stack with id := id, inode := inode, file := file }] ++ mid ++
            [.postcall (E.rchain (s.rdentries rd).rinfo) c1 rargs] ∧
          (mid = [] ∨ ∃ f, mid = [.call f [a2.inode, a2.file]]) ∧
          (stop ≠ 0 → mid = [])) ∧
      (s.rfs_file_cache ≠ [] → (rfs_open E stack inode file s).fault? = none) ∧
      (stop ≠ 0 → a2.rv_int ≠ 0 → (rfs_open E stack inode file s).fault? = none) ∧
      (∀ f, stop = 0 → E.entry (E.fop_old ri) .f_open = some f →
        E.invoke f [a2.inode, a2.file] ≠ 0 → (rfs_open E stack inode file s).fault? = none) ∧
      (s.rfs_file_cache = [] → (stop ≠ 0 → a2.rv_int = 0) →
        (∀ f, stop = 0 → E.entry (E.fop_old ri) .f_open = some f →
          E.invoke f [a2.inode, a2.file] = 0) →
        (rfs_open E stack inode file s).fault? = some .BUG ∧
        postcalls_of (new_events s (rfs_open E stack inode file s)) = [])) ∧
    (∀ a rd rf, (s.files file).f_op = some (.op_new a) →
      s.rfiles a = some rf → rf.rdentry = some rd →
      (∀ p, rf.op_old = some p → p.foreign = true) →
      2 ≤ rf.count → rf.count < 2147483647 →
      E.precall_flts (E.rchain (s.rdentries rd).rinfo) rcont0
        { stack with id := rfs_release_id (E.i_mode inode) stack, inode := inode, file := file } =
          (stop, c1, a2) →
      (rfs_release E stack inode file s).fault? = none ∧
      ∃ mid rargs, dispatch_of (new_events s (rfs_release E stack inode file s)) =
          [.precall (E.rchain (s.rdentries rd).rinfo) rcont0
             { stack with id := rfs_release_id (E.i_mode inode) stack, inode := inode, file := file }] ++
          mid ++ [.postcall (E.rchain (s.rdentries rd).rinfo) c1 rargs] ∧
        (mid = [] ∨ ∃ f, mid = [.call f [a2.inode, a2.file]]) ∧
        (stop ≠ 0 → mid = [])) ∧
    (∀ ri rd, E.rinode_of inode = some ri →
      s.rdentry_of (s.files file).f_dentry = some rd →
      S_ISREG (E.i_mode inode) = false → S_ISDIR (E.i_mode inode) = false →
      S_ISLNK (E.i_mode inode) = false → S_ISCHR (E.i_mode inode) = false →
      S_ISBLK (E.i_mode inode) = false → S_ISFIFO (E.i_mode inode) = false →
      (rfs_open E stack inode file s).fault? = some .BUG ∧
      dispatch_of (new_events s (rfs_open E stack inode file s)) = []) := by
  refine ⟨?_, ?_, ?_⟩
  · intro ri rd id hri hrd hid hfo hpre
    obtain ⟨hiff, hdone⟩ :=
      open_completes E s stack inode file ri rd id stop c1 a2 _ hri hrd hid hfo hpre rfl
    have hsh := orig_events_shape (E.entry (E.fop_old ri) .f_open) [a2.inode, a2.file] stop
    refine ⟨fun hok => ⟨_, _, (hdone hok).2.2, hsh.1, hsh.2⟩, fun hc => hiff.2 (Or.inr hc), ?_, ?_, ?_⟩
    · intro hs hv
      exact hiff.2 (Or.inl (by simpa [prov_args, hs] using hv))
    · intro f hs he hv
      exact hiff.2 (Or.inl (by simpa [prov_args, hs, he] using hv))
    · intro hc h1 h2
      have hp : (prov_args E (E.entry (E.fop_old ri) .f_open) [a2.inode, a2.file] 0 stop a2).rv_int
          = 0 := by
        by_cases hs : stop = 0
        · cases he : E.entry (E.fop_old ri) .f_open with
          | none => simp [prov_args, hs]
          | some f => simpa [prov_args, hs, he] using h2 f hs he
        · simpa [prov_args, hs] using h1 hs
      obtain ⟨s1, hrun, hpc, -⟩ :=
        (open_summary E s stack inode file ri rd id stop c1 a2 _ hri hrd hid hfo hpre rfl).2.2.2 hp hc
      exact ⟨by simp [hrun, Res.fault?], hpc⟩
  · intro a rd rf hf h hrd hold hc2 hcmax hpre
    obtain ⟨s1, hrun, -, -, hd, -⟩ :=
      release_summary E s stack inode file a rd rf stop c1 a2 _ hf h hrd hold hc2 hcmax hpre rfl
    have hsh := orig_events_shape (E.entry rf.op_old .f_release) [a2.inode, a2.file] stop
    exact ⟨by simp [hrun, Res.fault?], _, _, hd, hsh.1, hsh.2⟩
  · intro ri rd hri hrd h1 h2 h3 h4 h5 h6
    have hid := (kind_exclusive (E.i_mode inode)).2.2.2.2.2.2 h1 h2 h3 h4 h5 h6
    rw [open_run_badmode E s stack inode file ri rd hri hrd hid]
    refine ⟨rfl, ?_⟩
    simp [new_events, Res.state, dispatch_of_append, dispatch_of_cons, Event.is_dispatch]

/-- Witness for C2 (amended): opening file 2 of the scenario, where the slab
cache holds free objects, releasing the open directory file 12, and opening
file 2 when its inode is a socket. -/
theorem rfs_postcall_runs_once_witness :
    (rfs_open exEnv exStack 1 2 exState).fault? = none ∧
    (∃ mid rargs, dispatch_of (new_events exState (rfs_open exEnv exStack 1 2 exState)) =
        [.precall (some 7) rcont0 { exStack with id := REDIRFS_REG_FOP_OPEN, inode := 1, file := 2 }] ++
        mid ++ [.postcall (some 7) rcont0 rargs] ∧
      (mid = [] ∨ ∃ f, mid = [.call f [1, 2]]) ∧ ((0 : Int) ≠ 0 → mid = [])) ∧
    (rfs_release exEnv exStack 8 12 exState).fault? = none ∧
    ((rfs_open exEnvSock exStack 1 2 exState).fault? = some .BUG ∧
      dispatch_of (new_events exState (rfs_open exEnvSock exStack 1 2 exState)) = []) :=
  have h := (rfs_postcall_runs_once exEnv exStack 1 2 exState 0 rcont0
        { exStack with id := REDIRFS_REG_FOP_OPEN, inode := 1, file := 2 }).1
      4 5 REDIRFS_REG_FOP_OPEN rfl rfl rfl
      (fun p hp => by
        have h1 : TablePtr.ext 10 = p := Option.some.inj hp
        subst h1
        rfl) rfl
  ⟨h.2.1 (by decide), h.1 (h.2.1 (by decide)),
   ((rfs_postcall_runs_once exEnv exStack 8 12 exState 0 rcont0
        { exStack with id := REDIRFS_DIR_FOP_RELEASE, inode := 8, file := 12 }).2.1
      30 15 exRfile30 rfl rfl rfl
      (fun p hp => by
        have h1 : TablePtr.ext 11 = p := Option.some.inj hp
        subst h1
        rfl) (by decide) (by decide) rfl).1,
   (rfs_postcall_runs_once exEnvSock exStack 1 2 exState 0 rcont0 exStack).2.2 4 5 rfl rfl
      (by decide) (by decide) (by decide) (by decide) (by decide) (by decide)⟩

/-- Counterexample to C2 as stated: file 2 of the scenario sits on a shadowed
dentry and the slab cache is exhausted. The pre-call phase and the original
`open` (which returns 0) run, and `rfs_open` stops at `BUG()`: no post-call
event follows. -/
theorem rfs_open_postcall_skipped_counterexample :
    exStateNoMem.rdentry_of (exStateNoMem.files 2).f_dentry = some 5 ∧
    dispatch_of (new_events exStateNoMem (rfs_open exEnv exStack 1 2 exStateNoMem)) =
      [.precall (some 7) rcont0 { exStack with id := REDIRFS_REG_FOP_OPEN, inode := 1, file := 2 },
       .call (.impl 100) [1, 2]] ∧
    postcalls_of (new_events exStateNoMem (rfs_open exEnv exStack 1 2 exStateNoMem)) = [] := by
  decide

/-- C3: the value a completed `rfs_open` or `rfs_release` returns on a shadowed
object is the result slot of the argument record as the post-call phase leaves
it. In particular, when the pre-call phase reports no short-circuit, the
original table has the entry and the post-call phase leaves the result slot
alone, the value returned is the original operation's return value, whatever it
is (for `rfs_open` a return value 0 needs the allocation of the shadow to
succeed). -/
theorem rfs_return_value_is_result_slot (E : Env) (stack : redirfs_args) (inode file : Nat) (s : State)
    (stop : Int) (c1 : rfs_context) (a2 : redirfs_args) :
    (∀ ri rd id, E.rinode_of inode = some ri →
      s.rdentry_of (s.files file).f_dentry = some rd →
      rfs_open_id (E.i_mode inode) = some id →
      (∀ p, E.fop_old ri = some p → p.foreign = true) →
      E.precall_flts (E.rchain (s.rdentries rd).rinfo) rcont0
        { stack with id := id, inode := inode, file := file } = (stop, c1, a2) →
      ((rfs_open E stack inode file s).fault? = none →
        ∃ rargs, postcalls_of (new_events s (rfs_open E stack inode file s)) = [rargs] ∧
          (rfs_open E stack inode file s).value =
            some (E.postcall_flts (E.rchain (s.rdentries rd).rinfo) c1 rargs).2.rv_int) ∧
      (∀ f, stop = 0 → E.entry (E.fop_old ri) .f_open = some f →
        (E.invoke f [a2.inode, a2.file] ≠ 0 ∨ s.rfs_file_cache ≠ []) →
        (E.postcall_flts (E.rchain (s.rdentries rd).rinfo) c1
          { a2 with rv_int := E.invoke f [a2.inode, a2.file] }).2.rv_int =
            E.invoke f [a2.inode, a2.file] →
        (rfs_open E stack inode file s).value = some (E.invoke f [a2.inode, a2.file]))) ∧
    (∀ a rd rf, (s.files file).f_op = some (.op_new a) →
      s.rfiles a = some rf → rf.rdentry = some rd →
      (∀ p, rf.op_old = some p → p.foreign = true) →
      2 ≤ rf.count → rf.count < 2147483647 →
      E.precall_flts (E.rchain (s.rdentries rd).rinfo) rcont0
        { stack with id := rfs_release_id (E.i_mode inode) stack, inode := inode, file := file } =
          (stop, c1, a2) →
      (∃ rargs, postcalls_of (new_events s (rfs_release E stack inode file s)) = [rargs] ∧
        (rfs_release E stack inode file s).value =
          some (E.postcall_flts (E.rchain (s.rdentries rd).rinfo) c1 rargs).2.rv_int) ∧
      (∀ f, stop = 0 → E.entry rf.op_old .f_release = some f →
        (E.postcall_flts (E.rchain (s.rdentries rd).rinfo) c1
          { a2 with rv_int := E.invoke f [a2.inode, a2.file] }).2.rv_int =
            E.invoke f [a2.inode, a2.file] →
        (rfs_release E stack inode file s).value = some (E.invoke f [a2.inode, a2.file]))) := by
  constructor
  · intro ri rd id hri hrd hid hfo hpre
    obtain ⟨hiff, hdone⟩ :=
      open_completes E s stack inode file ri rd id stop c1 a2 _ hri hrd hid hfo hpre rfl
    refine ⟨fun hok => ⟨_, (hdone hok).2.1, (hdone hok).1⟩, ?_⟩
    intro f hs he hor hkeep
    have hok := hiff.2 (by simpa [prov_args, hs, he] using hor)
    rw [(hdone hok).1]
    simp only [prov_args, hs, he, if_true]
    rw [hkeep]
  · intro a rd rf hf h hrd hold hc2 hcmax hpre
    obtain ⟨s1, hrun, -, hpc, -⟩ :=
      release_summary E s stack inode file a rd rf stop c1 a2 _ hf h hrd hold hc2 hcmax hpre rfl
    refine ⟨⟨_, hpc, by simp [hrun, Res.value]⟩, ?_⟩
    intro f hs he hkeep
    rw [hrun]
    simp only [Res.value, prov_args, hs, he, if_true]
    rw [hkeep]

/-- Witness for C3: with original operations that fail with `-EACCES` (-13)
and filters that leave the result alone, opening file 2 and releasing file 12
of the scenario return -13. -/
theorem rfs_return_value_is_result_slot_witness :
    (rfs_open exEnvFail exStack 1 2 exState).value = some (-13) ∧
    (rfs_release exEnvFail exStack 8 12 exState).value = some (-13) :=
  ⟨((rfs_return_value_is_result_slot exEnvFail exStack 1 2 exState 0 rcont0
        { exStack with id := REDIRFS_REG_FOP_OPEN, inode := 1, file := 2 }).1
      4 5 REDIRFS_REG_FOP_OPEN rfl rfl rfl
      (fun p hp => by
        have h1 : TablePtr.ext 10 = p := Option.some.inj hp
        subst h1
        rfl) rfl).2 (.impl 100) rfl rfl (Or.inl (by decide)) rfl,
   ((rfs_return_value_is_result_slot exEnvFail exStack 8 12 exState 0 rcont0
        { exStack with id := REDIRFS_DIR_FOP_RELEASE, inode := 8, file := 12 }).2
      30 15 exRfile30 rfl rfl rfl
      (fun p hp => by
        have h1 : TablePtr.ext 11 = p := Option.some.inj hp
        subst h1
        rfl) (by decide) (by decide) rfl).2 (.impl 111) rfl rfl rfl⟩

/-- C4: when the pre-call phase reports no short-circuit and there is no
original operation (the saved original table is NULL, or its member is NULL),
no original operation is called and the result slot of the record handed to the
post-call phase holds the fixed default: 0 in `rfs_open` (where the post-call
phase is reached when the shadow can be allocated), 0 in `rfs_release`, and
`-ENOTDIR` in `rfs_readdir` on a directory. -/
theorem rfs_default_result_without_original (E : Env) (stack : redirfs_args) (s : State)
    (c1 : rfs_context) (a2 : redirfs_args) :
    (∀ inode file ri rd id, E.rinode_of inode = some ri →
      s.rdentry_of (s.files file).f_dentry = some rd →
      rfs_open_id (E.i_mode inode) = some id →
      (∀ p, E.fop_old ri = some p → p.foreign = true) →
      E.precall_flts (E.rchain (s.rdentries rd).rinfo) rcont0
        { stack with id := id, inode := inode, file := file } = (0, c1, a2) →
      (E.fop_old ri = none ∨ ∃ p, E.fop_old ri = some p ∧ E.table p .f_open = none) →
      calls_of (new_events s (rfs_open E stack inode file s)) = [] ∧
      (s.rfs_file_cache ≠ [] →
        postcalls_of (new_events s (rfs_open E stack inode file s)) = [{ a2 with rv_int := 0 }])) ∧
    (∀ inode file a rd rf, (s.files file).f_op = some (.op_new a) →
      s.rfiles a = some rf → rf.rdentry = some rd →
      (∀ p, rf.op_old = some p → p.foreign = true) →
      2 ≤ rf.count → rf.count < 2147483647 →
      E.precall_flts (E.rchain (s.rdentries rd).rinfo) rcont0
        { stack with id := rfs_release_id (E.i_mode inode) stack, inode := inode, file := file } =
          (0, c1, a2) →
      (rf.op_old = none ∨ ∃ p, rf.op_old = some p ∧ E.table p .f_release = none) →
      calls_of (new_events s (rfs_release E stack inode file s)) = [] ∧
      postcalls_of (new_events s (rfs_release E stack inode file s)) = [{ a2 with rv_int := 0 }]) ∧
    (∀ file dirent filldir a rd i rf, (s.files file).f_op = some (.op_new a) →
      s.rfiles a = some rf → rf.rdentry = some rd →
      (∀ p, rf.op_old = some p → p.foreign = true) →
      1 ≤ rf.count → rf.count < 2147483647 →
      E.d_inode (s.files file).f_dentry = some i → S_ISDIR (E.i_mode i) = true →
      E.precall_flts (E.rchain (s.rdentries rd).rinfo) rcont0
        { stack with id := REDIRFS_DIR_FOP_READDIR, file := file, dirent := dirent,
                     filldir := filldir } = (0, c1, a2) →
      (rf.op_old = none ∨ ∃ p, rf.op_old = some p ∧ E.table p .f_readdir = none) →
      calls_of (new_events s (rfs_readdir E stack file dirent filldir s)) = [] ∧
      postcalls_of (new_events s (rfs_readdir E stack file dirent filldir s)) =
        [{ a2 with rv_int := -ENOTDIR }]) := by
  have hentry : ∀ (t : Option TablePtr) (op : FopMember),
      (t = none ∨ ∃ p, t = some p ∧ E.table p op = none) → E.entry t op = none := by
    intro t op ht
    rcases ht with ht | ⟨p, ht, hp⟩
    · simp [Env.entry, ht]
    · simp [Env.entry, ht, hp]
  refine ⟨?_, ?_, ?_⟩
  · intro inode file ri rd id hri hrd hid hfo hpre hno
    have he := hentry _ .f_open hno
    obtain ⟨hiff, hdone⟩ :=
      open_completes E s stack inode file ri rd id 0 c1 a2 _ hri hrd hid hfo hpre rfl
    obtain ⟨hcalls, -⟩ :=
      open_summary E s stack inode file ri rd id 0 c1 a2 _ hri hrd hid hfo hpre rfl
    refine ⟨by simp [hcalls, he], fun hc => ?_⟩
    have := (hdone (hiff.2 (Or.inr hc))).2.1
    simpa [prov_args, he] using this
  · intro inode file a rd rf hf h hrd hold hc2 hcmax hpre hno
    have he := hentry _ .f_release hno
    obtain ⟨s1, -, hcalls, hpc, -⟩ :=
      release_summary E s stack inode file a rd rf 0 c1 a2 _ hf h hrd hold hc2 hcmax hpre rfl
    exact ⟨by simp [hcalls, he], by simpa [prov_args, he] using hpc⟩
  · intro file dirent filldir a rd i rf hf h hrd hold hc1 hcmax hdi hdir hpre hno
    have he := hentry _ .f_readdir hno
    obtain ⟨hcalls, hpc⟩ :=
      readdir_summary E s stack file dirent filldir a rd i rf 0 c1 a2 _ hf h hrd hold hc1 hcmax
        hdi hdir hpre rfl
    exact ⟨by simp [hcalls, he], by simpa [prov_args, he] using hpc⟩

/-- Witness for C4: opening file 2 of the scenario when the inode shadow saved
no original table, releasing file 22, whose shadow captured a NULL table, and
`rfs_readdir` on the open directory file 12, whose original table has no
`readdir`. -/
theorem rfs_default_result_without_original_witness :
    (calls_of (new_events exState (rfs_open exEnvNoOrig exStack 1 2 exState)) = [] ∧
      postcalls_of (new_events exState (rfs_open exEnvNoOrig exStack 1 2 exState)) =
        [{ exStack with id := REDIRFS_REG_FOP_OPEN, inode := 1, file := 2, rv_int := 0 }]) ∧
    (calls_of (new_events exState (rfs_release exEnv exStack 1 22 exState)) = [] ∧
      postcalls_of (new_events exState (rfs_release exEnv exStack 1 22 exState)) =
        [{ exStack with id := REDIRFS_REG_FOP_RELEASE, inode := 1, file := 22, rv_int := 0 }]) ∧
    (calls_of (new_events exState (rfs_readdir exEnv exStack 12 0 0 exState)) = [] ∧
      postcalls_of (new_events exState (rfs_readdir exEnv exStack 12 0 0 exState)) =
        [{ exStack with id := REDIRFS_DIR_FOP_READDIR, file := 12, rv_int := -ENOTDIR }]) :=
  have hopen := (rfs_default_result_without_original exEnvNoOrig exStack exState rcont0
      { exStack with id := REDIRFS_REG_FOP_OPEN, inode := 1, file := 2 }).1
    1 2 4 5 REDIRFS_REG_FOP_OPEN rfl rfl rfl
    (fun p hp => absurd (show (none : Option TablePtr) = some p from hp) (by simp)) rfl (Or.inl rfl)
  ⟨⟨hopen.1, hopen.2 (by decide)⟩,
   (rfs_default_result_without_original exEnv exStack exState rcont0
      { exStack with id := REDIRFS_REG_FOP_RELEASE, inode := 1, file := 22 }).2.1
    1 22 40 5 exRfile40 rfl rfl rfl
    (fun p hp => absurd (show (none : Option TablePtr) = some p from hp) (by simp))
    (by decide) (by decide) rfl (Or.inl rfl),
   (rfs_default_result_without_original exEnv exStack exState rcont0
      { exStack with id := REDIRFS_DIR_FOP_READDIR, file := 12 }).2.2
    12 0 0 30 15 8 exRfile30 rfl rfl rfl
    (fun p hp => by
      have h1 : TablePtr.ext 11 = p := Option.some.inj hp
      subst h1
      rfl) (by decide) (by decide) rfl rfl rfl (Or.inr ⟨.ext 11, rfl, rfl⟩)⟩

/-- C5: the shadow table built by `rfs_file_alloc`. When the slab cache hands
out the free object `a`, the new object captures `file->f_op` in `op_old`; its
`op_new.open` is `rfs_open`; every other member of `op_new` is NULL when the
captured pointer is NULL, and equals the member of the captured table
otherwise, whatever that table holds in `open`. -/
theorem rfs_file_alloc_shadow_table (E : Env) (s : State) (file a : Nat) (rest : List Nat)
    (hc : s.rfs_file_cache = a :: rest) (hfree : s.rfiles a = none) :
    ((s.files file).f_op = none →
      ∃ s1 rf, rfs_file_alloc E file s = .ok (.ptr a) s1 ∧ s1.rfiles a = some rf ∧
        rf.op_old = none ∧ rf.op_new .f_open = some .rfs_open ∧
        ∀ m, m ≠ .f_open → rf.op_new m = none) ∧
    (∀ p tbl, (s.files file).f_op = some p → table_at E s p = some tbl →
      ∃ s1 rf, rfs_file_alloc E file s = .ok (.ptr a) s1 ∧ s1.rfiles a = some rf ∧
        rf.op_old = some p ∧ rf.op_new .f_open = some .rfs_open ∧
        ∀ m, m ≠ .f_open → rf.op_new m = tbl m) := by
  constructor
  · intro hop
    refine ⟨_, _, alloc_run E file a rest s hc (by simp [hop]), Function.update_same _ _ _, by simp [hop],
      by simp, ?_⟩
    intro m hm
    simp [hop, Function.update_noteq hm]
  · intro p tbl hop htbl
    cases p with
    | ext n =>
      simp only [table_at, Option.some.injEq] at htbl
      subst htbl
      refine ⟨_, _, alloc_run E file a rest s hc (by simp [hop, TablePtr.foreign]),
        Function.update_same _ _ _, by simp [hop], by simp, ?_⟩
      intro m hm
      simp [hop, Function.update_noteq hm, Env.table]
    | rfs_file_ops =>
      simp only [table_at, Option.some.injEq] at htbl
      subst htbl
      refine ⟨_, _, alloc_run E file a rest s hc (by simp [hop, TablePtr.foreign]),
        Function.update_same _ _ _, by simp [hop], by simp, ?_⟩
      intro m hm
      simp [hop, Function.update_noteq hm, Env.table]
    | op_new r =>
      cases hr : s.rfiles r with
      | none => simp [table_at, hr] at htbl
      | some rfr =>
        simp only [table_at, hr, Option.map_some', Option.some.injEq] at htbl
        subst htbl
        have hne : r ≠ a := by
          intro hra
          rw [hra, hfree] at hr
          cases hr
        have hrun : rfs_file_alloc E file s = .ok (.ptr a)
            { s with
              rfs_file_cache := rest
              rfiles := Function.update s.rfiles a (some
                { file := file, rdentry := none, count := 1, op_old := some (.op_new r),
                  op_new := Function.update rfr.op_new .f_open (some .rfs_open), data := [] })
              trace := s.trace ++ [.fops_get (.op_new r)] } := by
          simp [rfs_file_alloc, kmem_cache_zalloc, hc, fops_get_run, hop, deref, hne, hr, rfs_file.zero,
            fops_get_ev]
        refine ⟨_, _, hrun, Function.update_same _ _ _, rfl, by simp, ?_⟩
        intro m hm
        simp [Function.update_noteq hm]

/-- Witness for C5: file 2 carries the original table `ext 10`, whose `open` is
`impl 100` and whose `release` is `impl 101`: the shadow built at the free
object 20 captures the pointer, hooks `open` and keeps the copied `release`
and the NULL `read`. File 22 carries no table: the shadow has `open` hooked and
every other member NULL. -/
theorem rfs_file_alloc_shadow_table_witness :
    (exEnv.fops 10 .f_open = some (.impl 100) ∧
      ∃ s1 rf, rfs_file_alloc exEnv 2 exStateOrig = .ok (.ptr 20) s1 ∧ s1.rfiles 20 = some rf ∧
        rf.op_old = some (.ext 10) ∧ rf.op_new .f_open = some .rfs_open ∧
        rf.op_new .f_release = some (.impl 101) ∧ rf.op_new .f_read = none) ∧
    (∃ s1 rf, rfs_file_alloc exEnv 22 exStateOrig = .ok (.ptr 20) s1 ∧ s1.rfiles 20 = some rf ∧
        rf.op_old = none ∧ rf.op_new .f_open = some .rfs_open ∧
        rf.op_new .f_release = none ∧ rf.op_new .f_read = none) := by
  have h := rfs_file_alloc_shadow_table exEnv exStateOrig
  obtain ⟨s1, rf, h1, h2, h3, h4, h5⟩ := (h 2 20 [21] rfl rfl).2 (.ext 10) (exEnv.fops 10) rfl rfl
  obtain ⟨s2, rf2, k1, k2, k3, k4, k5⟩ := (h 22 20 [21] rfl rfl).1 rfl
  exact ⟨⟨rfl, s1, rf, h1, h2, h3, h4, (h5 .f_release (by decide)).trans rfl,
      (h5 .f_read (by decide)).trans rfl⟩,
    s2, rf2, k1, k2, k3, k4, k5 .f_release (by decide), k5 .f_read (by decide)⟩

/-- C6: restore-on-release. `rfs_file_add` installs `&rfile->op_new` on the
file and captures in `rfile->op_old` the pointer `file->f_op` held just before;
`rfs_file_del` applied to the state `rfs_file_add` leaves puts that pointer
back, so the two together are the identity on `file->f_op`; and from every
later state in which the shadow is still installed with the same captured
pointer, a call of `rfs_release` completes and leaves `file->f_op` equal to
that pointer. -/
theorem rfs_file_restore_on_release (E : Env) (file a rd : Nat) (rest : List Nat) (s : State)
    (hc : s.rfs_file_cache = a :: rest)
    (hf : ∀ p, (s.files file).f_op = some p → p.foreign = true)
    (hrd : s.rdentry_of (s.files file).f_dentry = some rd) :
    ∃ s1 rf, rfs_file_add E file s = .ok (.ptr a) s1 ∧
      (s1.files file).f_op = some (.op_new a) ∧ s1.rfiles a = some rf ∧ rf.file = file ∧
      rf.op_old = (s.files file).f_op ∧ rf.rdentry = some rd ∧ rf.count = 3 ∧
      (∃ s2, rfs_file_del (.ptr a) s1 = .ok () s2 ∧ (s2.files file).f_op = (s.files file).f_op) ∧
      (∀ (E1 : Env) (stack : redirfs_args) (inode rd1 : Nat) (s3 : State) (rf3 : rfs_file),
        (s3.files file).f_op = some (.op_new a) → s3.rfiles a = some rf3 →
        rf3.file = file → rf3.op_old = rf.op_old → rf3.rdentry = some rd1 →
        2 ≤ rf3.count → rf3.count < 2147483647 →
        ∃ v s4, rfs_release E1 stack inode file s3 = .ok v s4 ∧
          (s4.files file).f_op = (s.files file).f_op) := by
  obtain ⟨t, ht⟩ := add_run E file a rd rest s hc hf hrd
  refine ⟨_, _, ht, by simp, Function.update_same _ _ _, rfl, rfl, rfl, rfl, ?_, ?_⟩
  · refine ⟨_, del_run a rd _ _ (Function.update_same _ _ _) rfl (by simp) (by simp), ?_⟩
    simp
  · intro E1 stack inode rd1 s3 rf3 hf3 h3 hfile hold3 hrd3 hc2 hcmax
    simp only at hold3
    obtain ⟨s4, hrun, -, -, -, hfop, -⟩ :=
      release_summary E1 s3 stack inode file a rd1 rf3
        (E1.precall_flts (E1.rchain (s3.rdentries rd1).rinfo) rcont0
          { stack with id := rfs_release_id (E1.i_mode inode) stack, inode := inode, file := file }).1
        (E1.precall_flts (E1.rchain (s3.rdentries rd1).rinfo) rcont0
          { stack with id := rfs_release_id (E1.i_mode inode) stack, inode := inode, file := file }).2.1
        (E1.precall_flts (E1.rchain (s3.rdentries rd1).rinfo) rcont0
          { stack with id := rfs_release_id (E1.i_mode inode) stack, inode := inode, file := file }).2.2
        _ hf3 h3 hrd3 (by rw [hold3]; exact hf) hc2 hcmax rfl rfl
    rw [hfile] at hfop
    exact ⟨_, _, hrun, by rw [hfop, hold3]⟩

/-- Witness for C6: file 2 of the scenario is given the shadow at the free
object 20 and is then released. -/
theorem rfs_file_restore_on_release_witness :
    ∃ s1 v s4, rfs_file_add exEnv 2 exState = .ok (.ptr 20) s1 ∧
      (s1.files 2).f_op = some (.op_new 20) ∧
      rfs_release exEnv exStack 1 2 s1 = .ok v s4 ∧
      (s4.files 2).f_op = (exState.files 2).f_op := by
  obtain ⟨s1, rf, hadd, hfop, hrf, hfile, hold, hrd, hcount, -, hrel⟩ :=
    rfs_file_restore_on_release exEnv 2 20 5 [21] exState rfl
      (fun p hp => by
        have h1 : TablePtr.rfs_file_ops = p := Option.some.inj hp
        subst h1
        rfl) rfl
  obtain ⟨v, s4, hrun, hback⟩ :=
    hrel exEnv exStack 1 5 s1 rf hfop hrf hfile rfl hrd (by rw [hcount]; decide)
      (by rw [hcount]; decide)
  exact ⟨s1, v, s4, hadd, hfop, hrun, hback⟩

/-- C7 (amended): when the slab cache is exhausted, `rfs_file_alloc` and
`rfs_file_add` return `ERR_PTR(-ENOMEM)`; `rfs_open` on a shadowed dentry
attempts the allocation exactly when the provisional result is 0, and then
stops at `BUG()`: it returns no value, the pre-call phase and (without a
short-circuit) the original `open` have already run, the post-call phase is not
run, and `file->f_op` is left as the original-call phase left it: at the inode
shadow's saved original table, which `rfs_open` wrote, unless the original
`open` installed a table of its own on the file. -/
theorem rfs_open_alloc_failure_is_fatal (E : Env) (stack : redirfs_args) (inode file : Nat) (s : State)
    (ri rd : Nat) (id : OpId) (stop : Int) (c1 : rfs_context) (a2 : redirfs_args)
    (hri : E.rinode_of inode = some ri)
    (hrd : s.rdentry_of (s.files file).f_dentry = some rd)
    (hid : rfs_open_id (E.i_mode inode) = some id)
    (hfo : ∀ p, E.fop_old ri = some p → p.foreign = true)
    (hpre : E.precall_flts (E.rchain (s.rdentries rd).rinfo) rcont0
      { stack with id := id, inode := inode, file := file } = (stop, c1, a2))
    (hc : s.rfs_file_cache = []) :
    rfs_file_alloc E file s = .ok (ERR_PTR (-ENOMEM)) s ∧
    rfs_file_add E file s = .ok (ERR_PTR (-ENOMEM)) s ∧
    (∀ prov : redirfs_args,
      ((stop ≠ 0 ∧ prov = a2) ∨
       (stop = 0 ∧ ∃ f, E.entry (E.fop_old ri) .f_open = some f ∧
          prov = { a2 with rv_int := E.invoke f [a2.inode, a2.file] }) ∨
       (stop = 0 ∧ E.entry (E.fop_old ri) .f_open = none ∧ prov = { a2 with rv_int := 0 })) →
      (prov.rv_int = 0 →
        (rfs_open E stack inode file s).fault? = some .BUG ∧
        (rfs_open E stack inode file s).value = none ∧
        postcalls_of (new_events s (rfs_open E stack inode file s)) = [] ∧
        dispatch_of (new_events s (rfs_open E stack inode file s)) =
          [.precall (E.rchain (s.rdentries rd).rinfo) rcont0
             { stack with id := id, inode := inode, file := file }] ++
          (if stop = 0 then
            match E.entry (E.fop_old ri) .f_open with
            | some f => [.call f [a2.inode, a2.file]]
            | none => []
           else []) ∧
        ((rfs_open E stack inode file s).state.files file).f_op = (open_f_op_left E (E.fop_old ri) (E.entry (E.fop_old ri) .f_open) a2.inode a2.file stop file)) ∧
      (prov.rv_int ≠ 0 →
        (rfs_open E stack inode file s).value =
          some (E.postcall_flts (E.rchain (s.rdentries rd).rinfo) c1 prov).2.rv_int)) ∧
    (open_installs E (E.entry (E.fop_old ri) .f_open) a2.inode a2.file stop = none → (open_f_op_left E (E.fop_old ri) (E.entry (E.fop_old ri) .f_open) a2.inode a2.file stop file) = E.fop_old ri) ∧
    (∀ n, open_installs E (E.entry (E.fop_old ri) .f_open) a2.inode a2.file stop = some n → a2.file = file → (open_f_op_left E (E.fop_old ri) (E.entry (E.fop_old ri) .f_open) a2.inode a2.file stop file) = some (.ext n)) := by
  refine ⟨by simp [rfs_file_alloc, kmem_cache_zalloc, hc], add_nomem E file s hc, ?_,
    fun h => open_f_op_left_none E _ _ _ _ _ _ h,
    fun n h hf => open_f_op_left_some E _ _ _ _ _ _ n h hf⟩
  intro prov hprov
  have hp : prov = prov_args E (E.entry (E.fop_old ri) .f_open) [a2.inode, a2.file] 0 stop a2 := by
    rcases hprov with ⟨hs, h⟩ | ⟨hs, f, he, h⟩ | ⟨hs, he, h⟩
    · simp [prov_args, hs, h]
    · simp [prov_args, hs, he, h]
    · simp [prov_args, hs, he, h]
  obtain ⟨-, hne, -, hbug⟩ :=
    open_summary E s stack inode file ri rd id stop c1 a2 prov hri hrd hid hfo hpre hp
  constructor
  · intro h0
    obtain ⟨s1, hrun, hpc, hd, hfop, -⟩ := hbug h0 hc
    refine ⟨by simp [hrun, Res.fault?], by simp [hrun, Res.value], hpc, ?_, by simp [hrun, Res.state, hfop]⟩
    rw [hd]
    rfl
  · intro h0
    obtain ⟨s1, hrun, -⟩ := hne h0
    simp [hrun, Res.value]

/-- Witness for C7 (amended): opening file 2 of the scenario with an
exhausted slab cache; the original `open` returns 0 and leaves `file->f_op`
alone. -/
theorem rfs_open_alloc_failure_is_fatal_witness :
    (rfs_open exEnv exStack 1 2 exStateNoMem).fault? = some .BUG ∧
    (rfs_open exEnv exStack 1 2 exStateNoMem).value = none ∧
    postcalls_of (new_events exStateNoMem (rfs_open exEnv exStack 1 2 exStateNoMem)) = [] ∧
    ((rfs_open exEnv exStack 1 2 exStateNoMem).state.files 2).f_op = exEnv.fop_old 4 :=
  have h0 := rfs_open_alloc_failure_is_fatal exEnv exStack 1 2 exStateNoMem 4 5 REDIRFS_REG_FOP_OPEN 0
      rcont0 { exStack with id := REDIRFS_REG_FOP_OPEN, inode := 1, file := 2 } rfl rfl rfl
      (fun p hp => by
        have h1 : TablePtr.ext 10 = p := Option.some.inj hp
        subst h1
        rfl) rfl rfl
  have h := (h0.2.2.1
      { exStack with id := REDIRFS_REG_FOP_OPEN, inode := 1, file := 2, rv_int := 0 }
      (Or.inr (Or.inl ⟨rfl, .impl 100, rfl, rfl⟩))).1 rfl
  ⟨h.1, h.2.1, h.2.2.1, h.2.2.2.2.trans (h0.2.2.2.1 rfl)⟩

/-- Counterexample to C7 as stated: the slab cache is exhausted, so
`rfs_file_alloc` returns `ERR_PTR(-ENOMEM)`; the original `open` is called and
returns 0, but `rfs_open` does not return it: it stops at `BUG()`. -/
theorem rfs_open_alloc_failure_counterexample :
    (rfs_file_alloc exEnv 2 exStateNoMem).value = some (ERR_PTR (-ENOMEM)) ∧
    calls_of (new_events exStateNoMem (rfs_open exEnv exStack 1 2 exStateNoMem)) = [(.impl 100, [1, 2])] ∧
    exEnv.invoke (.impl 100) [1, 2] = 0 ∧
    (rfs_open exEnv exStack 1 2 exStateNoMem).value ≠ some 0 ∧
    (rfs_open exEnv exStack 1 2 exStateNoMem).fault? = some .BUG := by
  decide

/-- C8 (amended): in `rfs_open` on a shadowed dentry the creation of the
open-handle shadow is attempted exactly when the provisional result (the result
slot after the pre-call and original-call phases, which is the slot handed to
the post-call phase) is 0, wherever that 0 came from: a short-circuiting
filter, the original `open`, or the default. With a provisional 0 and a free
object in the slab cache `rfs_file_add` runs once: the object leaves the cache,
it is registered with the parent once and `file->f_op` points at its table.
With a provisional 0 and an exhausted cache no shadow is created and the call
stops at `BUG()`. With a non-zero provisional result nothing is allocated or
registered and `file->f_op` is as the original-call phase left it: the inode
shadow's saved original table, which `rfs_open` wrote, unless the original
`open` installed a table of its own on the file; it is never a shadow table.
The value returned comes from the post-call phase, which has no part in the
decision. -/
theorem rfs_open_shadow_iff_provisional_zero (E : Env) (stack : redirfs_args) (inode file : Nat)
    (s : State) (ri rd : Nat) (id : OpId) (stop : Int) (c1 : rfs_context) (a2 : redirfs_args)
    (hri : E.rinode_of inode = some ri)
    (hrd : s.rdentry_of (s.files file).f_dentry = some rd)
    (hid : rfs_open_id (E.i_mode inode) = some id)
    (hfo : ∀ p, E.fop_old ri = some p → p.foreign = true)
    (hpre : E.precall_flts (E.rchain (s.rdentries rd).rinfo) rcont0
      { stack with id := id, inode := inode, file := file } = (stop, c1, a2)) :
    ∃ prov : redirfs_args,
      (stop ≠ 0 → prov = a2) ∧
      (∀ f, stop = 0 → E.entry (E.fop_old ri) .f_open = some f →
        prov = { a2 with rv_int := E.invoke f [a2.inode, a2.file] }) ∧
      (stop = 0 → E.entry (E.fop_old ri) .f_open = none → prov = { a2 with rv_int := 0 }) ∧
      (prov.rv_int = 0 → ∀ a rest, s.rfs_file_cache = a :: rest →
        ∃ s1, rfs_open E stack inode file s =
            .ok (E.postcall_flts (E.rchain (s.rdentries rd).rinfo) c1 prov).2.rv_int s1 ∧
          postcalls_of (new_events s (rfs_open E stack inode file s)) = [prov] ∧
          (s1.files file).f_op = some (.op_new a) ∧
          (∃ rf, s1.rfiles a = some rf ∧ rf.file = file ∧ rf.op_old = (open_f_op_left E (E.fop_old ri) (E.entry (E.fop_old ri) .f_open) a2.inode a2.file stop file) ∧
            rf.rdentry = some rd) ∧
          s1.rfs_file_cache = rest ∧
          (new_events s (rfs_open E stack inode file s)).count (.rfs_dentry_add_rfile rd a) = 1) ∧
      (prov.rv_int = 0 → s.rfs_file_cache = [] →
        (rfs_open E stack inode file s).fault? = some .BUG) ∧
      (prov.rv_int ≠ 0 →
        ∃ s1, rfs_open E stack inode file s =
            .ok (E.postcall_flts (E.rchain (s.rdentries rd).rinfo) c1 prov).2.rv_int s1 ∧
          postcalls_of (new_events s (rfs_open E stack inode file s)) = [prov] ∧
          (s1.files file).f_op = (open_f_op_left E (E.fop_old ri) (E.entry (E.fop_old ri) .f_open) a2.inode a2.file stop file) ∧ (∀ a, (s1.files file).f_op ≠ some (.op_new a)) ∧
          s1.rfiles = s.rfiles ∧ s1.rfs_file_cache = s.rfs_file_cache ∧
          ∀ rd1 a1, (new_events s (rfs_open E stack inode file s)).count
            (.rfs_dentry_add_rfile rd1 a1) = 0) ∧
      (open_installs E (E.entry (E.fop_old ri) .f_open) a2.inode a2.file stop = none → (open_f_op_left E (E.fop_old ri) (E.entry (E.fop_old ri) .f_open) a2.inode a2.file stop file) = E.fop_old ri) ∧
      (∀ n, open_installs E (E.entry (E.fop_old ri) .f_open) a2.inode a2.file stop = some n → a2.file = file → (open_f_op_left E (E.fop_old ri) (E.entry (E.fop_old ri) .f_open) a2.inode a2.file stop file) = some (.ext n)) := by
  obtain ⟨-, hne, hadd, hbug⟩ :=
    open_summary E s stack inode file ri rd id stop c1 a2 _ hri hrd hid hfo hpre rfl
  have hnotnew : ∀ a, (open_f_op_left E (E.fop_old ri) (E.entry (E.fop_old ri) .f_open) a2.inode a2.file stop file) ≠ some (.op_new a) := by
    intro a h
    have := open_f_op_left_foreign E _ _ _ _ _ _ hfo _ h
    simp [TablePtr.foreign] at this
  refine ⟨prov_args E (E.entry (E.fop_old ri) .f_open) [a2.inode, a2.file] 0 stop a2,
    fun hs => by simp [prov_args, hs], fun f hs he => by simp [prov_args, hs, he],
    fun hs he => by simp [prov_args, hs, he], ?_, ?_, ?_,
    fun h => open_f_op_left_none E _ _ _ _ _ _ h,
    fun n h hf => open_f_op_left_some E _ _ _ _ _ _ n h hf⟩
  · intro hp a rest hc
    obtain ⟨s1, t, hrun, hpc, -, hfop, hrf, hcache, -, hcnt⟩ := hadd hp a rest hc
    exact ⟨s1, hrun, hpc, hfop, ⟨_, by rw [hrf]; exact Function.update_same _ _ _, rfl, rfl, rfl⟩,
      hcache, hcnt⟩
  · intro hp hc
    obtain ⟨s1, hrun, -⟩ := hbug hp hc
    simp [hrun, Res.fault?]
  · intro hp
    obtain ⟨s1, hrun, hpc, -, hfop, hrf, hcache, -, hcnt⟩ := hne hp
    exact ⟨s1, hrun, hpc, hfop, fun a => by rw [hfop]; exact hnotnew a, hrf, hcache, hcnt⟩

/-- Witness for C8 (amended): opening file 2 of the scenario, with the free
object 20; the original `open` returns 0 and leaves `file->f_op` alone, so the
shadow captures the saved original table. -/
theorem rfs_open_shadow_iff_provisional_zero_witness :
    ∃ s1, rfs_open exEnv exStack 1 2 exState = .ok 0 s1 ∧
      (s1.files 2).f_op = some (.op_new 20) ∧ s1.rfs_file_cache = [21] ∧
      ∃ rf, s1.rfiles 20 = some rf ∧ rf.op_old = exEnv.fop_old 4 := by
  obtain ⟨prov, -, h1, -, h2, -, -, h3, -⟩ :=
    rfs_open_shadow_iff_provisional_zero exEnv exStack 1 2 exState 4 5 REDIRFS_REG_FOP_OPEN 0 rcont0
      { exStack with id := REDIRFS_REG_FOP_OPEN, inode := 1, file := 2 } rfl rfl rfl
      (fun p hp => by
        have h1 : TablePtr.ext 10 = p := Option.some.inj hp
        subst h1
        rfl) rfl
  have hprov := h1 (.impl 100) rfl rfl
  subst hprov
  obtain ⟨s1, hrun, -, hfop, ⟨rf, hrf, -, hold, -⟩, hcache, -⟩ := h2 rfl 20 [21] rfl
  exact ⟨s1, hrun, hfop, hcache, rf, hrf, hold.trans (h3 rfl)⟩

/-- Counterexample to C8 as stated: file 2 of the scenario sits on a shadowed
dentry, the pre-call phase reports no short-circuit and there is no original
`open`, so the provisional result is the default 0; the slab cache is
exhausted. No shadow is created: `rfs_open` stops at `BUG()` with `file->f_op`
at the saved original table (NULL here) and the two shadow slots still free. -/
theorem rfs_open_no_shadow_counterexample :
    exStateNoMem.rdentry_of (exStateNoMem.files 2).f_dentry = some 5 ∧
    (exEnvNoOrig.precall_flts (exEnvNoOrig.rchain 6) rcont0
      { exStack with id := REDIRFS_REG_FOP_OPEN, inode := 1, file := 2 }).1 = 0 ∧
    exEnvNoOrig.entry (exEnvNoOrig.fop_old 4) .f_open = none ∧
    (rfs_open exEnvNoOrig exStack 1 2 exStateNoMem).fault? = some .BUG ∧
    ((rfs_open exEnvNoOrig exStack 1 2 exStateNoMem).state.files 2).f_op = exEnvNoOrig.fop_old 4 ∧
    ((rfs_open exEnvNoOrig exStack 1 2 exStateNoMem).state.files 2).f_op = none ∧
    (rfs_open exEnvNoOrig exStack 1 2 exStateNoMem).state.rfs_file_cache = [] ∧
    ((rfs_open exEnvNoOrig exStack 1 2 exStateNoMem).state.rfiles 20).isSome = false ∧
    ((rfs_open exEnvNoOrig exStack 1 2 exStateNoMem).state.rfiles 21).isSome = false := by
  decide

/-- C9: reference-count non-negativity of the open-handle shadow. For a live
`rfile` whose count is a C `int`: with count 0 both `rfs_file_put` and
`rfs_file_get` stop at `BUG_ON` with the state, the count included, untouched;
the decrement of a count `n >= 1` yields `n - 1 >= 0`; with count 1 the object
is torn down (parent put, original-table put, data removal, free, each once)
and leaves the heap; with any other non-zero count only the count changes and
no teardown event is appended. -/
theorem rfs_file_count_never_negative (s : State) (a : Nat) (rf : rfs_file)
    (h : s.rfiles a = some rf)
    (hlo : -2147483648 ≤ rf.count) (hhi : rf.count < 2147483648) :
    (rf.count = 0 →
      rfs_file_put (.ptr a) s = .fault .BUG s ∧ rfs_file_get (.ptr a) s = .fault .BUG s) ∧
    (1 ≤ rf.count →
      (atomic_dec_and_test rf.count).1 = rf.count - 1 ∧ 0 ≤ (atomic_dec_and_test rf.count).1 ∧
      ((atomic_dec_and_test rf.count).2 = true ↔ rf.count = 1)) ∧
    (rf.count = 1 →
      rfs_file_put (.ptr a) s = .ok ()
        { s with
          rfiles := Function.update s.rfiles a none
          rfs_file_cache := a :: s.rfs_file_cache
          trace := s.trace ++ ([.rfs_dentry_put rf.rdentry] ++ fops_put_ev rf.op_old ++
            [.rfs_data_remove a, .kmem_cache_free a]) }) ∧
    (rf.count ≠ 0 → rf.count ≠ 1 →
      rfs_file_put (.ptr a) s = .ok ()
        { s with rfiles := Function.update s.rfiles a (some
            { rf with count := (atomic_dec_and_test rf.count).1 }) } ∧
      (atomic_dec_and_test rf.count).1 ≠ 0) := by
  refine ⟨?_, ?_, ?_, ?_⟩
  · intro h0
    exact ⟨by simp [put_nf, h, h0], by simp [get_nf, h, h0]⟩
  · intro h1
    have hw : wrap32 (rf.count - 1) = rf.count - 1 := wrap32_id _ (by omega) (by omega)
    refine ⟨by simp [atomic_dec_and_test, hw], by simp [atomic_dec_and_test, hw]; omega, ?_⟩
    simp only [atomic_dec_and_test, hw, beq_iff_eq]
    omega
  · intro h1
    simp [put_nf, h, h1, wrap32]
  · intro h0 h1
    have hw : wrap32 (rf.count - 1) ≠ 0 := by
      unfold wrap32
      omega
    simp [put_nf, h, h0, hw, atomic_dec_and_test]

/-- Witness for C9: the shadow at address 30 of the scenario, whose count is 2. -/
theorem rfs_file_count_never_negative_witness :
    (rfs_file_put (.ptr 30) exState = .ok ()
        { exState with rfiles := Function.update exState.rfiles 30 (some
            { exRfile30 with count := (atomic_dec_and_test exRfile30.count).1 }) } ∧
      (atomic_dec_and_test exRfile30.count).1 ≠ 0) :=
  (rfs_file_count_never_negative exState 30 exRfile30 rfl (by decide) (by decide)).2.2.2
    (by decide) (by decide)

/-- C10: an open-handle shadow created by `rfs_file_add` stores in
`rfile->rdentry` the directory-entry shadow that `rfs_dentry_find` returns for
the file's dentry (the lookup that takes the reference), is handed to
`rfs_dentry_add_rfile` with that parent and sits in the parent's list of open
handles, and `rfs_file_add` itself never puts the parent. `rfs_file_put` calls
`rfs_dentry_put` on the parent exactly once when the count is 1 (the call that
drops it to zero) and not at all for any other count. -/
theorem rfs_file_parent_reference (E : Env) (s : State) (file a rd : Nat) (rest : List Nat)
    (hc : s.rfs_file_cache = a :: rest)
    (hf : ∀ p, (s.files file).f_op = some p → p.foreign = true)
    (hrd : s.rdentry_of (s.files file).f_dentry = some rd) :
    (∃ s1 rf, rfs_file_add E file s = .ok (.ptr a) s1 ∧
      s1.rfiles a = some rf ∧ rf.rdentry = s.rdentry_of (s.files file).f_dentry ∧
      0 < rf.count ∧ a ∈ (s1.rdentries rd).rfiles ∧
      (new_events s (rfs_file_add E file s)).count (.rfs_dentry_find (s.files file).f_dentry) = 1 ∧
      (new_events s (rfs_file_add E file s)).count (.rfs_dentry_add_rfile rd a) = 1 ∧
      (new_events s (rfs_file_add E file s)).count (.rfs_dentry_put (some rd)) = 0) ∧
    (∀ (s2 : State) (b : Nat) (rf : rfs_file), s2.rfiles b = some rf →
      -2147483648 ≤ rf.count → rf.count < 2147483648 →
      (new_events s2 (rfs_file_put (.ptr b) s2)).count (.rfs_dentry_put rf.rdentry) =
        if rf.count = 1 then 1 else 0) := by
  constructor
  · obtain ⟨t, ht⟩ := add_run E file a rd rest s hc hf hrd
    refine ⟨_, _, ht, Function.update_same _ _ _, by simp [hrd], by simp, by simp, ?_⟩
    rw [ht]
    simp only [new_events, Res.state, List.drop_left]
    cases (s.files file).f_op <;> simp [fops_get_ev, fops_put_ev]
  · intro s2 b rf h hlo hhi
    by_cases h0 : rf.count = 0
    · simp [put_nf, h, h0, new_events, Res.state]
    · by_cases h1 : rf.count = 1
      · simp [put_nf, h, h1, wrap32, new_events, Res.state, count_fops_put_ev]
      · have hw : wrap32 (rf.count - 1) ≠ 0 := by
          unfold wrap32
          omega
        simp [put_nf, h, h0, h1, hw, new_events, Res.state]

/-- Witness for C10: opening file 2 of the scenario, with the free object 20,
and a put on the shadow at address 30, whose count is 2. -/
theorem rfs_file_parent_reference_witness :
    (∃ s1 rf, rfs_file_add exEnv 2 exState = .ok (.ptr 20) s1 ∧
      s1.rfiles 20 = some rf ∧ rf.rdentry = exState.rdentry_of (exState.files 2).f_dentry ∧
      0 < rf.count ∧ 20 ∈ (s1.rdentries 5).rfiles ∧
      (new_events exState (rfs_file_add exEnv 2 exState)).count
        (.rfs_dentry_find (exState.files 2).f_dentry) = 1 ∧
      (new_events exState (rfs_file_add exEnv 2 exState)).count (.rfs_dentry_add_rfile 5 20) = 1 ∧
      (new_events exState (rfs_file_add exEnv 2 exState)).count (.rfs_dentry_put (some 5)) = 0) ∧
    (new_events exState (rfs_file_put (.ptr 30) exState)).count (.rfs_dentry_put exRfile30.rdentry) =
      (if exRfile30.count = 1 then 1 else 0) :=
  have h := rfs_file_parent_reference exEnv exState 2 20 5 [21] rfl
    (fun p hp => by
      have h1 : TablePtr.rfs_file_ops = p := Option.some.inj hp
      subst h1
      rfl) rfl
  ⟨h.1, h.2 exState 30 exRfile30 rfl (by decide) (by decide)⟩

/-- C11: the operation identifier of a dispatch is decided by the kind of the
inode. For each of the six kinds (regular, directory, symlink, character
device, block device, fifo) `rfs_open` selects that kind's OPEN identifier and
`rfs_release` that kind's RELEASE identifier; the identifier selected is the
one in the argument record that opens the dispatch (the pre-call event) of
`rfs_open` and of `rfs_release` on a shadowed object; for a mode of none of the
six kinds `rfs_open` stops at `BUG()` before any filter phase or original
`open` is reached. -/
theorem rfs_dispatch_id_by_kind (E : Env) (stack : redirfs_args) (inode file : Nat) (s : State) :
    ((S_ISREG (E.i_mode inode) = true →
        rfs_open_id (E.i_mode inode) = some REDIRFS_REG_FOP_OPEN ∧
        rfs_release_id (E.i_mode inode) stack = REDIRFS_REG_FOP_RELEASE) ∧
     (S_ISDIR (E.i_mode inode) = true →
        rfs_open_id (E.i_mode inode) = some REDIRFS_DIR_FOP_OPEN ∧
        rfs_release_id (E.i_mode inode) stack = REDIRFS_DIR_FOP_RELEASE) ∧
     (S_ISLNK (E.i_mode inode) = true →
        rfs_open_id (E.i_mode inode) = some REDIRFS_LNK_FOP_OPEN ∧
        rfs_release_id (E.i_mode inode) stack = REDIRFS_LNK_FOP_RELEASE) ∧
     (S_ISCHR (E.i_mode inode) = true →
        rfs_open_id (E.i_mode inode) = some REDIRFS_CHR_FOP_OPEN ∧
        rfs_release_id (E.i_mode inode) stack = REDIRFS_CHR_FOP_RELEASE) ∧
     (S_ISBLK (E.i_mode inode) = true →
        rfs_open_id (E.i_mode inode) = some REDIRFS_BLK_FOP_OPEN ∧
        rfs_release_id (E.i_mode inode) stack = REDIRFS_BLK_FOP_RELEASE) ∧
     (S_ISFIFO (E.i_mode inode) = true →
        rfs_open_id (E.i_mode inode) = some REDIRFS_FIFO_FOP_OPEN ∧
        rfs_release_id (E.i_mode inode) stack = REDIRFS_FIFO_FOP_RELEASE)) ∧
    (∀ ri rd id, E.rinode_of inode = some ri →
      s.rdentry_of (s.files file).f_dentry = some rd →
      (∀ p, E.fop_old ri = some p → p.foreign = true) →
      rfs_open_id (E.i_mode inode) = some id →
      ∃ rest, dispatch_of (new_events s (rfs_open E stack inode file s)) =
        .precall (E.rchain (s.rdentries rd).rinfo) rcont0
          { stack with id := id, inode := inode, file := file } :: rest) ∧
    (∀ ri rd, E.rinode_of inode = some ri →
      s.rdentry_of (s.files file).f_dentry = some rd →
      S_ISREG (E.i_mode inode) = false → S_ISDIR (E.i_mode inode) = false →
      S_ISLNK (E.i_mode inode) = false → S_ISCHR (E.i_mode inode) = false →
      S_ISBLK (E.i_mode inode) = false → S_ISFIFO (E.i_mode inode) = false →
      (rfs_open E stack inode file s).fault? = some .BUG ∧
      dispatch_of (new_events s (rfs_open E stack inode file s)) = []) ∧
    (∀ a rd rf, (s.files file).f_op = some (.op_new a) →
      s.rfiles a = some rf → rf.rdentry = some rd →
      (∀ p, rf.op_old = some p → p.foreign = true) →
      2 ≤ rf.count → rf.count < 2147483647 →
      ∃ rest, dispatch_of (new_events s (rfs_release E stack inode file s)) =
        .precall (E.rchain (s.rdentries rd).rinfo) rcont0
          { stack with id := rfs_release_id (E.i_mode inode) stack, inode := inode, file := file } ::
          rest) := by
  have hk := kind_exclusive (E.i_mode inode)
  refine ⟨⟨fun h => ⟨(hk.1 h).1, (hk.1 h).2 stack⟩, fun h => ⟨(hk.2.1 h).1, (hk.2.1 h).2 stack⟩,
    fun h => ⟨(hk.2.2.1 h).1, (hk.2.2.1 h).2 stack⟩, fun h => ⟨(hk.2.2.2.1 h).1, (hk.2.2.2.1 h).2 stack⟩,
    fun h => ⟨(hk.2.2.2.2.1 h).1, (hk.2.2.2.2.1 h).2 stack⟩,
    fun h => ⟨(hk.2.2.2.2.2.1 h).1, (hk.2.2.2.2.2.1 h).2 stack⟩⟩, ?_, ?_, ?_⟩
  · intro ri rd id hri hrd hfo hid
    obtain ⟨-, hne, hadd, hbug⟩ :=
      open_summary E s stack inode file ri rd id _ _ _ _ hri hrd hid hfo rfl rfl
    by_cases hp : (prov_args E (E.entry (E.fop_old ri) .f_open)
        [(E.precall_flts (E.rchain (s.rdentries rd).rinfo) rcont0
            { stack with id := id, inode := inode, file := file }).2.2.inode,
         (E.precall_flts (E.rchain (s.rdentries rd).rinfo) rcont0
            { stack with id := id, inode := inode, file := file }).2.2.file] 0
        (E.precall_flts (E.rchain (s.rdentries rd).rinfo) rcont0
            { stack with id := id, inode := inode, file := file }).1
        (E.precall_flts (E.rchain (s.rdentries rd).rinfo) rcont0
            { stack with id := id, inode := inode, file := file }).2.2).rv_int = 0
    · cases hc : s.rfs_file_cache with
      | nil =>
        obtain ⟨s1, -, -, hd, -⟩ := hbug hp hc
        exact ⟨_, by rw [hd]; rfl⟩
      | cons a rest =>
        obtain ⟨s1, t, -, -, hd, -⟩ := hadd hp a rest hc
        exact ⟨_, by rw [hd]; rfl⟩
    · obtain ⟨s1, -, -, hd, -⟩ := hne hp
      exact ⟨_, by rw [hd]; rfl⟩
  · intro ri rd hri hrd h1 h2 h3 h4 h5 h6
    have hid := hk.2.2.2.2.2.2 h1 h2 h3 h4 h5 h6
    rw [open_run_badmode E s stack inode file ri rd hri hrd hid]
    refine ⟨rfl, ?_⟩
    simp [new_events, Res.state, dispatch_of_append, dispatch_of_cons, Event.is_dispatch]
  · intro a rd rf hf h hrd hold hc2 hcmax
    obtain ⟨s1, -, -, -, hd, -⟩ :=
      release_summary E s stack inode file a rd rf _ _ _ _ hf h hrd hold hc2 hcmax rfl rfl
    exact ⟨_, by rw [hd]; rfl⟩

/-- Witness for C11: the regular file 2 of the scenario is opened with
`REDIRFS_REG_FOP_OPEN`, the open of a socket inode stops at `BUG()` with no
dispatch, and the directory file 12 is released with `REDIRFS_DIR_FOP_RELEASE`. -/
theorem rfs_dispatch_id_by_kind_witness :
    (∃ rest, dispatch_of (new_events exState (rfs_open exEnv exStack 1 2 exState)) =
      .precall (some 7) rcont0 { exStack with id := REDIRFS_REG_FOP_OPEN, inode := 1, file := 2 } :: rest) ∧
    (rfs_open exEnvSock exStack 1 2 exState).fault? = some .BUG ∧
    dispatch_of (new_events exState (rfs_open exEnvSock exStack 1 2 exState)) = [] ∧
    (∃ rest, dispatch_of (new_events exState (rfs_release exEnv exStack 8 12 exState)) =
      .precall (some 7) rcont0 { exStack with id := REDIRFS_DIR_FOP_RELEASE, inode := 8, file := 12 } ::
        rest) :=
  have hbad := (rfs_dispatch_id_by_kind exEnvSock exStack 1 2 exState).2.2.1 4 5 rfl rfl
    (by decide) (by decide) (by decide) (by decide) (by decide) (by decide)
  ⟨(rfs_dispatch_id_by_kind exEnv exStack 1 2 exState).2.1 4 5 REDIRFS_REG_FOP_OPEN rfl rfl
      (fun p hp => by
        have h1 : TablePtr.ext 10 = p := Option.some.inj hp
        subst h1
        rfl) rfl,
   hbad.1, hbad.2,
   (rfs_dispatch_id_by_kind exEnv exStack 8 12 exState).2.2.2 30 15 exRfile30 rfl rfl rfl
      (fun p hp => by
        have h1 : TablePtr.ext 11 = p := Option.some.inj hp
        subst h1
        rfl) (by decide) (by decide)⟩

/-- C12: pass-through without a dentry shadow. When `rfs_dentry_find` returns
NULL for the file's dentry, `rfs_open` has written the inode shadow's saved
original table to `file->f_op`, and that is what the file carries on return
unless the original `open` itself installed a table of its own; `rfs_open` runs
neither the pre-call nor the post-call phase (its only dispatch event is the
call of the original `open`, with the caller's inode and file, when there is
one), creates and registers no open-handle shadow, and returns what an
unintercepted open returns: the original `open`'s return value, or 0 when the
original table is NULL or has no `open`. -/
theorem rfs_open_pass_through (E : Env) (stack : redirfs_args) (inode file ri : Nat) (s : State)
    (hri : E.rinode_of inode = some ri)
    (hrd : s.rdentry_of (s.files file).f_dentry = none)
    (hfo : ∀ p, E.fop_old ri = some p → p.foreign = true) :
    ∃ s1, rfs_open E stack inode file s =
        .ok (unintercepted_open E (E.fop_old ri) inode file) s1 ∧
      (s1.files file).f_op =
        open_f_op_left E (E.fop_old ri) (E.entry (E.fop_old ri) .f_open) inode file 0 file ∧
      dispatch_of (new_events s (rfs_open E stack inode file s)) =
        (match E.entry (E.fop_old ri) .f_open with
         | some f => [.call f [inode, file]]
         | none => []) ∧
      postcalls_of (new_events s (rfs_open E stack inode file s)) = [] ∧
      s1.rfiles = s.rfiles ∧ s1.rfs_file_cache = s.rfs_file_cache ∧ s1.rdentries = s.rdentries ∧
      (∀ rd a, (new_events s (rfs_open E stack inode file s)).count (.rfs_dentry_add_rfile rd a) = 0) ∧
      (∀ f, E.entry (E.fop_old ri) .f_open = some f →
        unintercepted_open E (E.fop_old ri) inode file = E.invoke f [inode, file]) ∧
      (E.entry (E.fop_old ri) .f_open = none → unintercepted_open E (E.fop_old ri) inode file = 0) ∧
      (open_installs E (E.entry (E.fop_old ri) .f_open) inode file 0 = none →
        open_f_op_left E (E.fop_old ri) (E.entry (E.fop_old ri) .f_open) inode file 0 file =
          E.fop_old ri) ∧
      (∀ n, open_installs E (E.entry (E.fop_old ri) .f_open) inode file 0 = some n →
        open_f_op_left E (E.fop_old ri) (E.entry (E.fop_old ri) .f_open) inode file 0 file =
          some (.ext n)) := by
  have hrun := open_run_passthrough E s stack inode file ri hri hrd hfo
  refine ⟨_, hrun, by simp [open_files_f_op], ?_, ?_, rfl, rfl, rfl, ?_, ?_, ?_,
    fun h => open_f_op_left_none E _ _ _ _ _ _ h,
    fun n h => open_f_op_left_some E _ _ _ _ _ _ n h rfl⟩
  · rw [hrun]
    cases he : E.entry (E.fop_old ri) .f_open <;>
      simp [new_events, Res.state, dispatch_of_append, dispatch_of_cons, Event.is_dispatch, orig_events]
  · rw [hrun]
    simp [new_events, Res.state, postcalls_of_append, postcalls_of]
  · intro rd a
    rw [hrun]
    simp only [new_events, Res.state, List.drop_left]
    generalize E.entry (E.fop_old ri) .f_open = e
    cases (s.files file).f_op <;> cases E.fop_old ri <;> cases e <;>
      simp [fops_get_ev, fops_put_ev, List.count_append, orig_events]
  · intro f he
    simp [unintercepted_open, he]
  · intro he
    simp [unintercepted_open, he]

/-- Witness for C12: file 2 is opened while no dentry has a shadow and the
original `open` fails with `-EACCES` (-13) and leaves `file->f_op` alone; the
caller gets -13 and the file carries the saved original table. -/
theorem rfs_open_pass_through_witness :
    ∃ s1, rfs_open exEnvFail exStack 1 2 exStateBare = .ok (-13) s1 ∧
      (s1.files 2).f_op = exEnvFail.fop_old 4 ∧
      dispatch_of (new_events exStateBare (rfs_open exEnvFail exStack 1 2 exStateBare)) =
        [.call (.impl 100) [1, 2]] := by
  obtain ⟨s1, hrun, hfop, hd, -, -, -, -, -, -, -, hnone, -⟩ :=
    rfs_open_pass_through exEnvFail exStack 1 2 4 exStateBare rfl rfl
    (fun p hp => by
      have h1 : TablePtr.ext 10 = p := Option.some.inj hp
      subst h1
      rfl)
  exact ⟨s1, hrun, hfop.trans (hnone rfl), hd⟩

/-- C13: the release hook after `rfs_file_set_ops`. When the parent
directory-entry shadow has an inode shadow, `rfs_file_set_ops(rfile)` returns
with `rfile->op_new.release == rfs_release`, whatever the kind of the inode and
whatever operations the filters have registered. When the parent has no inode
shadow, `rfs_file_set_ops` returns at `if (!rfile->rdentry->rinode) return;`
and writes nothing: a shadow that `rfs_file_add` creates under such a parent is
installed on the file with `open` hooked and with `release` still the copy of
the original table's member (NULL when there is none), not `rfs_release`. -/
theorem rfs_file_set_ops_release_hook (E : Env) (s : State) :
    (∀ a rd ri rf, s.rfiles a = some rf → rf.rdentry = some rd →
      (∀ p, rf.op_old = some p → p.foreign = true) →
      (s.rdentries rd).rinode = some ri →
      ∃ s1 rf1, rfs_file_set_ops E (.ptr a) s = .ok () s1 ∧ s1.rfiles a = some rf1 ∧
        rf1.op_new .f_release = some .rfs_release) ∧
    (∀ a rd rf, s.rfiles a = some rf → rf.rdentry = some rd →
      (s.rdentries rd).rinode = none →
      rfs_file_set_ops E (.ptr a) s = .ok () s) ∧
    (∀ file a rd rest, s.rfs_file_cache = a :: rest →
      (∀ p, (s.files file).f_op = some p → p.foreign = true) →
      s.rdentry_of (s.files file).f_dentry = some rd →
      (s.rdentries rd).rinode = none →
      ∃ s1 rf1, rfs_file_add E file s = .ok (.ptr a) s1 ∧
        (s1.files file).f_op = some (.op_new a) ∧ s1.rfiles a = some rf1 ∧
        rf1.op_new .f_open = some .rfs_open ∧
        rf1.op_new .f_release = E.entry (s.files file).f_op .f_release) := by
  refine ⟨?_, ?_, ?_⟩
  · intro a rd ri rf h hrd hold hri
    obtain ⟨t, ht⟩ := set_ops_release E a rd ri rf s h hrd hold hri
    exact ⟨_, _, ht, Function.update_same _ _ _, by simp⟩
  · intro a rd rf h hrd hri
    exact set_ops_norinode E a rd rf s h hrd hri
  · intro file a rd rest hc hf hrd hri
    refine ⟨_, _, add_run_norinode E file a rd rest s hc hf hrd hri, by simp,
      Function.update_same _ _ _, by simp, ?_⟩
    cases hop : (s.files file).f_op <;> simp [Env.entry, Function.update]

/-- Witness for C13: `rfs_file_add` on file 2 of the scenario when the parent
shadow 5 has no inode shadow: the shadow at 20 is installed with `open` hooked
and no release hook. -/
theorem rfs_file_set_ops_release_hook_witness :
    ∃ s1 rf1, rfs_file_add exEnv 2 exStateNoRinode = .ok (.ptr 20) s1 ∧
      (s1.files 2).f_op = some (.op_new 20) ∧ s1.rfiles 20 = some rf1 ∧
      rf1.op_new .f_open = some .rfs_open ∧ rf1.op_new .f_release = none :=
  (rfs_file_set_ops_release_hook exEnv exStateNoRinode).2.2 2 20 5 [21] rfl
    (fun p hp => by
      have h1 : TablePtr.rfs_file_ops = p := Option.some.inj hp
      subst h1
      rfl) rfl rfl

/-- The same parent under `rfs_open`: the open of file 2 succeeds and installs
the shadow at 20, whose `release` is the original `release` (`impl 101`) and not
`rfs_release`. -/
theorem rfs_release_hook_missing_evaluation :
    (rfs_open exEnv exStack 1 2 exStateNoRinode).value = some 0 ∧
    ((rfs_open exEnv exStack 1 2 exStateNoRinode).state.files 2).f_op = some (.op_new 20) ∧
    (((rfs_open exEnv exStack 1 2 exStateNoRinode).state.rfiles 20).map
      (fun rf => (rf.op_new .f_open, rf.op_new .f_release))) =
        some (some .rfs_open, some (.impl 101)) := by
  decide

/-- C14 (amended): eager population in `rfs_readdir`. On a directory, with
`fin` the result slot the post-call phase leaves: when `fin` is non-zero
`rfs_readdir` returns it and registers no child. When `fin` is 0 and
`rfs_dcache_get_subs` returns the (distinct) children `sibs`, the children
handed to `rfs_dcache_rdentry_add`, with the directory's filter info, are in
order exactly those that have no dentry shadow and, when `rinfo->rops` is NULL,
have an inode that is a directory, provided every registration succeeds; a
child with a dentry shadow is never registered. When a registration fails,
`rfs_readdir` stops at `BUG()` right after it and the children behind it are
not visited; when `rfs_dcache_get_subs` fails it stops at `BUG()` with nothing
registered. On a file that is not a directory `rfs_readdir` returns `-ENOTDIR`,
runs no filter phase and no original operation, and registers no child. -/
theorem rfs_readdir_eager_population (E : Env) (stack : redirfs_args) (file dirent filldir : Nat)
    (s : State) (a rd i : Nat) (rf : rfs_file)
    (hf : (s.files file).f_op = some (.op_new a))
    (h : s.rfiles a = some rf) (hrd : rf.rdentry = some rd)
    (hold : ∀ p, rf.op_old = some p → p.foreign = true)
    (hc1 : 1 ≤ rf.count) (hcmax : rf.count < 2147483647)
    (hdi : E.d_inode (s.files file).f_dentry = some i) :
    (S_ISDIR (E.i_mode i) = true → ∀ stop c1 a2 fin,
      E.precall_flts (E.rchain (s.rdentries rd).rinfo) rcont0
        { stack with id := REDIRFS_DIR_FOP_READDIR, file := file, dirent := dirent,
                     filldir := filldir } = (stop, c1, a2) →
      fin = (E.postcall_flts (E.rchain (s.rdentries rd).rinfo) c1
        (prov_args E (E.entry rf.op_old .f_readdir) [a2.file, a2.dirent, a2.filldir]
          (-ENOTDIR) stop a2)).2.rv_int →
      (fin ≠ 0 →
        (rfs_readdir E stack file dirent filldir s).value = some fin ∧
        registered_of (new_events s (rfs_readdir E stack file dirent filldir s)) = []) ∧
      (fin = 0 → ∀ sibs, E.dcache_subs (s.files file).f_dentry = some sibs → sibs.Nodup →
        (∀ d ∈ sibs, readdir_registers E s.rdentry_of (s.rdentries rd).rinfo d = true →
          (E.dcache_rdentry_add d (s.rdentries rd).rinfo).1 = 0) →
        (rfs_readdir E stack file dirent filldir s).value = some 0 ∧
        registered_of (new_events s (rfs_readdir E stack file dirent filldir s)) =
          (sibs.filter (readdir_registers E s.rdentry_of (s.rdentries rd).rinfo)).map
            (fun d => (d, (s.rdentries rd).rinfo))) ∧
      (fin = 0 → ∀ pre d post, E.dcache_subs (s.files file).f_dentry = some (pre ++ d :: post) →
        (pre ++ d :: post).Nodup →
        (∀ x ∈ pre, readdir_registers E s.rdentry_of (s.rdentries rd).rinfo x = true →
          (E.dcache_rdentry_add x (s.rdentries rd).rinfo).1 = 0) →
        readdir_registers E s.rdentry_of (s.rdentries rd).rinfo d = true →
        (E.dcache_rdentry_add d (s.rdentries rd).rinfo).1 ≠ 0 →
        (rfs_readdir E stack file dirent filldir s).fault? = some .BUG ∧
        registered_of (new_events s (rfs_readdir E stack file dirent filldir s)) =
          (pre.filter (readdir_registers E s.rdentry_of (s.rdentries rd).rinfo) ++ [d]).map
            (fun x => (x, (s.rdentries rd).rinfo))) ∧
      (fin = 0 → E.dcache_subs (s.files file).f_dentry = none →
        (rfs_readdir E stack file dirent filldir s).fault? = some .BUG ∧
        registered_of (new_events s (rfs_readdir E stack file dirent filldir s)) = [])) ∧
    (S_ISDIR (E.i_mode i) = false →
      (rfs_readdir E stack file dirent filldir s).value = some (-ENOTDIR) ∧
      dispatch_of (new_events s (rfs_readdir E stack file dirent filldir s)) = [] ∧
      registered_of (new_events s (rfs_readdir E stack file dirent filldir s)) = []) := by
  have hc2 : 2 ≤ ({ rf with count := rf.count + 1 } : rfs_file).count := by simp; omega
  have hm2 : ({ rf with count := rf.count + 1 } : rfs_file).count < 2147483648 := by simp; omega
  have hex := fun (e0 : List Event) (rv : Int) =>
    exit_run E a (s.rdentries rd).rinfo (s.files file).f_dentry rv
      { s with
        rfiles := Function.update s.rfiles a (some { rf with count := rf.count + 1 })
        trace := s.trace ++ e0 }
      { rf with count := rf.count + 1 } (by simp) hc2 hm2
  constructor
  · intro hdir stop c1 a2 fin hpre hfin
    have hrun := readdir_run_dir E s stack file dirent filldir a rd i rf stop c1 a2 hf h hrd hold
      hc1 hcmax hdi hdir hpre
    rw [← hfin] at hrun
    obtain ⟨hne, hnone, hsome, hfail⟩ := hex _ fin
    refine ⟨?_, ?_, ?_, ?_⟩
    · intro h0
      rw [hrun, hne h0]
      refine ⟨rfl, ?_⟩
      simp [new_events, Res.state, registered_of_append, registered_of]
    · intro h0 sibs hsubs hnd hok
      obtain ⟨s1, evs, h1, h2, h3, -⟩ := hsome h0 sibs hsubs hnd hok
      rw [hrun, h1]
      refine ⟨rfl, ?_⟩
      simp only [new_events, Res.state, h2, List.append_assoc, List.drop_left]
      simp [registered_of_append, registered_of, h3]
    · intro h0 pre d post hsubs hnd hok hreg hbad
      exact readdir_run_fail E s stack file dirent filldir a rd i rf stop c1 a2 pre d post hf h hrd
        hold hc1 hcmax hdi hdir hpre (by rw [← hfin]; exact h0) hsubs hnd hok hreg hbad
    · intro h0 hsubs
      rw [hrun, hnone h0 hsubs]
      refine ⟨rfl, ?_⟩
      simp [new_events, Res.state, registered_of_append, registered_of]
  · intro hdir
    have hrun := readdir_run_notdir E s stack file dirent filldir a rd i rf hf h hrd hc1 hcmax hdi hdir
    obtain ⟨hne, -⟩ := hex _ (-ENOTDIR)
    rw [hrun, hne (by decide)]
    refine ⟨rfl, ?_, ?_⟩
    · simp [new_events, Res.state, dispatch_of_append, dispatch_of_cons, Event.is_dispatch]
    · simp [new_events, Res.state, registered_of_append, registered_of]


/-- Witness for C14 (amended): `rfs_readdir` on the open directory file 12.
With filter operations registered the children 50, 51 and 52 are registered and
the shadowed child 3 is skipped; without, only the directory 51; with an
original table without `readdir` the result is `-ENOTDIR` and nothing is
registered; file 22 is not a directory. -/
theorem rfs_readdir_eager_population_witness :
    registered_of (new_events exState (rfs_readdir exEnvList exStack 12 0 0 exState)) =
      [(50, 6), (51, 6), (52, 6)] ∧
    registered_of (new_events exState (rfs_readdir exEnvListNoOps exStack 12 0 0 exState)) =
      [(51, 6)] ∧
    registered_of (new_events exState (rfs_readdir exEnv exStack 12 0 0 exState)) = [] ∧
    (rfs_readdir exEnv exStack 22 0 0 exState).value = some (-ENOTDIR) :=
  ⟨((((rfs_readdir_eager_population exEnvList exStack 12 0 0 exState 30 15 8 exRfile30 rfl rfl rfl
        (fun p hp => by
          have h1 : TablePtr.ext 11 = p := Option.some.inj hp
          subst h1
          rfl) (by decide) (by decide) rfl).1 rfl 0 rcont0
        { exStack with id := REDIRFS_DIR_FOP_READDIR, file := 12 } 0 rfl rfl).2.1 rfl
        [3, 50, 51, 52] rfl (by decide) (fun _ _ _ => rfl)).2).trans (by decide),
   ((((rfs_readdir_eager_population exEnvListNoOps exStack 12 0 0 exState 30 15 8 exRfile30 rfl rfl rfl
        (fun p hp => by
          have h1 : TablePtr.ext 11 = p := Option.some.inj hp
          subst h1
          rfl) (by decide) (by decide) rfl).1 rfl 0 rcont0
        { exStack with id := REDIRFS_DIR_FOP_READDIR, file := 12 } 0 rfl rfl).2.1 rfl
        [3, 50, 51, 52] rfl (by decide) (fun _ _ _ => rfl)).2).trans (by decide),
   (((rfs_readdir_eager_population exEnv exStack 12 0 0 exState 30 15 8 exRfile30 rfl rfl rfl
        (fun p hp => by
          have h1 : TablePtr.ext 11 = p := Option.some.inj hp
          subst h1
          rfl) (by decide) (by decide) rfl).1 rfl 0 rcont0
        { exStack with id := REDIRFS_DIR_FOP_READDIR, file := 12 } (-ENOTDIR) rfl rfl).1
        (by decide)).2,
   ((rfs_readdir_eager_population exEnv exStack 22 0 0 exState 40 5 1 exRfile40 rfl rfl rfl
        (fun p hp => absurd (show (none : Option TablePtr) = some p from hp) (by simp))
        (by decide) (by decide) rfl).2 rfl).1⟩

/-- Counterexample to C14 as stated: the listing of the directory behind file 12
ends with result 0 and `rfs_dcache_get_subs` returns the children 3, 50, 51 and
52; the registration of child 50 fails, `rfs_readdir` stops at `BUG()`, and the
children 51 and 52, which have no dentry shadow, are not registered. -/
theorem rfs_readdir_registration_fails_counterexample :
    exEnvListFail.dcache_subs (exState.files 12).f_dentry = some [3, 50, 51, 52] ∧
    (exEnvListFail.precall_flts (exEnvListFail.rchain 6) rcont0
      { exStack with id := REDIRFS_DIR_FOP_READDIR, file := 12 }).1 = 0 ∧
    exEnvListFail.entry exRfile30.op_old .f_readdir = some (.impl 112) ∧
    (exEnvListFail.postcall_flts (exEnvListFail.rchain 6) rcont0
      { exStack with id := REDIRFS_DIR_FOP_READDIR, file := 12,
                     rv_int := exEnvListFail.invoke (.impl 112) [12, 0, 0] }).2.rv_int = 0 ∧
    exState.rdentry_of 51 = none ∧ exState.rdentry_of 52 = none ∧
    (exEnvListFail.rops 6).isSome = true ∧
    (rfs_readdir exEnvListFail exStack 12 0 0 exState).fault? = some .BUG ∧
    registered_of (new_events exState (rfs_readdir exEnvListFail exStack 12 0 0 exState)) =
      [(50, 6)] := by
  have h := readdir_run_fail exEnvListFail exState exStack 12 0 0 30 15 8 exRfile30 0 rcont0
    { exStack with id := REDIRFS_DIR_FOP_READDIR, file := 12 } [3] 50 [51, 52] rfl rfl rfl
    (fun p hp => by
      have h1 : TablePtr.ext 11 = p := Option.some.inj hp
      subst h1
      rfl) (by decide) (by decide) rfl rfl rfl rfl rfl (by decide)
    (fun x hx hr => by
      have hx3 : x = 3 := by simpa using hx
      subst hx3
      exact absurd hr (by decide))
    (by decide) (by decide)
  exact ⟨rfl, rfl, rfl, rfl, rfl, rfl, rfl, h.1, h.2.trans (by decide)⟩

/-- C15 (amended): `rfs_file_get` returns NULL and leaves the state alone when
it is given NULL or an error-encoded pointer, and `rfs_file_put` does nothing
on the same inputs. For a live `rfile` whose count `n` is at least 1,
`rfs_file_get` returns the same pointer with the count `atomic_inc` leaves:
`n + 1` for every `n` below `INT_MAX`, and `INT_MIN` for `n = INT_MAX`, where
the 32-bit counter wraps. In both cases `rfs_file_put` on the result gives back
the very state before the get: the count is `n` again, the object is still live
and no teardown event is recorded. -/
theorem rfs_file_get_put_roundtrip (s : State) :
    (rfs_file_get .null s = .ok .null s ∧ ∀ e, rfs_file_get (.err e) s = .ok .null s) ∧
    (rfs_file_put .null s = .ok () s ∧ ∀ e, rfs_file_put (.err e) s = .ok () s) ∧
    (∀ a rf, s.rfiles a = some rf → 1 ≤ rf.count → rf.count < 2147483648 →
      rfs_file_get (.ptr a) s = .ok (.ptr a)
        { s with rfiles := Function.update s.rfiles a (some
            { rf with count := atomic_inc rf.count }) } ∧
      (rf.count < 2147483647 → atomic_inc rf.count = rf.count + 1) ∧
      (rf.count = 2147483647 → atomic_inc rf.count = -2147483648) ∧
      rfs_file_put (.ptr a)
        { s with rfiles := Function.update s.rfiles a (some
            { rf with count := atomic_inc rf.count }) } = .ok () s) := by
  refine ⟨⟨rfl, fun _ => rfl⟩, ⟨rfl, fun _ => rfl⟩, ?_⟩
  intro a rf h h1 hmax
  have n0 : rf.count ≠ 0 := by omega
  have hinc : wrap32 (rf.count + 1) ≠ 0 := by
    unfold wrap32
    omega
  have hdec : wrap32 (wrap32 (rf.count + 1) - 1) = rf.count := by
    unfold wrap32
    omega
  have hself : Function.update s.rfiles a (some rf) = s.rfiles := by
    rw [← h]
    exact Function.update_eq_self a s.rfiles
  refine ⟨by simp [get_nf, h, n0, atomic_inc], ?_, ?_, ?_⟩
  · intro hlt
    exact wrap32_id _ (by omega) (by omega)
  · intro heq
    rw [heq]
    decide
  · simp [put_nf, atomic_inc, hinc, hdec, n0, hself]

/-- Witness for C15 (amended): the shadow at address 30 of the scenario, whose
count is 2, and the same shadow with the count `INT_MAX`. -/
theorem rfs_file_get_put_roundtrip_witness :
    (rfs_file_get (.ptr 30) exState = .ok (.ptr 30)
        { exState with rfiles := Function.update exState.rfiles 30 (some
            { exRfile30 with count := atomic_inc exRfile30.count }) } ∧
      atomic_inc exRfile30.count = 3 ∧
      rfs_file_put (.ptr 30)
        { exState with rfiles := Function.update exState.rfiles 30 (some
            { exRfile30 with count := atomic_inc exRfile30.count }) } = .ok () exState) ∧
    (atomic_inc (2147483647 : Int) = -2147483648 ∧
      rfs_file_put (.ptr 30)
        { exStateMax with rfiles := Function.update exStateMax.rfiles 30 (some
            { exRfile30 with count := atomic_inc (2147483647 : Int) }) } = .ok () exStateMax) :=
  have h := (rfs_file_get_put_roundtrip exState).2.2 30 exRfile30 rfl (by decide) (by decide)
  have k := (rfs_file_get_put_roundtrip exStateMax).2.2 30 { exRfile30 with count := 2147483647 }
    rfl (by decide) (by decide)
  ⟨⟨h.1, h.2.1 (by decide), h.2.2.2⟩, k.2.2.1 rfl, k.2.2.2⟩

/-- Counterexample to C15 as stated: the live shadow at address 30 has count
`INT_MAX` (2147483647, at least 1); `rfs_file_get` returns it with the count
-2147483648, not 2147483648. -/
theorem rfs_file_get_wraps_counterexample :
    (exStateMax.rfiles 30).map (fun rf => rf.count) = some 2147483647 ∧
    (rfs_file_get (.ptr 30) exStateMax).value = some (.ptr 30) ∧
    ((rfs_file_get (.ptr 30) exStateMax).state.rfiles 30).map (fun rf => rf.count) =
      some (-2147483648) ∧
    (-2147483648 : Int) ≠ 2147483647 + 1 := by
  decide

/-- C16 (amended): the table an open-handle shadow created through `rfs_open`
captures. Whatever `file->f_op` held when `rfs_open` was entered, when the
provisional result is 0 and the slab cache has a free object the shadow
installed on the file has in `op_old` the table `file->f_op` holds when the
original-call phase is over: the inode shadow's saved original table
`rinode->fop_old`, which `rfs_open` wrote, unless the original `open` was handed
this file and installed a table of its own, which is then the one captured.
When `rinode->fop_old` is a table of the underlying implementation, so is
`op_old`: it is neither a shadow table nor `&rfs_file_ops`. The original `open`
that `rfs_open` calls is the `open` of `rinode->fop_old`; the original `release`
that a later `rfs_release` calls on the file, while the shadow is installed
with the same captured pointer, is the `release` of the captured table. -/
theorem rfs_open_captures_saved_table (E : Env) (stack : redirfs_args) (inode file : Nat) (s : State)
    (ri rd : Nat) (id : OpId) (stop : Int) (c1 : rfs_context) (a2 : redirfs_args)
    (a : Nat) (rest : List Nat)
    (hri : E.rinode_of inode = some ri)
    (hrd : s.rdentry_of (s.files file).f_dentry = some rd)
    (hid : rfs_open_id (E.i_mode inode) = some id)
    (hext : ∀ p, E.fop_old ri = some p → ∃ n, p = .ext n)
    (hpre : E.precall_flts (E.rchain (s.rdentries rd).rinfo) rcont0
      { stack with id := id, inode := inode, file := file } = (stop, c1, a2))
    (hzero1 : stop ≠ 0 → a2.rv_int = 0)
    (hzero2 : ∀ f, stop = 0 → E.entry (E.fop_old ri) .f_open = some f →
      E.invoke f [a2.inode, a2.file] = 0)
    (hc : s.rfs_file_cache = a :: rest) :
    ∃ v s1 rf, rfs_open E stack inode file s = .ok v s1 ∧
      (s1.files file).f_op = some (.op_new a) ∧ s1.rfiles a = some rf ∧
      rf.op_old = (open_f_op_left E (E.fop_old ri) (E.entry (E.fop_old ri) .f_open) a2.inode a2.file stop file) ∧
      (open_installs E (E.entry (E.fop_old ri) .f_open) a2.inode a2.file stop = none → rf.op_old = E.fop_old ri) ∧
      (∀ n, open_installs E (E.entry (E.fop_old ri) .f_open) a2.inode a2.file stop = some n → a2.file = file → rf.op_old = some (.ext n)) ∧
      (∀ p, rf.op_old = some p → ∃ n, p = .ext n) ∧
      calls_of (new_events s (rfs_open E stack inode file s)) =
        calls_of (orig_events (E.entry (E.fop_old ri) .f_open) [a2.inode, a2.file] stop) ∧
      (∀ (stack3 : redirfs_args) (inode3 rd3 : Nat) (s3 : State) (rf3 : rfs_file)
          (stop3 : Int) (c3 : rfs_context) (a3 : redirfs_args),
        (s3.files file).f_op = some (.op_new a) → s3.rfiles a = some rf3 →
        rf3.op_old = rf.op_old → rf3.rdentry = some rd3 →
        2 ≤ rf3.count → rf3.count < 2147483647 →
        E.precall_flts (E.rchain (s3.rdentries rd3).rinfo) rcont0
          { stack3 with id := rfs_release_id (E.i_mode inode3) stack3, inode := inode3, file := file } =
            (stop3, c3, a3) →
        calls_of (new_events s3 (rfs_release E stack3 inode3 file s3)) =
          calls_of (orig_events (E.entry rf.op_old .f_release) [a3.inode, a3.file] stop3)) := by
  have hfo : ∀ p, E.fop_old ri = some p → p.foreign = true := by
    intro p hp
    obtain ⟨n, hn⟩ := hext p hp
    subst hn
    rfl
  have hp : (prov_args E (E.entry (E.fop_old ri) .f_open) [a2.inode, a2.file] 0 stop a2).rv_int
      = 0 := by
    by_cases hs : stop = 0
    · cases he : E.entry (E.fop_old ri) .f_open with
      | none => simp [prov_args, hs]
      | some f => simpa [prov_args, hs, he] using hzero2 f hs he
    · simpa [prov_args, hs] using hzero1 hs
  obtain ⟨hcalls, -, hadd, -⟩ :=
    open_summary E s stack inode file ri rd id stop c1 a2 _ hri hrd hid hfo hpre rfl
  obtain ⟨s1, t, hrun, -, -, hfop, hrf, -⟩ := hadd hp a rest hc
  have hL := open_f_op_left_ext E (E.fop_old ri) (E.entry (E.fop_old ri) .f_open)
    a2.inode a2.file stop file hext
  refine ⟨_, s1, _, hrun, hfop, by rw [hrf]; exact Function.update_same _ _ _, rfl,
    fun h => open_f_op_left_none E _ _ _ _ _ _ h,
    fun n h hf => open_f_op_left_some E _ _ _ _ _ _ n h hf, hL, hcalls, ?_⟩
  intro stack3 inode3 rd3 s3 rf3 stop3 c3 a3 hf3 h3 hold3 hrd3 hc2 hcmax hpre3
  have hold : rf3.op_old = (open_f_op_left E (E.fop_old ri) (E.entry (E.fop_old ri) .f_open) a2.inode a2.file stop file) := hold3
  obtain ⟨s4, -, hc4, -⟩ := release_summary E s3 stack3 inode3 file a rd3 rf3 stop3 c3 a3 _ hf3 h3 hrd3
    (fun p hpp => by
      obtain ⟨n, hn⟩ := hL p (by rw [← hold]; exact hpp)
      subst hn
      rfl) hc2 hcmax hpre3 rfl
  rw [hc4, hold]

/-- Witness for C16 (amended): file 2 of the scenario enters `rfs_open` with
`&rfs_file_ops` installed and the original `open` leaves `file->f_op` alone; the
shadow at 20 captures the saved original table `ext 10`. -/
theorem rfs_open_captures_saved_table_witness :
    (exState.files 2).f_op = some .rfs_file_ops ∧
    ∃ v s1 rf, rfs_open exEnv exStack 1 2 exState = .ok v s1 ∧
      (s1.files 2).f_op = some (.op_new 20) ∧ s1.rfiles 20 = some rf ∧
      rf.op_old = some (.ext 10) := by
  obtain ⟨v, s1, rf, hrun, hfop, hrf, -, hold, -⟩ :=
    rfs_open_captures_saved_table exEnv exStack 1 2 exState 4 5 REDIRFS_REG_FOP_OPEN 0 rcont0
      { exStack with id := REDIRFS_REG_FOP_OPEN, inode := 1, file := 2 } 20 [21] rfl rfl rfl
      (fun p hp => ⟨10, (Option.some.inj hp).symm⟩) rfl (fun h => absurd rfl h)
      (fun _ _ _ => rfl) rfl
  exact ⟨rfl, v, s1, rf, hrun, hfop, hrf, hold rfl⟩

/-- Counterexample to C16 as stated: the inode shadow's saved original table is
`ext 10`, whose `open` (`impl 100`) `rfs_open` calls on file 2; that `open`
installs the driver's table `ext 12` on the file and returns 0, so the shadow
created at 20 captures `ext 12`, not `rinode->fop_old`. A later `rfs_release`
looks `release` up in `ext 12`, which has none, and calls nothing, although the
saved original table has a `release` (`impl 101`). -/
theorem rfs_open_captures_installed_table_counterexample :
    exEnvChr.fop_old 4 = some (.ext 10) ∧
    exEnvChr.entry (exEnvChr.fop_old 4) .f_open = some (.impl 100) ∧
    exEnvChr.entry (exEnvChr.fop_old 4) .f_release = some (.impl 101) ∧
    calls_of (new_events exState (rfs_open exEnvChr exStack 1 2 exState)) = [(.impl 100, [1, 2])] ∧
    ∃ v s1 rf, rfs_open exEnvChr exStack 1 2 exState = .ok v s1 ∧
      (s1.files 2).f_op = some (.op_new 20) ∧ s1.rfiles 20 = some rf ∧
      rf.op_old = some (.ext 12) ∧ rf.op_old ≠ exEnvChr.fop_old 4 ∧
      calls_of (new_events s1 (rfs_release exEnvChr exStack 1 2 s1)) = [] := by
  obtain ⟨hcalls, -, hadd, -⟩ :=
    open_summary exEnvChr exState exStack 1 2 4 5 REDIRFS_REG_FOP_OPEN 0 rcont0
      { exStack with id := REDIRFS_REG_FOP_OPEN, inode := 1, file := 2 } _ rfl rfl rfl
      (fun p hp => by
        have h1 : TablePtr.ext 10 = p := Option.some.inj hp
        subst h1
        rfl) rfl rfl
  obtain ⟨s1, t, hrun, -, -, hfop, hrf, -⟩ := hadd rfl 20 [21] rfl
  have hrf20 : s1.rfiles 20 = some
      { file := 2, rdentry := some 5, count := 2, op_old := some (.ext 12), op_new := t,
        data := [] } := by
    rw [hrf]
    exact Function.update_same _ _ _
  obtain ⟨s4, -, hc4, -⟩ := release_summary exEnvChr s1 exStack 1 2 20 5 _ 0 rcont0
    { exStack with id := REDIRFS_REG_FOP_RELEASE, inode := 1, file := 2 } _ hfop hrf20 rfl
    (fun p hp => by
      have h1 : TablePtr.ext 12 = p := Option.some.inj hp
      subst h1
      rfl) (show (2 : Int) ≤ 2 by decide) (show (2 : Int) < 2147483647 by decide) rfl rfl
  exact ⟨rfl, rfl, rfl, hcalls.trans (by decide), _, s1, _, hrun, hfop, hrf20, rfl,
    (show some (TablePtr.ext 12) ≠ some (TablePtr.ext 10) by decide), hc4.trans rfl⟩

end RedirFS
